import Mathlib

/-!
# The event loop of the psc client (`proxy_loop` in `src/client.cc`)

A shallow embedding of the per-descriptor body of the event loop: the state table
`fd2state`, the readiness array `pfds`, the two peer-key maps and the loop locals are
an explicit state; the results of system calls and of the codec are explicit inputs; the
system calls the step performs are returned as a list of effects.

Bytes are natural numbers, byte strings are lists of them.
-/

set_option linter.dupNamespace false

namespace Psc

/-- The roles a descriptor can have (the `STATE_` constants used by `proxy_loop`). -/
inductive Role
  | STATE_INVALID
  | STATE_STDIN
  | STATE_STDOUT
  | STATE_PTY
  | STATE_ACCEPT
  | STATE_UDPSERVER
  | STATE_SOCKS4_ACCEPT
  | STATE_SOCKS5_ACCEPT
  | STATE_SCRIPT_ACCEPT
  | STATE_SOCKS4_AUTH
  | STATE_SOCKS5_AUTH1
  | STATE_SOCKS5_AUTH2
  | STATE_CONNECT
  | STATE_CONNECTED
  | STATE_CLOSING
  | STATE_SCRIPT_IO
  deriving DecidableEq

open Role

/-- Modelled from the spec: the per-descriptor record `struct state`, whose declaration is in a
header that is not under src/. Section 3 of the spec lists its fields; `fd` is -1 when unused
and a fresh record has role INVALID. -/
structure state where
  fd : Int := -1
  state : Role := STATE_INVALID
  rnode : List Nat := []
  obuf : List Nat := []
  odgrams : List (List Nat) := []
  ulports : List Nat := []
  time : Int := 0

/-- One entry of the readiness array (`struct pollfd` of poll.h). -/
structure pollfd where
  fd : Int := -1
  events : Nat := 0
  revents : Nat := 0

/-- Readiness bit POLLIN of poll.h. -/
def POLLIN : Nat := 1

/-- Readiness bit POLLOUT of poll.h. -/
def POLLOUT : Nat := 4

/-- Readiness bit POLLERR of poll.h. -/
def POLLERR : Nat := 8

/-- Readiness bit POLLHUP of poll.h. -/
def POLLHUP : Nat := 16

/-- Readiness bit POLLNVAL of poll.h. -/
def POLLNVAL : Nat := 32

/-- Error number EINTR of errno.h. -/
def EINTR : Int := 4

/-- Error number EAGAIN of errno.h. -/
def EAGAIN : Int := 11

/-- Error number EWOULDBLOCK of errno.h (the same value as EAGAIN). -/
def EWOULDBLOCK : Int := 11

/-- Address family AF_INET. -/
def AF_INET : Nat := 2

/-- Address family AF_INET6. -/
def AF_INET6 : Nat := 10

/-- The constant `CHUNK_SIZE` of `proxy_loop` (line 241). -/
def CHUNK_SIZE : Nat := 8192

/-- The C expression `e & ~m` on a non-negative `e`: the bits of `m` are cleared. -/
def and_not (e m : Nat) : Nat := e ^^^ (e &&& m)

/-- Digits of a natural number, most significant first, as ASCII bytes; `fuel` bounds the
number of digits produced. -/
def decimalAux : Nat → Nat → List Nat → List Nat
  | 0, _, acc => acc
  | fuel + 1, n, acc =>
    if n < 10 then (48 + n) :: acc else decimalAux fuel (n / 10) ((48 + n % 10) :: acc)

/-- Decimal text of a natural number, as printf prints it. -/
def decimal (n : Nat) : List Nat := decimalAux (n + 1) n []

/-- The printf conversion `%d` of an int. -/
def fmt_d (n : Int) : List Nat := if n < 0 then 45 :: decimal n.natAbs else decimal n.toNat

/-- The id text of lines 368-369 and 546-547: `snprintf(id, sizeof(id) - 1, "%d/", n)` with
`char id[16]`, so at most 14 characters are stored. -/
def snprintf_id (n : Int) : List Nat := (fmt_d n ++ [47]).take 14

/-- The header text of lines 455-456 and 520-521:
`snprintf(hdr, sizeof(hdr) - 1, "%s/%d/%d/", dst, rport, i)` with `char hdr[256]`, so at most
254 characters are stored. -/
def snprintf_hdr (dst : List Nat) (rport : Nat) (i : Int) : List Nat :=
  (dst ++ [47] ++ decimal rport ++ [47] ++ fmt_d i ++ [47]).take 254

/-- Contents of `sbuf` after `memset(sbuf, 0, sizeof(sbuf))` and a receive that stored `data`
at its start; `size` is `sizeof(sbuf)`. -/
def sbuf_after (size : Nat) (data : List Nat) : List Nat :=
  (data ++ List.replicate (size - data.length) 0).take size

/-- The C++ expression `string(sbuf, n)`. -/
def string_of (sbuf : List Nat) (n : Int) : List Nat := sbuf.take n.toNat

/-- The byte `sbuf[k]`. -/
def byte_at (sbuf : List Nat) (k : Nat) : Nat := sbuf.getD k 0

/-- The C expression `ntohs` applied to the two bytes stored at offset `k`. -/
def ntohs_at (sbuf : List Nat) (k : Nat) : Nat :=
  (byte_at sbuf k % 256) * 256 + byte_at sbuf (k + 1) % 256

/-- The state of the event loop: the state table, the readiness array, the peer-key maps and
the locals `script_fd` and `winsize_changed`. -/
structure Loop where
  fd2state : Int → state
  pfds : Int → pollfd
  tcp_nodes2sock : List Nat → Option Int
  udp_nodes2sock : List Nat → Option Int
  script_fd : Int
  winsize_changed : Bool

/-- One answer of the codec call `psc->read(nosys, tbuf, ext_cmd, starttls)`: the return value
and the three out-parameters. -/
structure PscRead where
  r : Int := 0
  tbuf : List Nat := []
  ext_cmd : List Nat := []
  starttls : Int := 0

/-- The results of the system calls a step can make on its descriptor: the descriptor
returned by accept, the return value and errno of a read, recv, recvfrom, write or sendto, the
bytes a receive stored in `sbuf`, the source port recvfrom reported (as the integer held in
`sin_port`), and the successive answers of the codec. -/
structure Sys where
  afd : Int := -1
  r : Int := 0
  errno : Int := 0
  data : List Nat := []
  sin_port : Nat := 0
  reads : List PscRead := []

/-- The value of `errno` after the call: line 314 clears it and only a failing call sets it. -/
def Sys.err (io : Sys) : Int := if io.r < 0 then io.errno else 0

/-- The collaborators of `proxy_loop` that are not under src/: the PTY master descriptor, the
configured script socket, the codec, the command dispatcher, inet_ntop, and the constants
`BLOCK_SIZE`, `CLOSING_TIME` and `CONNECT_TIME`. -/
structure Env where
  master : Int
  w_fileno : Int
  script_sock : Int
  possibly_b64encrypt : String → List Nat → List Nat
  wsize_cmd : List Nat
  is_crypted : Bool
  cmd_handler : List Nat → Loop → Loop
  inet_ntop : Nat → List Nat → List Nat
  BLOCK_SIZE : Nat
  CLOSING_TIME : Int
  CONNECT_TIME : Int

/-- The size of the local buffer `char sbuf[BLOCK_SIZE/2]` (line 102). -/
def Env.sizeof_sbuf (E : Env) : Nat := E.BLOCK_SIZE / 2

/-- A system call with an outside effect made by a step. -/
inductive Effect
  | close (fd : Int)
  | write (fd : Int) (buf : List Nat)
  | writen (fd : Int) (buf : List Nat)
  | sendto (fd : Int) (dgram : List Nat) (addr : List Nat) (port : Nat)
  deriving DecidableEq

/-- What the body of the per-descriptor loop does: the process dies, or the loop goes on to
the next descriptor with a new state, or the scripted codec answers ran out while the drain
loop of lines 333-360 was still asking. -/
inductive Outcome
  | die (why : String)
  | cont (s : Loop) (eff : List Effect)
  | starved

/-- The state after a step that goes on, if it does. -/
def Outcome.loop? : Outcome → Option Loop
  | Outcome.cont s _ => some s
  | _ => none

/-- The system calls of a step that goes on. -/
def Outcome.effects : Outcome → List Effect
  | Outcome.cont _ eff => eff
  | _ => []

/-- Assignment to fields of `fd2state[i]`. -/
def Loop.upd_state (s : Loop) (i : Int) (f : state → state) : Loop :=
  { s with fd2state := Function.update s.fd2state i (f (s.fd2state i)) }

/-- Assignment to fields of `pfds[i]`. -/
def Loop.upd_pfd (s : Loop) (i : Int) (f : pollfd → pollfd) : Loop :=
  { s with pfds := Function.update s.pfds i (f (s.pfds i)) }

/-- The statement `pfds[i].events |= bits`. -/
def Loop.arm (s : Loop) (i : Int) (bits : Nat) : Loop :=
  s.upd_pfd i (fun p => { p with events := p.events ||| bits })

/-- The statement `fd2state[i].obuf += bytes`. -/
def Loop.append_obuf (s : Loop) (i : Int) (bytes : List Nat) : Loop :=
  s.upd_state i (fun st => { st with obuf := st.obuf ++ bytes })

/-- The statement `tcp_nodes2sock.erase(key)`. -/
def Loop.tcp_erase (s : Loop) (key : List Nat) : Loop :=
  { s with tcp_nodes2sock := Function.update s.tcp_nodes2sock key none }

/-- The statement `tcp_nodes2sock[key] = fd`. -/
def Loop.tcp_set (s : Loop) (key : List Nat) (fd : Int) : Loop :=
  { s with tcp_nodes2sock := Function.update s.tcp_nodes2sock key (some fd) }

/-- The statement `udp_nodes2sock[key] = fd`. -/
def Loop.udp_set (s : Loop) (key : List Nat) (fd : Int) : Loop :=
  { s with udp_nodes2sock := Function.update s.udp_nodes2sock key (some fd) }

/-- The teardown shared by the receive and write error paths (lines 411-416, 434-439, 474-479,
498-503, 580-586, 623-628, 656-662): the readiness entry is cleared, then the record is
marked INVALID and unused and its `obuf` is cleared. -/
def teardown (i : Int) (s : Loop) : Loop :=
  (s.upd_pfd i (fun p => { p with fd := -1, events := 0 })).upd_state i
    (fun st => { st with state := STATE_INVALID, fd := -1, obuf := [] })

/-- Lines 277-281, 295-297: announce the end of a TCP session to the remote side and drop
its key. -/
def signal_finished (E : Env) (i : Int) (s : Loop) : Loop :=
  let s1 := s.arm E.master POLLOUT
  let s2 := s1.append_obuf E.master (E.possibly_b64encrypt "C:T:F:" (s1.fd2state i).rnode)
  s2.tcp_erase (s2.fd2state i).rnode

/-- Lines 417-420 and 629-632: drop the key, then announce the end of the session. -/
def erase_and_signal (E : Env) (i : Int) (s : Loop) : Loop :=
  let s1 := s.tcp_erase (s.fd2state i).rnode
  let s2 := s1.arm E.master POLLOUT
  s2.append_obuf E.master (E.possibly_b64encrypt "C:T:F:" (s2.fd2state i).rnode)

/-- Lines 587-588, 663-664 and 301-302: stdin and the script listener are armed for read
again. -/
def rearm_stdin (E : Env) (s : Loop) : Loop :=
  (s.arm 0 POLLIN).arm E.script_sock POLLIN

/-- The timeout branch, lines 274-289. -/
def timeout_close (E : Env) (i : Int) (s : Loop) : Outcome :=
  let s1 := if (s.fd2state i).state = STATE_CONNECT then signal_finished E i s else s
  let s2 := s1.upd_state i (fun st => { st with fd := -1 })
  let s3 := s2.upd_state i (fun st => { st with state := STATE_INVALID })
  Outcome.cont (s3.upd_pfd i (fun p => { p with fd := -1, events := 0 })) [Effect.close i]

/-- The error and hangup branch, lines 291-312. -/
def hangup_close (E : Env) (i : Int) (s : Loop) : Outcome :=
  if (s.fd2state i).state = STATE_STDIN ∨ (s.fd2state i).state = STATE_PTY then
    Outcome.die "pscl: TTY hangup"
  else
    let s1 :=
      if (s.fd2state i).state = STATE_CONNECTED ∨ (s.fd2state i).state = STATE_CONNECT then
        signal_finished E i s
      else s
    let s2 := if (s1.fd2state i).state = STATE_SCRIPT_IO then rearm_stdin E s1 else s1
    let s3 := s2.upd_state i (fun st => { st with fd := -1, state := STATE_INVALID, obuf := [] })
    Outcome.cont (s3.upd_pfd i (fun p => { p with fd := -1, events := 0 })) [Effect.close i]

/-- Read-ready on stdin, lines 319-328. -/
def read_stdin (E : Env) (io : Sys) (s : Loop) : Outcome :=
  if io.r ≤ 0 then
    if io.err = EINTR then Outcome.cont s [] else Outcome.die "pscl: read"
  else
    let s1 := s.append_obuf E.master (E.possibly_b64encrypt "D:0:" (string_of io.data io.r))
    Outcome.cont (s1.arm E.master POLLOUT) []

/-- Lines 348-358: plain terminal bytes go to stdout and are mirrored into the script
descriptor when `script_fd >= 0`. -/
def render (now : Int) (tbuf : List Nat) (s : Loop) : Loop :=
  let s1 := s.upd_state 1 (fun st => { st with time := now })
  let s2 := (s1.append_obuf 1 tbuf).arm 1 POLLOUT
  if s2.script_fd ≥ 0 then
    let s3 := s2.upd_state s2.script_fd (fun st => { st with time := now })
    (s3.append_obuf s3.script_fd tbuf).arm s3.script_fd POLLOUT
  else s2

/-- The call `cmd_handler(ext_cmd, fd2state, pfds)` of line 347: the dispatcher works on the
tables and the maps; the locals of `proxy_loop` are out of its reach. -/
def run_cmd_handler (E : Env) (cmd : List Nat) (s : Loop) : Loop :=
  { E.cmd_handler cmd s with script_fd := s.script_fd, winsize_changed := s.winsize_changed }

/-- Read-ready on the PTY master, the drain loop of lines 331-360, one codec answer per
round. -/
def read_pty (E : Env) (now : Int) : List PscRead → Loop → Outcome
  | [], _ => Outcome.starved
  | rd :: rest, s =>
    if rd.r < 0 then Outcome.die "psc->why()"
    else
      let s1 :=
        if rd.starttls = 1 then { s with winsize_changed := true }
        else if rd.ext_cmd.length > 0 then run_cmd_handler E rd.ext_cmd s
        else if rd.tbuf.length > 0 then render now rd.tbuf s
        else s
      if rd.r = 1 then read_pty E now rest s1 else Outcome.cont s1 []

/-- Lines 371-378, 389-395, 401-407, 563-573: the record and readiness entry of a freshly
accepted descriptor. -/
def install (afd : Int) (events : Nat) (rnode : List Nat) (role : Role) (now : Int)
    (s : Loop) : Loop :=
  (s.upd_pfd afd (fun p => { p with fd := afd, events := events })).upd_state afd
    (fun st => { st with fd := afd, rnode := rnode, state := role, time := now, obuf := [] })

/-- Read-ready on a TCP listener, lines 362-383. -/
def read_accept (E : Env) (now : Int) (io : Sys) (i : Int) (s : Loop) : Outcome :=
  if io.afd < 0 then Outcome.cont s []
  else
    let afd := io.afd
    let id := snprintf_id afd
    let s1 := s.upd_pfd afd (fun p => { p with fd := afd, events := 0 })
    let s2 := s1.upd_state afd (fun st => { st with fd := afd })
    let s3 := s2.upd_state afd (fun st => { st with rnode := (s2.fd2state i).rnode ++ id })
    let s4 := s3.upd_state afd
      (fun st => { st with state := STATE_CONNECT, time := now, obuf := [] })
    let s5 := s4.tcp_set (s4.fd2state afd).rnode afd
    let s6 := s5.arm E.master POLLOUT
    Outcome.cont
      (s6.append_obuf E.master (E.possibly_b64encrypt "C:T:N:" (s6.fd2state afd).rnode)) []

/-- Read-ready on the SOCKS5 listener, lines 385-395. -/
def read_socks5_accept (now : Int) (io : Sys) (s : Loop) : Outcome :=
  if io.afd < 0 then Outcome.cont s []
  else Outcome.cont (install io.afd POLLIN [] STATE_SOCKS5_AUTH1 now s) []

/-- Read-ready on the SOCKS4 listener, lines 397-407. -/
def read_socks4_accept (now : Int) (io : Sys) (s : Loop) : Outcome :=
  if io.afd < 0 then Outcome.cont s []
  else Outcome.cont (install io.afd POLLIN [] STATE_SOCKS4_AUTH now s) []

/-- Read-ready on an established tunnel, lines 409-425. -/
def read_connected (E : Env) (now : Int) (io : Sys) (i : Int) (s : Loop) : Outcome :=
  if io.r ≤ 0 then
    Outcome.cont (erase_and_signal E i (teardown i s)) [Effect.close i]
  else
    let s1 := s.arm E.master POLLOUT
    let s2 := s1.append_obuf E.master
      (E.possibly_b64encrypt "C:T:S:" ((s1.fd2state i).rnode ++ string_of io.data io.r))
    Outcome.cont (s2.upd_state i (fun st => { st with time := now })) []

/-- Lines 453-467 and 518-530: the session key is stored, the role becomes CONNECT, the key
is registered and the remote side is asked to connect. -/
def register (E : Env) (now : Int) (i : Int) (hdr : List Nat) (s : Loop) : Loop :=
  let s1 := s.upd_state i (fun st => { st with rnode := hdr, state := STATE_CONNECT, time := now })
  let s2 := s1.tcp_set (s1.fd2state i).rnode i
  let s3 := s2.arm E.master POLLOUT
  s3.append_obuf E.master (E.possibly_b64encrypt "C:T:N:" (s3.fd2state i).rnode)

/-- Read-ready in role SOCKS4_AUTH, lines 427-467. The request is read through
`socks4_req` (version, command, two port bytes, four address bytes). -/
def read_socks4_auth (E : Env) (now : Int) (io : Sys) (i : Int) (s : Loop) : Outcome :=
  let sbuf := sbuf_after E.sizeof_sbuf io.data
  if io.r ≤ 0 ∨ byte_at sbuf 0 ≠ 4 then
    Outcome.cont (teardown i s) [Effect.close i]
  else
    let sbuf1 := (sbuf.set 0 0).set 1 0x5a
    let s1 := s.append_obuf i (string_of sbuf1 8)
    let dst := E.inet_ntop AF_INET ((sbuf1.drop 4).take 4)
    let rport := ntohs_at sbuf1 2
    let s2 := register E now i (snprintf_hdr dst rport i) s1
    Outcome.cont (s2.upd_pfd i (fun p => { p with events := POLLOUT })) []

/-- Read-ready in role SOCKS5_AUTH1, lines 469-485. -/
def read_socks5_auth1 (E : Env) (now : Int) (io : Sys) (i : Int) (s : Loop) : Outcome :=
  let sbuf := sbuf_after E.sizeof_sbuf io.data
  if io.r ≤ 0 ∨ byte_at sbuf 0 ≠ 5 then
    Outcome.cont (teardown i s) [Effect.close i]
  else
    let s1 := s.arm i POLLOUT
    let s2 := s1.upd_state i (fun st => { st with state := STATE_SOCKS5_AUTH2 })
    let s3 := s2.append_obuf i [5, 0]
    Outcome.cont (s3.upd_state i (fun st => { st with time := now })) []

/-- Read-ready in role SOCKS5_AUTH2, lines 486-535. The request is read through
`socks5_req` (version, command, a zero byte, address type, then address and port). -/
def read_socks5_auth2 (E : Env) (now : Int) (io : Sys) (i : Int) (s : Loop) : Outcome :=
  let sbuf := sbuf_after E.sizeof_sbuf io.data
  if io.r < 10 ∨ byte_at sbuf 0 ≠ 5 ∨ (byte_at sbuf 3 ≠ 1 ∧ byte_at sbuf 3 ≠ 4) ∨
      byte_at sbuf 1 ≠ 1 then
    let sbuf1 := sbuf.set 1 0x08
    Outcome.cont (teardown i s) [Effect.writen i (sbuf1.take 2), Effect.close i]
  else
    let dst :=
      if byte_at sbuf 3 = 1 then E.inet_ntop AF_INET ((sbuf.drop 4).take 4)
      else E.inet_ntop AF_INET6 ((sbuf.drop 4).take 16)
    let rport := if byte_at sbuf 3 = 1 then ntohs_at sbuf 8 else ntohs_at sbuf 20
    let s1 := register E now i (snprintf_hdr dst rport i) s
    let sbuf1 := sbuf.set 1 0
    let s2 := s1.append_obuf i (string_of sbuf1 io.r)
    Outcome.cont (s2.upd_pfd i (fun p => { p with events := POLLOUT })) []

/-- Read-ready on a UDP listener, lines 537-556. -/
def read_udpserver (E : Env) (now : Int) (io : Sys) (i : Int) (s : Loop) : Outcome :=
  if io.r ≤ 0 then Outcome.cont s []
  else
    let id := snprintf_id io.sin_port
    let s1 := s.arm E.master POLLOUT
    let s2 := s1.append_obuf E.master
      (E.possibly_b64encrypt "C:U:S:" ((s1.fd2state i).rnode ++ id ++ string_of io.data io.r))
    let s3 := s2.upd_state i (fun st => { st with time := now })
    Outcome.cont (s3.udp_set ((s3.fd2state i).rnode ++ id) i) []

/-- Read-ready on the script listener, lines 558-573; `script_fd` is assigned before the
result of accept is tested. -/
def read_script_accept (now : Int) (io : Sys) (i : Int) (s : Loop) : Outcome :=
  let s0 := { s with script_fd := io.afd }
  if io.afd < 0 then Outcome.cont s0 []
  else
    let s1 := s0.upd_pfd s0.script_fd (fun p => { p with fd := s0.script_fd })
    let s2 := s1.upd_pfd s1.script_fd (fun p => { p with events := POLLIN })
    let s3 := s2.upd_pfd i (fun p => { p with events := 0 })
    let s4 := s3.upd_pfd 0 (fun p => { p with events := 0 })
    Outcome.cont (s4.upd_state s4.script_fd (fun st =>
      { st with fd := s4.script_fd, rnode := [], state := STATE_SCRIPT_IO, time := now,
                obuf := [] })) []

/-- The teardown of the script connection on a read or write failure, lines 580-588 and
656-664. -/
def script_close (E : Env) (i : Int) (s : Loop) : Loop :=
  rearm_stdin E (teardown i { s with script_fd := -1 })

/-- Read-ready on the script connection, lines 575-592. -/
def read_script (E : Env) (io : Sys) (i : Int) (s : Loop) : Outcome :=
  if io.r ≤ 0 then
    if io.err = EINTR then Outcome.cont s []
    else Outcome.cont (script_close E i s) [Effect.close i]
  else
    let s1 := s.append_obuf E.master (E.possibly_b64encrypt "D:0:" (string_of io.data io.r))
    Outcome.cont (s1.arm E.master POLLOUT) []

/-- The read-ready branch, lines 317-593: `revents` is cleared, then the role decides. -/
def read_ready (E : Env) (now : Int) (io : Sys) (i : Int) (s : Loop) : Outcome :=
  let s0 := s.upd_pfd i (fun p => { p with revents := 0 })
  match (s0.fd2state i).state with
  | STATE_STDIN => read_stdin E io s0
  | STATE_PTY => read_pty E now io.reads s0
  | STATE_ACCEPT => read_accept E now io i s0
  | STATE_SOCKS5_ACCEPT => read_socks5_accept now io s0
  | STATE_SOCKS4_ACCEPT => read_socks4_accept now io s0
  | STATE_CONNECTED => read_connected E now io i s0
  | STATE_SOCKS4_AUTH => read_socks4_auth E now io i s0
  | STATE_SOCKS5_AUTH1 => read_socks5_auth1 E now io i s0
  | STATE_SOCKS5_AUTH2 => read_socks5_auth2 E now io i s0
  | STATE_UDPSERVER => read_udpserver E now io i s0
  | STATE_SCRIPT_ACCEPT => read_script_accept now io i s0
  | STATE_SCRIPT_IO => read_script E io i s0
  | _ => Outcome.cont s0 []

/-- The number of bytes offered to write on stdout and on the script connection (lines 599
and 650): `obuf.size() > CHUNK_SIZE ? CHUNK_SIZE : obuf.size()`. -/
def chunk_len (obuf : List Nat) : Nat :=
  if obuf.length > CHUNK_SIZE then CHUNK_SIZE else obuf.length

/-- The statement `fd2state[i].obuf.erase(0, r)` for a positive `r`. -/
def Loop.erase_obuf (s : Loop) (i : Int) (r : Int) : Loop :=
  s.upd_state i (fun st => { st with obuf := st.obuf.drop r.toNat })

/-- Lines 672-673: POLLOUT is cleared once both `obuf` and `odgrams` are empty. -/
def clear_pollout (i : Int) (s : Loop) : Loop :=
  if (s.fd2state i).obuf.isEmpty ∧ (s.fd2state i).odgrams.isEmpty then
    s.upd_pfd i (fun p => { p with events := and_not p.events POLLOUT })
  else s

/-- Write-ready on stdout, lines 597-608, up to the erase. -/
def write_stdout (io : Sys) (i : Int) (s : Loop) : Outcome :=
  let n := chunk_len (s.fd2state i).obuf
  let eff := [Effect.write 1 ((s.fd2state i).obuf.take n)]
  if io.r ≤ 0 then
    if io.err = EINTR then Outcome.cont s eff else Outcome.die "pscl: write"
  else Outcome.cont (clear_pollout i (s.erase_obuf i io.r)) eff

/-- Write-ready on the PTY master, lines 609-618. -/
def write_pty (E : Env) (now : Int) (io : Sys) (i : Int) (s : Loop) : Outcome :=
  let eff := [Effect.write E.w_fileno (s.fd2state i).obuf]
  if io.r ≤ 0 then
    if io.err = EAGAIN ∨ io.err = EWOULDBLOCK then Outcome.cont s eff
    else Outcome.die "psc->why()"
  else
    let s1 := s.upd_state i (fun st => { st with time := now })
    Outcome.cont (clear_pollout i (s1.erase_obuf i io.r)) eff

/-- Write-ready in roles CONNECT, SOCKS5_AUTH2 and CONNECTED, lines 619-637. -/
def write_tunnel (E : Env) (now : Int) (io : Sys) (i : Int) (s : Loop) : Outcome :=
  let eff := [Effect.write i (s.fd2state i).obuf]
  if io.r ≤ 0 then
    Outcome.cont (erase_and_signal E i (teardown i s)) (eff ++ [Effect.close i])
  else
    let s1 := s.upd_state i (fun st => { st with time := now })
    Outcome.cont (clear_pollout i (s1.erase_obuf i io.r)) eff

/-- The address bytes of `lsin`: inet_pton stores 127.0.0.1 there once (line 235), and only
`lsin.sin_port` is assigned afterwards (line 640). -/
def lsin_addr : List Nat := [127, 0, 0, 1]

/-- Write-ready on a UDP listener, lines 638-646: the head datagram goes to `lsin`, with the
head of `ulports` stored in `lsin.sin_port` as it is. -/
def write_udpserver (now : Int) (io : Sys) (i : Int) (s : Loop) : Outcome :=
  let dgram := (s.fd2state i).odgrams.headD []
  let eff := [Effect.sendto i dgram lsin_addr ((s.fd2state i).ulports.headD 0)]
  if io.r ≤ 0 then Outcome.cont s eff
  else
    let s1 := s.upd_state i (fun st => { st with odgrams := st.odgrams.tail })
    let s2 := s1.upd_state i (fun st => { st with ulports := st.ulports.tail })
    let s3 := s2.upd_state i (fun st => { st with time := now })
    Outcome.cont (clear_pollout i s3) eff

/-- Write-ready on the script connection, lines 648-670. -/
def write_script (E : Env) (now : Int) (io : Sys) (i : Int) (s : Loop) : Outcome :=
  let n := chunk_len (s.fd2state i).obuf
  let eff := [Effect.write i ((s.fd2state i).obuf.take n)]
  if io.r ≤ 0 then
    if io.err = EINTR then Outcome.cont s eff
    else Outcome.cont (script_close E i s) (eff ++ [Effect.close i])
  else
    let s1 := s.upd_state i (fun st => { st with time := now })
    Outcome.cont (clear_pollout i (s1.erase_obuf i io.r)) eff

/-- The write-ready branch, lines 595-674: `revents` is cleared, then the role decides. -/
def write_ready (E : Env) (now : Int) (io : Sys) (i : Int) (s : Loop) : Outcome :=
  let s0 := s.upd_pfd i (fun p => { p with revents := 0 })
  match (s0.fd2state i).state with
  | STATE_STDOUT => write_stdout io i s0
  | STATE_PTY => write_pty E now io i s0
  | STATE_CONNECT => write_tunnel E now io i s0
  | STATE_SOCKS5_AUTH2 => write_tunnel E now io i s0
  | STATE_CONNECTED => write_tunnel E now io i s0
  | STATE_UDPSERVER => write_udpserver now io i s0
  | STATE_SCRIPT_IO => write_script E now io i s0
  | _ => Outcome.cont (clear_pollout i s0) []

/-- The condition of lines 274-275: a CLOSING or CONNECT descriptor has been idle for longer
than its limit. -/
def timed_out (E : Env) (now : Int) (st : state) : Prop :=
  (st.state = STATE_CLOSING ∧ now - st.time > E.CLOSING_TIME) ∨
    (st.state = STATE_CONNECT ∧ now - st.time > E.CONNECT_TIME)

instance (E : Env) (now : Int) (st : state) : Decidable (timed_out E now st) := by
  unfold timed_out; infer_instance

/-- The body of the per-descriptor loop of `proxy_loop` for descriptor `i`, lines 271-674. -/
def step (E : Env) (now : Int) (io : Sys) (i : Int) (s : Loop) : Outcome :=
  if (s.fd2state i).state = STATE_INVALID then Outcome.cont s []
  else if timed_out E now (s.fd2state i) then timeout_close E i s
  else if (s.pfds i).revents &&& (POLLERR ||| POLLHUP ||| POLLNVAL) ≠ 0 then hangup_close E i s
  else if (s.pfds i).revents &&& POLLIN ≠ 0 then read_ready E now io i s
  else if (s.pfds i).revents &&& POLLOUT ≠ 0 then write_ready E now io i s
  else Outcome.cont s []

/-- The effect of poll on the state: the `revents` fields are overwritten with what the
kernel reports. -/
def polled (rev : Int → Nat) (s : Loop) : Loop :=
  { s with pfds := fun j => { s.pfds j with revents := rev j } }

/-- The top of an iteration, lines 247-251: the window-size command is queued on the PTY. -/
def winsize_step (E : Env) (s : Loop) : Loop :=
  if s.winsize_changed ∧ E.is_crypted then
    let s1 := s.append_obuf E.master E.wsize_cmd
    { s1.arm E.master POLLOUT with winsize_changed := false }
  else s

/-- Lines 184-189 and the like: a listening descriptor is armed for read and gets its role and
configured destination. -/
def add_listener (role : Role) (s : Loop) (l : Int × List Nat) : Loop :=
  ((s.upd_pfd l.1 (fun p => { p with fd := l.1 })).upd_pfd l.1
    (fun p => { p with events := POLLIN })).upd_state l.1
    (fun st => { st with fd := l.1, rnode := l.2, state := role })

/-- The tables before the first iteration, lines 161-228 and 237: stdin, stdout and the PTY
master, then the TCP and UDP listeners that could be opened (descriptor and configured
destination), then the SOCKS5, SOCKS4 and script listeners that are configured (a descriptor
of -1 means not configured). -/
def init_loop (master : Int) (tcp udp : List (Int × List Nat))
    (socks5_fd socks4_fd script_sock : Int) : Loop :=
  let optional (fd : Int) (role : Role) (s : Loop) : Loop :=
    if fd ≠ -1 then add_listener role s (fd, []) else s
  let s0 : Loop :=
    { fd2state := fun _ => {}, pfds := fun _ => {}, tcp_nodes2sock := fun _ => none,
      udp_nodes2sock := fun _ => none, script_fd := -1, winsize_changed := false }
  let s1 := s0.upd_state 0 (fun st => { st with fd := 0, state := STATE_STDIN })
  let s2 := s1.upd_state 1 (fun st => { st with fd := 1, state := STATE_STDOUT })
  let s3 := s2.upd_state master (fun st => { st with fd := master, state := STATE_PTY })
  let s4 := s3.upd_pfd 0 (fun p => { p with fd := 0, events := POLLIN })
  let s5 := s4.upd_pfd 1 (fun p => { p with fd := 1 })
  let s6 := s5.upd_pfd master (fun p => { p with fd := master, events := POLLIN })
  let s7 := udp.foldl (add_listener STATE_UDPSERVER) (tcp.foldl (add_listener STATE_ACCEPT) s6)
  optional script_sock STATE_SCRIPT_ACCEPT
    (optional socks4_fd STATE_SOCKS4_ACCEPT (optional socks5_fd STATE_SOCKS5_ACCEPT s7))

/-- The number a string of decimal digits denotes. -/
def digits_value (l : List Nat) : Nat := l.foldl (fun v c => 10 * v + (c - 48)) 0

/-- The destination text `main` stores for a `-T` or `-U` option (lines 723 and 729):
`string(ip) + "/" + string(rport) + "/"`. -/
def config_rnode (ip rport : List Nat) : List Nat := ip ++ [47] ++ rport ++ [47]

/-! ## Invariants of the loop

The properties of section 8 of the spec, strengthened to a statement that every action of the
loop preserves, and the actions themselves as a reachability relation. -/

/-- The key has the shape the loop gives to the session on descriptor `j`: a prefix that ends
in a slash, then the decimal number of `j`, then a slash. -/
def KeyOf (j : Int) (k : List Nat) : Prop :=
  0 ≤ j ∧ ∃ p : List Nat, p.getLast? = some 47 ∧ k = p ++ decimal j.toNat ++ [47]

/-- The state invariant of the loop.
* `stdin`: descriptor 0 is stdin.
* `listener_rnode`: the destination of a TCP listener ends in a slash.
* `auth_rnode`: a SOCKS5 client that has not been granted yet has no key.
* `key`: a session in role CONNECT or CONNECTED carries a key of its own descriptor, and
  `tcp_nodes2sock` maps that key to the descriptor.
* `owner`: every entry of `tcp_nodes2sock` belongs to such a session.
* `connect_pollin`: a descriptor in role CONNECT is not armed for read.
* `script_listener`: the only descriptor in role SCRIPT_ACCEPT is the configured script socket.
* `script_one`: at most one descriptor is in role SCRIPT_IO.
* `script_mask`: while one is, the script listener is still there, and neither stdin nor the
  listener is armed for read.
* `listener_poll`: on the script listener poll has reported no error and no event that was
  not asked for. -/
structure Inv (E : Env) (s : Loop) : Prop where
  stdin : (s.fd2state 0).state = STATE_STDIN
  listener_rnode : ∀ l, (s.fd2state l).state = STATE_ACCEPT →
    (s.fd2state l).rnode.getLast? = some 47
  auth_rnode : ∀ j, (s.fd2state j).state = STATE_SOCKS5_AUTH1 ∨
    (s.fd2state j).state = STATE_SOCKS5_AUTH2 → (s.fd2state j).rnode = []
  key : ∀ j, (s.fd2state j).state = STATE_CONNECT ∨ (s.fd2state j).state = STATE_CONNECTED →
    KeyOf j (s.fd2state j).rnode ∧ s.tcp_nodes2sock (s.fd2state j).rnode = some j
  owner : ∀ k fd, s.tcp_nodes2sock k = some fd →
    ((s.fd2state fd).state = STATE_CONNECT ∨ (s.fd2state fd).state = STATE_CONNECTED) ∧
      (s.fd2state fd).rnode = k
  connect_pollin : ∀ j, (s.fd2state j).state = STATE_CONNECT → (s.pfds j).events &&& POLLIN = 0
  script_listener : ∀ l, (s.fd2state l).state = STATE_SCRIPT_ACCEPT → l = E.script_sock
  script_one : ∀ i j, (s.fd2state i).state = STATE_SCRIPT_IO →
    (s.fd2state j).state = STATE_SCRIPT_IO → i = j
  script_mask : ∀ i, (s.fd2state i).state = STATE_SCRIPT_IO →
    (s.fd2state E.script_sock).state = STATE_SCRIPT_ACCEPT ∧
      (s.pfds 0).events &&& POLLIN = 0 ∧ (s.pfds E.script_sock).events &&& POLLIN = 0
  listener_poll : ∀ l, (s.fd2state l).state = STATE_SCRIPT_ACCEPT →
    (s.pfds l).revents &&& (POLLERR ||| POLLHUP ||| POLLNVAL) = 0 ∧
      ((s.pfds l).revents &&& POLLIN ≠ 0 → (s.pfds l).events &&& POLLIN ≠ 0)

/-- What the loop relies on from its collaborators: inet_ntop writes into the 128-byte buffer
`dst`, and the command dispatcher keeps the invariant of the tables. -/
def EnvOK (E : Env) : Prop :=
  (∀ af addr, (E.inet_ntop af addr).length ≤ 127) ∧
    ∀ cmd s, Inv E s → Inv E (run_cmd_handler E cmd s)

/-- What the loop relies on from the kernel in one pass of the body: the loop index is a
descriptor number, and a descriptor returned by accept is a number that is not in use. -/
def StepOK (s : Loop) (io : Sys) (i : Int) : Prop :=
  0 ≤ i ∧ i < 2 ^ 31 ∧
    (0 ≤ io.afd → io.afd < 2 ^ 31 ∧ (s.fd2state io.afd).state = STATE_INVALID)

/-- What the loop relies on from poll: on the script listener it reports no error condition
and no event that was not asked for. -/
def PollOK (E : Env) (s : Loop) (rev : Int → Nat) : Prop :=
  rev E.script_sock &&& (POLLERR ||| POLLHUP ||| POLLNVAL) = 0 ∧
    (rev E.script_sock &&& POLLIN ≠ 0 → (s.pfds E.script_sock).events &&& POLLIN ≠ 0)

/-- What the start-up code provides: no listener sits on descriptor 0, nor does the PTY
master, and every configured TCP destination ends in a slash (as `config_rnode` does). -/
def InitOK (E : Env) (tcp udp : List (Int × List Nat)) (socks5_fd socks4_fd : Int) : Prop :=
  E.master ≠ 0 ∧ (∀ l ∈ tcp, l.1 ≠ 0 ∧ l.2.getLast? = some 47) ∧ (∀ l ∈ udp, l.1 ≠ 0) ∧
    socks5_fd ≠ 0 ∧ socks4_fd ≠ 0 ∧ E.script_sock ≠ 0

/-- What holds while the start-up code fills the tables: stdin is in place, TCP listeners
carry a destination that ends in a slash, no descriptor has a session or script role yet, the
key map is empty and no readiness has been reported. -/
def Boot (s : Loop) : Prop :=
  (s.fd2state 0).state = STATE_STDIN ∧
    (∀ l, (s.fd2state l).state = STATE_ACCEPT → (s.fd2state l).rnode.getLast? = some 47) ∧
    (∀ j, (s.fd2state j).state ≠ STATE_SOCKS5_AUTH1 ∧ (s.fd2state j).state ≠ STATE_SOCKS5_AUTH2 ∧
      (s.fd2state j).state ≠ STATE_CONNECT ∧ (s.fd2state j).state ≠ STATE_CONNECTED ∧
      (s.fd2state j).state ≠ STATE_SCRIPT_IO ∧ (s.fd2state j).state ≠ STATE_SCRIPT_ACCEPT) ∧
    (∀ k, s.tcp_nodes2sock k = none) ∧ ∀ j, (s.pfds j).revents = 0

/-- The conditions under which the body closes the script connection on descriptor `i`:
error or hangup readiness (line 291), or a read (lines 576-579) or a write (lines 651-655) that
failed with something other than EINTR. -/
def script_fails (io : Sys) (revents : Nat) : Prop :=
  revents &&& (POLLERR ||| POLLHUP ||| POLLNVAL) ≠ 0 ∨
    ((revents &&& POLLIN ≠ 0 ∨ revents &&& POLLOUT ≠ 0) ∧ io.r ≤ 0 ∧ io.err ≠ EINTR)

/-- The states the loop can be in: the start state, and from a state it can be in, the state
after the window-size step, after poll, and after the body has run for a descriptor without
terminating the process. -/
inductive Reach (E : Env) : Loop → Prop
  | init (tcp udp : List (Int × List Nat)) (socks5_fd socks4_fd : Int)
      (h : InitOK E tcp udp socks5_fd socks4_fd) :
      Reach E (init_loop E.master tcp udp socks5_fd socks4_fd E.script_sock)
  | winsize {s : Loop} (h : Reach E s) : Reach E (winsize_step E s)
  | poll {s : Loop} (rev : Int → Nat) (h : Reach E s) (hp : PollOK E s rev) :
      Reach E (polled rev s)
  | step {s s' : Loop} {eff : List Effect} (now : Int) (io : Sys) (i : Int) (h : Reach E s)
      (hok : StepOK s io i) (hs : step E now io i s = Outcome.cont s' eff) : Reach E s'

/-- The bytes a pass of the body handed to the kernel on descriptor `fd`: of each buffer it
offered to write on `fd`, the first `r` bytes, `r` being what the call returned. -/
def written_on (fd : Int) (io : Sys) (eff : List Effect) : List Nat :=
  (eff.map (fun e => match e with
    | Effect.write f buf => if f = fd then buf.take io.r.toNat else []
    | _ => [])).flatten

/-- What a move from `s` to `s'` that wrote `w` to the PTY has queued on the PTY master: the
written bytes followed by the `obuf` afterwards, without the `obuf` before. -/
def queued (E : Env) (s s' : Loop) (w : List Nat) : List Nat :=
  (w ++ (s'.fd2state E.master).obuf).drop (s.fd2state E.master).obuf.length

/-- Every entry of the key map belongs to a live session: the descriptor it names is in role
CONNECT or CONNECTED and carries that key as its `rnode`. -/
def Owned (s : Loop) : Prop :=
  ∀ k fd, s.tcp_nodes2sock k = some fd →
    ((s.fd2state fd).state = STATE_CONNECT ∨ (s.fd2state fd).state = STATE_CONNECTED) ∧
      (s.fd2state fd).rnode = k

/-- From `s` to `s'` the PTY master keeps its role, no descriptor enters role PTY, and the
`obuf` of the PTY master only grows at its end. -/
def Appends (E : Env) (s s' : Loop) : Prop :=
  (s'.fd2state E.master).state = STATE_PTY ∧
    (∀ j, (s'.fd2state j).state = STATE_PTY → (s.fd2state j).state = STATE_PTY) ∧
    ∃ g, (s'.fd2state E.master).obuf = (s.fd2state E.master).obuf ++ g

/-- What the PTY queue relies on from the collaborators: the codec writes to the PTY master
(line 150 constructs it on `pt.master()` for both directions), the PTY master is not
descriptor 1, and the command dispatcher, where every key names a live session, keeps it so
and, with the PTY master in role PTY, only appends to the `obuf` of the PTY master. -/
def PtyOK (E : Env) : Prop :=
  E.w_fileno = E.master ∧ E.master ≠ 1 ∧
    (∀ cmd s, Owned s → Owned (run_cmd_handler E cmd s)) ∧
    ∀ cmd s, Owned s → (s.fd2state E.master).state = STATE_PTY →
      Appends E s (run_cmd_handler E cmd s)

/-- The runs of the loop from `s`, with the bytes written to the PTY so far and what each move
queued on the PTY master, in the order of the moves: a move is the window-size step, an answer
of poll, or a pass of the body that goes on. -/
inductive Run (E : Env) (s : Loop) : List Nat → List (List Nat) → Loop → Prop
  | start : Run E s [] [] s
  | winsize {t : Loop} {w : List Nat} {fs : List (List Nat)} (h : Run E s w fs t) :
      Run E s w (fs ++ [queued E t (winsize_step E t) []]) (winsize_step E t)
  | poll {t : Loop} {w : List Nat} {fs : List (List Nat)} (rev : Int → Nat)
      (h : Run E s w fs t) : Run E s w fs (polled rev t)
  | body {t t' : Loop} {w : List Nat} {fs : List (List Nat)} {eff : List Effect}
      (now : Int) (io : Sys) (i : Int) (h : Run E s w fs t) (hok : StepOK t io i)
      (hs : step E now io i t = Outcome.cont t' eff) :
      Run E s (w ++ written_on E.w_fileno io eff)
        (fs ++ [queued E t t' (written_on E.w_fileno io eff)]) t'

/-- The two queues of replies of every descriptor are equally long: each datagram in `odgrams`
has its port in `ulports`. -/
def Lockstep (s : Loop) : Prop :=
  ∀ j, (s.fd2state j).odgrams.length = (s.fd2state j).ulports.length

/-- What a pass for descriptor `i` that ends in `s'` has done about close: it called close on
no other descriptor, and if it called close on `i` it did so once and left the record of `i`
in role INVALID with `fd2state[i].fd` and `pfds[i].fd` at -1. -/
def Closed (i : Int) (s' : Loop) (eff : List Effect) : Prop :=
  (∀ fd, Effect.close fd ∈ eff → fd = i) ∧
    (Effect.close i ∈ eff →
      eff.count (Effect.close i) = 1 ∧ (s'.fd2state i).state = STATE_INVALID ∧
      (s'.fd2state i).fd = -1 ∧ (s'.pfds i).fd = -1)

/-- The passes of the body in a run from `s`, in order: for each pass the descriptor it ran
for, the results of its system calls, and the system calls it made. Between passes the
window-size step and poll may act. -/
inductive Trace (E : Env) (s : Loop) : List (Int × Sys × List Effect) → Loop → Prop
  | start : Trace E s [] s
  | winsize {t : Loop} {tr : List (Int × Sys × List Effect)} (h : Trace E s tr t) :
      Trace E s tr (winsize_step E t)
  | poll {t : Loop} {tr : List (Int × Sys × List Effect)} (rev : Int → Nat)
      (h : Trace E s tr t) : Trace E s tr (polled rev t)
  | body {t t' : Loop} {tr : List (Int × Sys × List Effect)} {eff : List Effect}
      (now : Int) (io : Sys) (i : Int) (h : Trace E s tr t) (hok : StepOK t io i)
      (hs : step E now io i t = Outcome.cont t' eff) : Trace E s (tr ++ [(i, io, eff)]) t'

/-! ## Worked configurations

A concrete set of collaborators and a concrete start state, used to evaluate the loop on
explicit inputs. -/

/-- ASCII text as bytes. -/
def bytes (t : String) : List Nat := t.toList.map Char.toNat

/-- A codec that frames without encrypting: the tag followed by the payload. -/
def plain_codec (tag : String) (payload : List Nat) : List Nat := bytes tag ++ payload

/-- A stand-in for inet_ntop of libc, used by the worked examples only: the address bytes in
decimal, joined by dots, whatever the address family. For AF_INET that is what libc prints; for
AF_INET6 libc prints groups of hexadecimal digits joined by colons, which this stand-in does
not do, so in an example with an IPv6 address the text of the key differs from the one the
program builds. -/
def dotted (_af : Nat) (addr : List Nat) : List Nat :=
  ((addr.map decimal).intersperse [46]).flatten

/-- Collaborators for the worked examples: PTY master on descriptor 3, script listener on 4,
the plain codec, a dispatcher that ignores every command, 2048 for `BLOCK_SIZE`. -/
def demoEnv : Env :=
  { master := 3, w_fileno := 3, script_sock := 4, possibly_b64encrypt := plain_codec,
    wsize_cmd := [], is_crypted := false, cmd_handler := fun _ s => s, inet_ntop := dotted,
    BLOCK_SIZE := 2048, CLOSING_TIME := 10, CONNECT_TIME := 30 }

/-- The collaborators of `demoEnv` with an inet_ntop that honours the size of the buffer
`dst` it is given (128 bytes, line 104). -/
def demoSafe : Env := { demoEnv with inet_ntop := fun af addr => (dotted af addr).take 127 }

/-- The start state of `pscl -T 5000:[10.0.0.1]:22 -4 1080 -5 1081 -S path`: PTY master 3,
script listener 4, TCP listener 5, SOCKS5 listener 6, SOCKS4 listener 7. -/
def demoInit : Loop := init_loop 3 [(5, bytes "10.0.0.1/22/")] [] 6 7 4

/-- Readiness reported by poll: `bits` on descriptor `i`, nothing elsewhere. -/
def ready (i : Int) (bits : Nat) : Int → Nat := fun j => if j = i then bits else 0

/-- The state a step leaves behind, or the worked start state when the step does not go
on. -/
def after (o : Outcome) : Loop := o.loop?.getD demoInit

/-- A client has connected to the SOCKS5 listener: descriptor 8 is in role SOCKS5_AUTH1. -/
def demoSocks5a : Loop := after (step demoEnv 100 { afd := 8 } 6 (polled (ready 6 POLLIN) demoInit))

/-- The client on descriptor 8 has sent its method selection `05 01 00`: role SOCKS5_AUTH2,
the reply `05 00` is staged. -/
def demoSocks5b : Loop :=
  after (step demoEnv 100 { r := 3, data := [5, 1, 0] } 8 (polled (ready 8 POLLIN) demoSocks5a))

/-- The reply `05 00` has been written to the client on descriptor 8. -/
def demoSocks5c : Loop :=
  after (step demoEnv 101 { r := 2 } 8 (polled (ready 8 POLLOUT) demoSocks5b))

/-- A client has connected to the SOCKS4 listener: descriptor 9 is in role SOCKS4_AUTH. -/
def demoSocks4a : Loop := after (step demoEnv 100 { afd := 9 } 7 (polled (ready 7 POLLIN) demoInit))

/-- A SOCKS5 CONNECT request for 10.0.0.2 port 80. -/
def demoReq5 : List Nat := [5, 1, 0, 1, 10, 0, 0, 2, 0, 80]

/-- A SOCKS5 BIND request (command 2) for 10.0.0.2 port 80. -/
def demoBind5 : List Nat := [5, 2, 0, 1, 10, 0, 0, 2, 0, 80]

/-- A SOCKS5 CONNECT request with address type 4 (IPv6) cut off after 10 bytes: only 6 of
the 16 address bytes and no port. -/
def demoShort6 : List Nat := [5, 1, 0, 4, 32, 1, 13, 184, 0, 0]

/-- Readiness reported by poll: `bits` on descriptors `i` and `j`, nothing elsewhere. -/
def ready2 (i j : Int) (bits : Nat) : Int → Nat := fun k => if k = i ∨ k = j then bits else 0

/-- The text `ls` has been typed: it is queued on the PTY master as a `D:0:` record. -/
def demoTyped : Loop :=
  after (step demoEnv 100 { r := 3, data := bytes "ls\n" } 0 (polled (ready 0 POLLIN) demoInit))

/-- A script client has connected to the script listener: descriptor 10 is in role
SCRIPT_IO and `script_fd` is 10. -/
def demoScript : Loop :=
  after (step demoEnv 100 { afd := 10 } 4 (polled (ready 4 POLLIN) demoInit))

/-- The script client has closed its end: poll reported POLLIN and POLLHUP on descriptor 10
and the step has run. -/
def demoHung : Loop :=
  after (step demoEnv 101 {} 10 (polled (ready 10 (POLLIN ||| POLLHUP)) demoScript))

/-- After that a client has connected to the TCP listener and accept has returned the free
descriptor number 10 again. -/
def demoReuse : Loop :=
  after (step demoEnv 102 { afd := 10 } 5 (polled (ready 5 POLLIN) demoHung))

/-- The script listener has failed while the script client was connected: poll reported
POLLERR on descriptor 4 and the step has run. -/
def demoDead : Loop := after (step demoSafe 101 {} 4 (polled (ready 4 POLLERR) demoScript))

/-- Or a client has connected to the TCP listener and accept has returned the free descriptor
number 4. -/
def demoDeadTcp : Loop :=
  after (step demoSafe 102 { afd := 4 } 5 (polled (ready 5 POLLIN) demoDead))

/-- Then the script client has closed its end: poll reported POLLIN and POLLHUP on descriptor
10 and the step has run. -/
def demoDeadArmed : Loop :=
  after (step demoSafe 103 {} 10 (polled (ready 10 (POLLIN ||| POLLHUP)) demoDeadTcp))

/-- A client has connected to the TCP listener at time 100: descriptor 8 is in role CONNECT. -/
def demoAccepted : Loop :=
  after (step demoEnv 100 { afd := 8 } 5 (polled (ready 5 POLLIN) demoInit))

/-- A second client has connected to the TCP listener at time 120: descriptor 11 is in role
CONNECT as well. -/
def demoTwo : Loop :=
  after (step demoEnv 120 { afd := 11 } 5 (polled (ready 5 POLLIN) demoAccepted))

/-- Collaborators as in `demoEnv`, with encryption active and a window-size command. -/
def demoCrypted : Env := { demoEnv with is_crypted := true, wsize_cmd := bytes "C:WS:24:80:" }

/-- The start state after a SIGWINCH: the winsize-changed flag is set. -/
def demoResized : Loop := { demoInit with winsize_changed := true }

/-- A UDP listener on descriptor 12 for 10.0.0.2 port 53, besides the PTY master 3. -/
def demoUdp : Loop := init_loop 3 [] [(12, bytes "10.0.0.2/53/")] (-1) (-1) (-1)

/-- The SOCKS4 client on descriptor 9 has sent a CONNECT request for 10.0.0.2 port 80 at time
101: role CONNECT, the 8-byte reply is staged and POLLOUT is armed. -/
def demoSocks4b : Loop :=
  after (step demoEnv 101 { r := 9, data := [4, 1, 0, 80, 10, 0, 0, 2, 0] } 9
    (polled (ready 9 POLLIN) demoSocks4a))

/-- The dispatcher has queued two reply datagrams on the UDP listener 12, for the local ports
held as 16540 and 16541 in `sin_port`. -/
def demoUdpQueued : Loop :=
  (demoUdp.upd_state 12 (fun st =>
    { st with odgrams := [bytes "pong", bytes "x"], ulports := [16540, 16541] })).arm 12 POLLOUT

/-- The commands the remote side sends in-band (section 4.7 of the spec): a TCP connect was
confirmed, a TCP session has finished, a data segment for a TCP session, a reply datagram for a
UDP session. -/
inductive Cmd
  | confirm (rnode : List Nat)
  | finish (rnode : List Nat)
  | data (rnode : List Nat) (payload : List Nat)
  | dgram (rnode : List Nat) (port : Nat) (payload : List Nat)

/-- Modelled from the spec: what the command dispatcher `cmd_handler`, which is not under
src/, does with a command (section 4.7). `C:T:C:` finds the session in `tcp_nodes2sock`, makes
it CONNECTED and arms read; `C:T:F:` makes the session CLOSING and clears its key; `C:T:S:`
appends the bytes to the `obuf` of the session and arms write; `C:U:S:` looks the UDP listener
up by the key, pushes the bytes into `odgrams` and the port into `ulports` and arms write. The
spec does not say what is done with a key that is not in the map; here the command is dropped.
The theorems take the dispatcher as a parameter; this one serves the worked examples. -/
def apply_cmd (c : Cmd) (s : Loop) : Loop :=
  match c with
  | Cmd.confirm k =>
    match s.tcp_nodes2sock k with
    | some fd => (s.upd_state fd (fun st => { st with state := STATE_CONNECTED })).arm fd POLLIN
    | none => s
  | Cmd.finish k =>
    match s.tcp_nodes2sock k with
    | some fd => (s.upd_state fd (fun st => { st with state := STATE_CLOSING })).tcp_erase k
    | none => s
  | Cmd.data k b =>
    match s.tcp_nodes2sock k with
    | some fd => (s.append_obuf fd b).arm fd POLLOUT
    | none => s
  | Cmd.dgram k p b =>
    match s.udp_nodes2sock k with
    | some fd =>
      (s.upd_state fd (fun st =>
        { st with odgrams := st.odgrams ++ [b], ulports := st.ulports ++ [p] })).arm fd POLLOUT
    | none => s

/-- The first `n` slash-terminated segments of a text, and what follows them. -/
def take_segments : List Nat → Nat → List Nat × List Nat
  | l, 0 => ([], l)
  | [], _ + 1 => ([], [])
  | c :: l, n + 1 =>
    if c = 47 then (c :: (take_segments l n).1, (take_segments l n).2)
    else (c :: (take_segments l (n + 1)).1, (take_segments l (n + 1)).2)

/-- Modelled from the spec: the way the dispatcher reads a command text (section 4.7): the
six-byte tag, then the key (`ip/port/id/`), then the payload; for `C:U:S:` the port is the
number in the last segment of the key. A text with another tag is no command. -/
def parse_cmd (cmd : List Nat) : Option Cmd :=
  let tag := cmd.take 6
  let rest := cmd.drop 6
  if tag = bytes "C:T:C:" then some (Cmd.confirm rest)
  else if tag = bytes "C:T:F:" then some (Cmd.finish rest)
  else if tag = bytes "C:T:S:" then
    some (Cmd.data (take_segments rest 3).1 (take_segments rest 3).2)
  else if tag = bytes "C:U:S:" then
    some (Cmd.dgram (take_segments rest 3).1
      (digits_value ((take_segments (take_segments rest 2).2 1).1.dropLast))
      (take_segments rest 3).2)
  else none

/-- Modelled from the spec: the command dispatcher `cmd_handler` of section 4.7, for the worked
examples. -/
def demoDispatch (cmd : List Nat) (s : Loop) : Loop :=
  match parse_cmd cmd with
  | some c => apply_cmd c s
  | none => s

/-- The collaborators of `demoEnv`, with a dispatcher that obeys the commands of the remote
side. -/
def demoPeer : Env := { demoEnv with cmd_handler := demoDispatch }

/-! ## Auxiliary facts -/

theorem or_and_self_bits (e m : Nat) : (e ||| m) &&& m = m := by
  apply Nat.eq_of_testBit_eq
  intro i
  simp only [Nat.testBit_and, Nat.testBit_or]
  cases Nat.testBit m i <;> simp

theorem decimalAux_length_le (fuel : Nat) : ∀ (n : Nat) (acc : List Nat) (k : Nat),
    n < 10 ^ (k + 1) → (decimalAux fuel n acc).length ≤ acc.length + (k + 1) := by
  induction fuel with
  | zero => intro n acc k _; simp [decimalAux]
  | succ fuel ih =>
    intro n acc k hn
    unfold decimalAux
    split
    · simp
    · cases k with
      | zero => simp at hn; omega
      | succ k =>
        have hdiv : n / 10 < 10 ^ (k + 1) := by
          rw [Nat.div_lt_iff_lt_mul (by norm_num)]
          rw [pow_succ] at hn; exact hn
        have := ih (n / 10) ((48 + n % 10) :: acc) k hdiv
        simp at this ⊢
        omega

/-- The id buffer of 16 bytes holds the decimal text of every non-negative 32-bit int. -/
theorem snprintf_id_eq (a : Int) (h0 : 0 ≤ a) (h31 : a < 2 ^ 31) :
    snprintf_id a = decimal a.toNat ++ [47] := by
  have hlt : ¬ a < 0 := by omega
  have hn : a.toNat < 10 ^ (9 + 1) := by
    have : a.toNat < 2 ^ 31 := by omega
    omega
  have hlen := decimalAux_length_le (a.toNat + 1) a.toNat [] 9 hn
  unfold snprintf_id fmt_d
  rw [if_neg hlt]
  apply List.take_of_length_le
  simp [decimal] at hlen ⊢
  omega

/-- A step on a descriptor that is neither INVALID nor timed out, has no error or hangup
readiness and is read-ready, is the read-ready branch. -/
theorem step_read (E : Env) (now : Int) (io : Sys) (i : Int) (s : Loop)
    (hinv : (s.fd2state i).state ≠ STATE_INVALID)
    (hto : ¬ timed_out E now (s.fd2state i))
    (herr : (s.pfds i).revents &&& (POLLERR ||| POLLHUP ||| POLLNVAL) = 0)
    (hin : (s.pfds i).revents &&& POLLIN ≠ 0) :
    step E now io i s = read_ready E now io i s := by
  unfold step
  rw [if_neg hinv, if_neg hto, if_neg (by simpa using herr), if_pos hin]

/-- A step on a descriptor that is neither INVALID nor timed out, has no error or hangup
readiness, is not read-ready and is write-ready, is the write-ready branch. -/
theorem step_write (E : Env) (now : Int) (io : Sys) (i : Int) (s : Loop)
    (hinv : (s.fd2state i).state ≠ STATE_INVALID)
    (hto : ¬ timed_out E now (s.fd2state i))
    (herr : (s.pfds i).revents &&& (POLLERR ||| POLLHUP ||| POLLNVAL) = 0)
    (hin : (s.pfds i).revents &&& POLLIN = 0)
    (hout : (s.pfds i).revents &&& POLLOUT ≠ 0) :
    step E now io i s = write_ready E now io i s := by
  unfold step
  rw [if_neg hinv, if_neg hto, if_neg (by simpa using herr), if_neg (by simpa using hin),
    if_pos hout]

theorem sbuf_after_eq (size : Nat) (data : List Nat) (h : data.length ≤ size) :
    sbuf_after size data = data ++ List.replicate (size - data.length) 0 := by
  unfold sbuf_after
  apply List.take_of_length_le
  simp; omega

theorem sbuf_after_length (size : Nat) (data : List Nat) (h : data.length ≤ size) :
    (sbuf_after size data).length = size := by
  rw [sbuf_after_eq size data h]; simp; omega

/-- After the memset and the receive, reading `sbuf[k]` gives the received byte, or zero
past the received bytes. -/
theorem byte_at_sbuf_after (size : Nat) (data : List Nat) (k : Nat) (h : data.length ≤ size) :
    byte_at (sbuf_after size data) k = byte_at data k := by
  rw [sbuf_after_eq size data h]
  unfold byte_at
  by_cases hk : k < data.length
  · simp [List.getD_eq_getElem?_getD, List.getElem?_append_left hk]
  · have hk2 : data.length ≤ k := by omega
    simp [List.getD_eq_getElem?_getD, List.getElem?_append_right hk2, List.getElem?_eq_none hk2,
      List.getElem?_replicate]
    split <;> rfl

/-- Overwriting byte 1 of the buffer and taking the `r` received bytes is overwriting byte 1
of the received bytes. -/
theorem string_of_set_one (size : Nat) (data : List Nat) (v : Nat) (r : Int)
    (h : data.length ≤ size) (hr : (data.length : Int) = r) (h2 : 2 ≤ data.length) :
    string_of ((sbuf_after size data).set 1 v) r = data.set 1 v := by
  rw [sbuf_after_eq size data h]
  unfold string_of
  have : r.toNat = data.length := by omega
  rw [this, List.set_append_left _ _ (by omega)]
  rw [List.take_append_of_le_length (by simp)]
  apply List.take_of_length_le; simp

theorem take_two_set_one (sbuf : List Nat) (v : Nat) (h : 2 ≤ sbuf.length) :
    (sbuf.set 1 v).take 2 = [byte_at sbuf 0, v] := by
  match sbuf, h with
  | a :: b :: t, _ => simp [byte_at]

/-- Clearing POLLOUT leaves the state table alone. -/
theorem clear_pollout_fd2state (i : Int) (s : Loop) :
    (clear_pollout i s).fd2state = s.fd2state := by
  unfold clear_pollout
  split <;> rfl

/-- C1: on a read-ready TCP listener `l` with configured destination `R`, a successful accept
returning the fresh descriptor `a` makes `a` a CONNECT record with `rnode = R ++ decimal(a)
++ "/"`, an empty `obuf` and no readiness events, registers that key for `a` in
`tcp_nodes2sock`, appends exactly the encoded `C:T:N:` record of that key at the end of the PTY
`obuf` and arms POLLOUT on the PTY; a failing accept (result `f < 0`) leaves the state table,
both maps, the locals and every readiness entry (descriptor and events) as they were. -/
theorem C1_accept (E : Env) (now : Int) (io : Sys) (l a f : Int) (s : Loop)
    (hrole : (s.fd2state l).state = STATE_ACCEPT)
    (herr : (s.pfds l).revents &&& (POLLERR ||| POLLHUP ||| POLLNVAL) = 0)
    (hin : (s.pfds l).revents &&& POLLIN ≠ 0)
    (ha0 : 0 ≤ a) (ha31 : a < 2 ^ 31) (ham : a ≠ E.master) (hf : f < 0) :
    (∃ s', step E now { io with afd := a } l s = Outcome.cont s' [] ∧
      (s'.fd2state a).state = STATE_CONNECT ∧
      (s'.fd2state a).rnode = (s.fd2state l).rnode ++ decimal a.toNat ++ [47] ∧
      (s'.fd2state a).obuf = [] ∧
      (s'.pfds a).events = 0 ∧
      s'.tcp_nodes2sock (s'.fd2state a).rnode = some a ∧
      (s'.fd2state E.master).obuf =
        (s.fd2state E.master).obuf ++ E.possibly_b64encrypt "C:T:N:" (s'.fd2state a).rnode ∧
      (s'.pfds E.master).events &&& POLLOUT = POLLOUT) ∧
    (∃ s', step E now { io with afd := f } l s = Outcome.cont s' [] ∧
      s'.fd2state = s.fd2state ∧ s'.tcp_nodes2sock = s.tcp_nodes2sock ∧
      s'.udp_nodes2sock = s.udp_nodes2sock ∧ s'.script_fd = s.script_fd ∧
      s'.winsize_changed = s.winsize_changed ∧
      ∀ j, (s'.pfds j).fd = (s.pfds j).fd ∧ (s'.pfds j).events = (s.pfds j).events) := by
  have hinv : (s.fd2state l).state ≠ STATE_INVALID := by rw [hrole]; decide
  have hto : ¬ timed_out E now (s.fd2state l) := by simp [timed_out, hrole]
  have hid := snprintf_id_eq a ha0 ha31
  have hna : ¬ a < 0 := by omega
  constructor
  · rw [step_read E now _ l s hinv hto herr hin]
    simp [read_ready, read_accept, Loop.upd_pfd, Loop.upd_state, Loop.arm, Loop.append_obuf,
      Loop.tcp_set, hrole, hna, hid, Function.update, ham, Ne.symm ham, or_and_self_bits]
    split
    · next h => subst h; rfl
    · rfl
  · rw [step_read E now _ l s hinv hto herr hin]
    simp [read_ready, read_accept, Loop.upd_pfd, hrole, hf, Function.update]
    intro j
    split
    · next h => subst h; exact ⟨rfl, rfl⟩
    · exact ⟨rfl, rfl⟩

/-- C1 at a concrete input: the TCP listener 5 of the worked start state is read-ready and
accept returns descriptor 8. -/
theorem C1_accept_witness :
    ((polled (ready 5 POLLIN) demoInit).fd2state 5).state = STATE_ACCEPT ∧
    (∃ s', step demoEnv 100 { afd := 8 } 5 (polled (ready 5 POLLIN) demoInit)
        = Outcome.cont s' [] ∧
      (s'.fd2state 8).state = STATE_CONNECT ∧
      (s'.fd2state 8).rnode = bytes "10.0.0.1/22/8/" ∧
      (s'.pfds 8).events = 0 ∧
      s'.tcp_nodes2sock (bytes "10.0.0.1/22/8/") = some 8 ∧
      (s'.fd2state 3).obuf = bytes "C:T:N:10.0.0.1/22/8/") := by
  refine ⟨by decide, ?_⟩
  obtain ⟨s', h1, h2, h3, _, h5, h6, h7, _⟩ :=
    (C1_accept demoEnv 100 {} 5 8 (-1) (polled (ready 5 POLLIN) demoInit)
      (by decide) (by decide) (by decide) (by decide) (by norm_num) (by decide) (by decide)).1
  have hr : (s'.fd2state 8).rnode = bytes "10.0.0.1/22/8/" := by rw [h3]; decide
  refine ⟨s', h1, h2, hr, h5, ?_, ?_⟩
  · rw [← hr]; exact h6
  · have : demoEnv.master = 3 := rfl
    rw [this, hr] at h7
    rw [h7]; decide

/-- C2: in role SOCKS5_AUTH2 a received buffer of at least 10 bytes with version 5, command 1
and address type 1 or 4 is accepted: the bytes appended to the descriptor's `obuf` are the
received buffer with byte 1 replaced by 0 (same length, every other byte as received), the role
becomes CONNECT, the readiness events become exactly POLLOUT, the new `rnode` is registered
for the descriptor in `tcp_nodes2sock`, and the encoded `C:T:N:` record of that `rnode` is
appended to the PTY `obuf`. -/
theorem C2_socks5_grant (E : Env) (now : Int) (io : Sys) (i : Int) (s : Loop)
    (hrole : (s.fd2state i).state = STATE_SOCKS5_AUTH2)
    (herr : (s.pfds i).revents &&& (POLLERR ||| POLLHUP ||| POLLNVAL) = 0)
    (hin : (s.pfds i).revents &&& POLLIN ≠ 0)
    (him : i ≠ E.master)
    (hstored : (io.data.length : Int) = io.r) (hsize : io.data.length ≤ E.sizeof_sbuf)
    (h10 : 10 ≤ io.r) (hver : byte_at io.data 0 = 5) (hcmd : byte_at io.data 1 = 1)
    (hatype : byte_at io.data 3 = 1 ∨ byte_at io.data 3 = 4) :
    ∃ s', step E now io i s = Outcome.cont s' [] ∧
      (s'.fd2state i).obuf = (s.fd2state i).obuf ++ io.data.set 1 0 ∧
      (io.data.set 1 0).length = io.data.length ∧
      byte_at (io.data.set 1 0) 1 = 0 ∧
      (∀ k, k ≠ 1 → byte_at (io.data.set 1 0) k = byte_at io.data k) ∧
      (s'.fd2state i).state = STATE_CONNECT ∧
      (s'.pfds i).events = POLLOUT ∧
      s'.tcp_nodes2sock (s'.fd2state i).rnode = some i ∧
      (s'.fd2state E.master).obuf =
        (s.fd2state E.master).obuf ++ E.possibly_b64encrypt "C:T:N:" (s'.fd2state i).rnode := by
  have hinv : (s.fd2state i).state ≠ STATE_INVALID := by rw [hrole]; decide
  have hto : ¬ timed_out E now (s.fd2state i) := by simp [timed_out, hrole]
  have h2 : 2 ≤ io.data.length := by omega
  have hreply := string_of_set_one E.sizeof_sbuf io.data 0 io.r hsize hstored h2
  have hb : ∀ k, byte_at (sbuf_after E.sizeof_sbuf io.data) k = byte_at io.data k :=
    fun k => byte_at_sbuf_after E.sizeof_sbuf io.data k hsize
  have hnot : ¬ (io.r < 10 ∨ byte_at io.data 0 ≠ 5 ∨
      (byte_at io.data 3 ≠ 1 ∧ byte_at io.data 3 ≠ 4) ∨ byte_at io.data 1 ≠ 1) := by
    rcases hatype with h | h <;> simp [hver, hcmd, h] <;> omega
  rw [step_read E now io i s hinv hto herr hin]
  simp only [read_ready, read_socks5_auth2, hb]
  simp only [Loop.upd_pfd, hrole, if_neg hnot, hreply]
  refine ⟨_, rfl, ?_⟩
  simp [register, Loop.upd_pfd, Loop.upd_state, Loop.arm, Loop.append_obuf, Loop.tcp_set,
    Function.update, him, Ne.symm him, byte_at]
  refine ⟨?_, ?_⟩
  · have h1 : 1 < io.data.length := by omega
    simp [List.getD_eq_getElem?_getD, List.getElem?_set, h1]
  · intro k hk
    simp [List.getD_eq_getElem?_getD, List.getElem?_set, Ne.symm hk]

/-- C2 at a concrete input: the SOCKS5 client on descriptor 8 asks for 10.0.0.2 port 80. -/
theorem C2_socks5_grant_witness :
    (demoSocks5c.fd2state 8).state = STATE_SOCKS5_AUTH2 ∧
    (∃ s', step demoEnv 102 { r := 10, data := demoReq5 } 8 (polled (ready 8 POLLIN) demoSocks5c)
        = Outcome.cont s' [] ∧
      (s'.fd2state 8).obuf = [5, 0, 0, 1, 10, 0, 0, 2, 0, 80] ∧
      (s'.fd2state 8).state = STATE_CONNECT ∧
      (s'.pfds 8).events = POLLOUT) := by
  refine ⟨by decide, ?_⟩
  obtain ⟨s', h1, h2, _, _, _, h6, h7, _⟩ :=
    C2_socks5_grant demoEnv 102 { r := 10, data := demoReq5 } 8 (polled (ready 8 POLLIN) demoSocks5c)
      (by decide) (by decide) (by decide) (by decide) (by decide) (by decide) (by decide)
      (by decide) (by decide) (by decide)
  refine ⟨s', h1, ?_, h6, h7⟩
  rw [h2]; decide

/-- C3: in role SOCKS5_AUTH2 a receive that is a mismatch (fewer than 10 bytes, or version
not 5, or command not 1, or address type neither 1 nor 4) makes the step write exactly two
bytes to the client, the second being 0x08, and close the descriptor: role INVALID,
descriptor unused, readiness entry cleared, `obuf` cleared; the PTY `obuf` and
`tcp_nodes2sock` are as before. -/
theorem C3_socks5_reject (E : Env) (now : Int) (io : Sys) (i : Int) (s : Loop)
    (hrole : (s.fd2state i).state = STATE_SOCKS5_AUTH2)
    (herr : (s.pfds i).revents &&& (POLLERR ||| POLLHUP ||| POLLNVAL) = 0)
    (hin : (s.pfds i).revents &&& POLLIN ≠ 0)
    (him : i ≠ E.master)
    (hsize : io.data.length ≤ E.sizeof_sbuf) (hbuf : 2 ≤ E.sizeof_sbuf)
    (hbad : io.r < 10 ∨ byte_at io.data 0 ≠ 5 ∨ byte_at io.data 1 ≠ 1 ∨
      (byte_at io.data 3 ≠ 1 ∧ byte_at io.data 3 ≠ 4)) :
    ∃ s' b0, step E now io i s = Outcome.cont s' [Effect.writen i [b0, 0x08], Effect.close i] ∧
      (s'.fd2state i).state = STATE_INVALID ∧
      (s'.fd2state i).fd = -1 ∧
      (s'.pfds i).fd = -1 ∧
      (s'.pfds i).events = 0 ∧
      (s'.fd2state i).obuf = [] ∧
      (s'.fd2state E.master).obuf = (s.fd2state E.master).obuf ∧
      s'.tcp_nodes2sock = s.tcp_nodes2sock := by
  have hinv : (s.fd2state i).state ≠ STATE_INVALID := by rw [hrole]; decide
  have hto : ¬ timed_out E now (s.fd2state i) := by simp [timed_out, hrole]
  have hb : ∀ k, byte_at (sbuf_after E.sizeof_sbuf io.data) k = byte_at io.data k :=
    fun k => byte_at_sbuf_after E.sizeof_sbuf io.data k hsize
  have hcond : io.r < 10 ∨ byte_at io.data 0 ≠ 5 ∨
      (byte_at io.data 3 ≠ 1 ∧ byte_at io.data 3 ≠ 4) ∨ byte_at io.data 1 ≠ 1 := by
    rcases hbad with h | h | h | h
    · exact Or.inl h
    · exact Or.inr (Or.inl h)
    · exact Or.inr (Or.inr (Or.inr h))
    · exact Or.inr (Or.inr (Or.inl h))
  have hw := take_two_set_one (sbuf_after E.sizeof_sbuf io.data) 0x08
    (by rw [sbuf_after_length _ _ hsize]; exact hbuf)
  rw [step_read E now io i s hinv hto herr hin]
  simp only [read_ready, read_socks5_auth2, hb]
  simp only [Loop.upd_pfd, hrole, if_pos hcond, hw, hb]
  refine ⟨_, byte_at io.data 0, rfl, ?_⟩
  simp [teardown, Loop.upd_pfd, Loop.upd_state, Function.update, Ne.symm him]

/-- C3 at a concrete input: the SOCKS5 client on descriptor 8 sends a BIND request. -/
theorem C3_socks5_reject_witness :
    (demoSocks5c.fd2state 8).state = STATE_SOCKS5_AUTH2 ∧
    (∃ s', step demoEnv 102 { r := 10, data := demoBind5 } 8 (polled (ready 8 POLLIN) demoSocks5c)
        = Outcome.cont s' [Effect.writen 8 [5, 0x08], Effect.close 8] ∧
      (s'.fd2state 8).state = STATE_INVALID ∧
      (s'.fd2state 3).obuf = (demoSocks5c.fd2state 3).obuf) := by
  refine ⟨by decide, ?_⟩
  obtain ⟨s', b0, h1, h2, _, _, _, _, h7, _⟩ :=
    C3_socks5_reject demoEnv 102 { r := 10, data := demoBind5 } 8
      (polled (ready 8 POLLIN) demoSocks5c)
      (by decide) (by decide) (by decide) (by decide) (by decide) (by decide)
      (Or.inr (Or.inr (Or.inl (by decide))))
  refine ⟨s', ?_, h2, h7⟩
  rw [h1]
  have hb : b0 = 5 := by
    have h := congrArg Outcome.effects h1
    have h5 : Outcome.effects (step demoEnv 102 { r := 10, data := demoBind5 } 8
        (polled (ready 8 POLLIN) demoSocks5c)) = [Effect.writen 8 [5, 0x08], Effect.close 8] := by
      decide
    rw [h5] at h
    simp [Outcome.effects] at h
    exact h.symm
  rw [hb]

/-- C4, the code at a failing input: the SOCKS5 client on descriptor 8 sends a CONNECT
request with address type 4 that is only 10 bytes long. The step accepts it (role CONNECT,
key registered, `C:T:N:` queued on the PTY), the staged reply is those 10 bytes with byte 1
cleared, shorter than the 22 bytes of an IPv6 reply, and the key is built from an address
whose last 10 bytes and whose port are zero bytes left by the memset, not received ones. -/
theorem C4_short_ipv6_request_granted :
    (demoSocks5c.fd2state 8).state = STATE_SOCKS5_AUTH2 ∧
    (demoSocks5c.fd2state 8).obuf = [] ∧
    ∃ s', step demoEnv 102 { r := 10, data := demoShort6 } 8 (polled (ready 8 POLLIN) demoSocks5c)
        = Outcome.cont s' [] ∧
      (s'.fd2state 8).state = STATE_CONNECT ∧
      (s'.fd2state 8).obuf = [5, 0, 0, 4, 32, 1, 13, 184, 0, 0] ∧
      (s'.fd2state 8).obuf.length < 22 ∧
      (s'.fd2state 8).rnode =
        snprintf_hdr (dotted AF_INET6 ([32, 1, 13, 184, 0, 0] ++ List.replicate 10 0)) 0 8 ∧
      s'.tcp_nodes2sock (s'.fd2state 8).rnode = some 8 ∧
      (s'.fd2state 3).obuf = (demoSocks5c.fd2state 3).obuf ++ bytes "C:T:N:" ++ (s'.fd2state 8).rnode := by
  refine ⟨by decide, by decide, _, rfl, ?_⟩
  decide

/-- C5: in role SOCKS4_AUTH a receive that fails, returns 0, or whose first byte is not 4
closes the session (role INVALID, descriptor unused, readiness entry cleared, `obuf`
cleared) without PTY traffic: the PTY `obuf`, the PTY readiness events and `tcp_nodes2sock`
are unchanged. -/
theorem C5_socks4_reject (E : Env) (now : Int) (io : Sys) (i : Int) (s : Loop)
    (hrole : (s.fd2state i).state = STATE_SOCKS4_AUTH)
    (herr : (s.pfds i).revents &&& (POLLERR ||| POLLHUP ||| POLLNVAL) = 0)
    (hin : (s.pfds i).revents &&& POLLIN ≠ 0)
    (him : i ≠ E.master)
    (hsize : io.data.length ≤ E.sizeof_sbuf)
    (hbad : io.r ≤ 0 ∨ byte_at io.data 0 ≠ 4) :
    ∃ s', step E now io i s = Outcome.cont s' [Effect.close i] ∧
      (s'.fd2state i).state = STATE_INVALID ∧
      (s'.fd2state i).fd = -1 ∧
      (s'.pfds i).fd = -1 ∧
      (s'.pfds i).events = 0 ∧
      (s'.fd2state i).obuf = [] ∧
      (s'.fd2state E.master).obuf = (s.fd2state E.master).obuf ∧
      (s'.pfds E.master).events = (s.pfds E.master).events ∧
      s'.tcp_nodes2sock = s.tcp_nodes2sock := by
  have hinv : (s.fd2state i).state ≠ STATE_INVALID := by rw [hrole]; decide
  have hto : ¬ timed_out E now (s.fd2state i) := by simp [timed_out, hrole]
  have hb : ∀ k, byte_at (sbuf_after E.sizeof_sbuf io.data) k = byte_at io.data k :=
    fun k => byte_at_sbuf_after E.sizeof_sbuf io.data k hsize
  rw [step_read E now io i s hinv hto herr hin]
  simp only [read_ready, read_socks4_auth, hb]
  simp only [Loop.upd_pfd, hrole, if_pos hbad]
  refine ⟨_, rfl, ?_⟩
  simp [teardown, Loop.upd_pfd, Loop.upd_state, Function.update, Ne.symm him]

/-- C5 at a concrete input: the SOCKS4 client on descriptor 9 sends a request whose version
byte is 5. -/
theorem C5_socks4_reject_witness :
    (demoSocks4a.fd2state 9).state = STATE_SOCKS4_AUTH ∧
    (∃ s', step demoEnv 101 { r := 8, data := [5, 1, 0, 80, 10, 0, 0, 2] } 9
        (polled (ready 9 POLLIN) demoSocks4a) = Outcome.cont s' [Effect.close 9] ∧
      (s'.fd2state 9).state = STATE_INVALID ∧
      (s'.fd2state 3).obuf = (demoSocks4a.fd2state 3).obuf ∧
      s'.tcp_nodes2sock = demoSocks4a.tcp_nodes2sock) := by
  refine ⟨by decide, ?_⟩
  obtain ⟨s', h1, h2, _, _, _, _, h7, _, h9⟩ :=
    C5_socks4_reject demoEnv 101 { r := 8, data := [5, 1, 0, 80, 10, 0, 0, 2] } 9
      (polled (ready 9 POLLIN) demoSocks4a)
      (by decide) (by decide) (by decide) (by decide) (by decide) (Or.inr (by decide))
  exact ⟨s', h1, h2, h7, h9⟩

/-- C6, the code at a failing input: the SOCKS4 client on descriptor 9 sends the single byte
04. The step grants the request although fewer than 8 bytes were received: the reply
`00 5a` followed by six zero bytes is staged, the role becomes CONNECT, the key for address
0.0.0.0 port 0 is registered and `C:T:N:` is queued on the PTY. -/
theorem C6_one_byte_socks4_request_granted :
    (demoSocks4a.fd2state 9).state = STATE_SOCKS4_AUTH ∧
    ∃ s', step demoEnv 101 { r := 1, data := [4] } 9 (polled (ready 9 POLLIN) demoSocks4a)
        = Outcome.cont s' [] ∧
      (s'.fd2state 9).state = STATE_CONNECT ∧
      (s'.fd2state 9).obuf = [0, 0x5a, 0, 0, 0, 0, 0, 0] ∧
      (s'.fd2state 9).rnode = bytes "0.0.0.0/0/9/" ∧
      s'.tcp_nodes2sock (bytes "0.0.0.0/0/9/") = some 9 ∧
      (s'.fd2state 3).obuf = (demoSocks4a.fd2state 3).obuf ++ bytes "C:T:N:0.0.0.0/0/9/" := by
  refine ⟨by decide, _, rfl, ?_⟩
  decide

/-- C8, the code at a failing input: the script connection on descriptor 10 is torn down by
the error and hangup branch, which leaves `script_fd` at 10 although the role of descriptor
10 is now INVALID. A TCP client is then accepted on descriptor number 10 (role CONNECT, empty
`obuf`, no readiness events), and the next PTY read that yields the plain bytes `hi` appends
them to the `obuf` of that TCP session and arms POLLOUT for it, besides stdout. -/
theorem C8_output_mirrored_after_hangup :
    (demoScript.fd2state 10).state = STATE_SCRIPT_IO ∧ demoScript.script_fd = 10 ∧
    step demoEnv 101 {} 10 (polled (ready 10 (POLLIN ||| POLLHUP)) demoScript)
      = Outcome.cont demoHung [Effect.close 10] ∧
    demoHung.script_fd = 10 ∧ (demoHung.fd2state 10).state = STATE_INVALID ∧
    step demoEnv 102 { afd := 10 } 5 (polled (ready 5 POLLIN) demoHung)
      = Outcome.cont demoReuse [] ∧
    (demoReuse.fd2state 10).state = STATE_CONNECT ∧ (demoReuse.fd2state 10).obuf = [] ∧
    (demoReuse.pfds 10).events = 0 ∧
    ∃ s', step demoEnv 103 { reads := [{ r := 0, tbuf := bytes "hi" }] } 3
        (polled (ready 3 POLLIN) demoReuse) = Outcome.cont s' [] ∧
      (s'.fd2state 1).obuf = bytes "hi" ∧
      (s'.fd2state 10).state = STATE_CONNECT ∧
      (s'.fd2state 10).obuf = bytes "hi" ∧
      (s'.pfds 10).events = POLLOUT := by
  refine ⟨by decide, by decide, rfl, by decide, by decide, rfl, by decide, by decide, by decide,
    _, rfl, ?_⟩
  decide

/-- C9, the code at a failing input: descriptor 8 is in role SOCKS5_AUTH2 with the reply
`05 00` staged and no key registered; the write of the reply fails. The write-error path
closes the descriptor and appends a `C:T:F:` record with an empty key to the PTY `obuf`. -/
theorem C9_finished_record_for_unregistered :
    (demoSocks5b.fd2state 8).state = STATE_SOCKS5_AUTH2 ∧
    (demoSocks5b.fd2state 8).rnode = [] ∧
    (∀ key, demoSocks5b.tcp_nodes2sock key = none) ∧
    ∃ s', step demoEnv 101 { r := -1, errno := 32 } 8 (polled (ready 8 POLLOUT) demoSocks5b)
        = Outcome.cont s' [Effect.write 8 [5, 0], Effect.close 8] ∧
      (s'.fd2state 8).state = STATE_INVALID ∧
      (s'.fd2state 3).obuf = (demoSocks5b.fd2state 3).obuf ++ bytes "C:T:F:" := by
  refine ⟨by decide, by decide, fun key => rfl, _, rfl, ?_⟩
  decide

/-- C10, the claim fails for the PTY write: with a record queued on the PTY master, a write
that fails with EINTR terminates the process. -/
theorem C10_pty_write_eintr_dies :
    (demoTyped.fd2state 3).state = STATE_PTY ∧
    (demoTyped.fd2state 3).obuf = bytes "D:0:ls\n" ∧
    step demoEnv 101 { r := -1, errno := EINTR } 3 (polled (ready 3 POLLOUT) demoTyped)
      = Outcome.die "psc->why()" := by
  refine ⟨by decide, by decide, rfl⟩

/-- C10 as amended: a read on stdin or on the script connection, and a write on stdout or
on the script connection, that fails with EINTR does not terminate the process and leaves
the state table with its buffers, the readiness entries (descriptor and events), both
peer-key maps and the loop locals unchanged; on the PTY master the same holds for a write
that fails with EAGAIN or EWOULDBLOCK. -/
theorem C10_transient_errors (E : Env) (now : Int) (io : Sys) (i : Int) (s : Loop)
    (herr : (s.pfds i).revents &&& (POLLERR ||| POLLHUP ||| POLLNVAL) = 0)
    (hfail : io.r < 0)
    (hcase :
      ((s.pfds i).revents &&& POLLIN ≠ 0 ∧ io.errno = EINTR ∧
        ((s.fd2state i).state = STATE_STDIN ∨ (s.fd2state i).state = STATE_SCRIPT_IO)) ∨
      ((s.pfds i).revents &&& POLLIN = 0 ∧ (s.pfds i).revents &&& POLLOUT ≠ 0 ∧
        io.errno = EINTR ∧
        ((s.fd2state i).state = STATE_STDOUT ∨ (s.fd2state i).state = STATE_SCRIPT_IO)) ∨
      ((s.pfds i).revents &&& POLLIN = 0 ∧ (s.pfds i).revents &&& POLLOUT ≠ 0 ∧
        (io.errno = EAGAIN ∨ io.errno = EWOULDBLOCK) ∧ (s.fd2state i).state = STATE_PTY)) :
    ∃ s' eff, step E now io i s = Outcome.cont s' eff ∧
      s'.fd2state = s.fd2state ∧ s'.tcp_nodes2sock = s.tcp_nodes2sock ∧
      s'.udp_nodes2sock = s.udp_nodes2sock ∧ s'.script_fd = s.script_fd ∧
      s'.winsize_changed = s.winsize_changed ∧
      ∀ j, (s'.pfds j).fd = (s.pfds j).fd ∧ (s'.pfds j).events = (s.pfds j).events := by
  have hr : io.r ≤ 0 := by omega
  have hpf : ∀ j, ((s.upd_pfd i (fun p => { p with revents := 0 })).pfds j).fd = (s.pfds j).fd ∧
      ((s.upd_pfd i (fun p => { p with revents := 0 })).pfds j).events = (s.pfds j).events := by
    intro j
    simp only [Loop.upd_pfd, Function.update]
    split
    · next h => subst h; exact ⟨rfl, rfl⟩
    · exact ⟨rfl, rfl⟩
  rcases hcase with ⟨hin, he, hrole⟩ | ⟨hin, hout, he, hrole⟩ | ⟨hin, hout, he, hrole⟩
  · have hinv : (s.fd2state i).state ≠ STATE_INVALID := by
      rcases hrole with h | h <;> rw [h] <;> decide
    have hto : ¬ timed_out E now (s.fd2state i) := by
      rcases hrole with h | h <;> simp [timed_out, h]
    rw [step_read E now io i s hinv hto herr hin]
    rcases hrole with h | h
    · refine ⟨s.upd_pfd i (fun p => { p with revents := 0 }), [], ?_, rfl, rfl, rfl, rfl, rfl, hpf⟩
      simp [read_ready, read_stdin, Loop.upd_pfd, h, hr, Sys.err, hfail, he]
    · refine ⟨s.upd_pfd i (fun p => { p with revents := 0 }), [], ?_, rfl, rfl, rfl, rfl, rfl, hpf⟩
      simp [read_ready, read_script, Loop.upd_pfd, h, hr, Sys.err, hfail, he]
  · have hinv : (s.fd2state i).state ≠ STATE_INVALID := by
      rcases hrole with h | h <;> rw [h] <;> decide
    have hto : ¬ timed_out E now (s.fd2state i) := by
      rcases hrole with h | h <;> simp [timed_out, h]
    rw [step_write E now io i s hinv hto herr hin hout]
    rcases hrole with h | h
    · refine ⟨s.upd_pfd i (fun p => { p with revents := 0 }),
        [Effect.write 1 ((s.fd2state i).obuf.take (chunk_len (s.fd2state i).obuf))], ?_,
        rfl, rfl, rfl, rfl, rfl, hpf⟩
      simp [write_ready, write_stdout, Loop.upd_pfd, h, hr, Sys.err, hfail, he]
    · refine ⟨s.upd_pfd i (fun p => { p with revents := 0 }),
        [Effect.write i ((s.fd2state i).obuf.take (chunk_len (s.fd2state i).obuf))], ?_,
        rfl, rfl, rfl, rfl, rfl, hpf⟩
      simp [write_ready, write_script, Loop.upd_pfd, h, hr, Sys.err, hfail, he]
  · have hinv : (s.fd2state i).state ≠ STATE_INVALID := by rw [hrole]; decide
    have hto : ¬ timed_out E now (s.fd2state i) := by simp [timed_out, hrole]
    have he2 : io.errno = EAGAIN ∨ io.errno = EWOULDBLOCK := he
    rw [step_write E now io i s hinv hto herr hin hout]
    refine ⟨s.upd_pfd i (fun p => { p with revents := 0 }),
        [Effect.write E.w_fileno (s.fd2state i).obuf], ?_,
        rfl, rfl, rfl, rfl, rfl, hpf⟩
    simp [write_ready, write_pty, Loop.upd_pfd, hrole, hr, Sys.err, hfail, he2]

/-- C10 as amended at a concrete input: the read on stdin of the worked start state fails
with EINTR. -/
theorem C10_transient_errors_witness :
    (demoInit.fd2state 0).state = STATE_STDIN ∧
    ∃ s' eff, step demoEnv 100 { r := -1, errno := EINTR } 0 (polled (ready 0 POLLIN) demoInit)
        = Outcome.cont s' eff ∧
      s'.fd2state = demoInit.fd2state ∧ s'.tcp_nodes2sock = demoInit.tcp_nodes2sock ∧
      ∀ j, (s'.pfds j).events = (demoInit.pfds j).events := by
  refine ⟨by decide, ?_⟩
  obtain ⟨s', eff, h1, h2, h3, _, _, _, h7⟩ :=
    C10_transient_errors demoEnv 100 { r := -1, errno := EINTR } 0 (polled (ready 0 POLLIN) demoInit)
      (by decide) (by decide) (Or.inl (by decide))
  exact ⟨s', eff, h1, h2, h3, fun j => (h7 j).2⟩

/-- C11: at the top of an iteration, when the winsize-changed flag is set and the codec
reports encryption, the window-size command is appended to the PTY `obuf`, POLLOUT is armed
on the PTY and the flag is cleared; in every other case the step changes nothing, so
nothing is appended and the flag keeps its value; in particular with the flag set and
encryption disabled the PTY `obuf` and the PTY readiness entry are as before. -/
theorem C11_winsize (E : Env) (s : Loop) :
    (s.winsize_changed = true ∧ E.is_crypted = true →
      ((winsize_step E s).fd2state E.master).obuf = (s.fd2state E.master).obuf ++ E.wsize_cmd ∧
      ((winsize_step E s).pfds E.master).events = (s.pfds E.master).events ||| POLLOUT ∧
      ((winsize_step E s).pfds E.master).events &&& POLLOUT = POLLOUT ∧
      (winsize_step E s).winsize_changed = false) ∧
    (¬ (s.winsize_changed = true ∧ E.is_crypted = true) → winsize_step E s = s) ∧
    (s.winsize_changed = true → E.is_crypted = false →
      ((winsize_step E s).fd2state E.master).obuf = (s.fd2state E.master).obuf ∧
      (winsize_step E s).pfds E.master = s.pfds E.master ∧
      (winsize_step E s).winsize_changed = true) := by
  refine ⟨?_, ?_, ?_⟩
  · intro h
    simp [winsize_step, h, Loop.append_obuf, Loop.arm, Loop.upd_state, Loop.upd_pfd,
      or_and_self_bits]
  · intro h
    simp only [winsize_step, if_neg h]
  · intro hw hc
    simp [winsize_step, hw, hc]

/-- C11 at concrete inputs: with encryption active the pending window-size command is queued
and the flag is cleared; with encryption disabled the same state is left as it is. -/
theorem C11_winsize_witness :
    ((winsize_step demoCrypted demoResized).fd2state 3).obuf = bytes "C:WS:24:80:" ∧
    (winsize_step demoCrypted demoResized).winsize_changed = false ∧
    winsize_step demoEnv demoResized = demoResized :=
  ⟨((C11_winsize demoCrypted demoResized).1 ⟨rfl, rfl⟩).1.trans (by decide),
   ((C11_winsize demoCrypted demoResized).1 ⟨rfl, rfl⟩).2.2.2,
   (C11_winsize demoEnv demoResized).2.1 (by decide)⟩

/-- C12: on a read-ready UDP listener `u` with base `rnode` `R`, a datagram with source port
value `p` and non-empty payload `d` makes the step append exactly the encoded `C:U:S:` record
of `R ++ decimal(p) ++ "/" ++ d` at the end of the PTY `obuf`, arm POLLOUT on the PTY and set
`udp_nodes2sock[R ++ decimal(p) ++ "/"] = u`; the role and the `rnode` of `u` stay. -/
theorem C12_udp_read (E : Env) (now : Int) (io : Sys) (u : Int) (s : Loop)
    (hrole : (s.fd2state u).state = STATE_UDPSERVER)
    (herr : (s.pfds u).revents &&& (POLLERR ||| POLLHUP ||| POLLNVAL) = 0)
    (hin : (s.pfds u).revents &&& POLLIN ≠ 0)
    (hum : u ≠ E.master)
    (hport : io.sin_port < 65536)
    (hr0 : 0 < io.r) (hstored : (io.data.length : Int) = io.r) :
    ∃ s', step E now io u s = Outcome.cont s' [] ∧
      (s'.fd2state E.master).obuf = (s.fd2state E.master).obuf ++
        E.possibly_b64encrypt "C:U:S:"
          ((s.fd2state u).rnode ++ decimal io.sin_port ++ [47] ++ io.data) ∧
      (s'.pfds E.master).events &&& POLLOUT = POLLOUT ∧
      s'.udp_nodes2sock ((s.fd2state u).rnode ++ decimal io.sin_port ++ [47]) = some u ∧
      (s'.fd2state u).state = STATE_UDPSERVER ∧
      (s'.fd2state u).rnode = (s.fd2state u).rnode := by
  have hinv : (s.fd2state u).state ≠ STATE_INVALID := by rw [hrole]; decide
  have hto : ¬ timed_out E now (s.fd2state u) := by simp [timed_out, hrole]
  have hid : snprintf_id (io.sin_port : Int) = decimal io.sin_port ++ [47] := by
    have h := snprintf_id_eq (io.sin_port : Int) (by omega) (by omega)
    simpa using h
  have hr : ¬ io.r ≤ 0 := by omega
  have hd : string_of io.data io.r = io.data := by
    unfold string_of
    apply List.take_of_length_le
    omega
  rw [step_read E now io u s hinv hto herr hin]
  simp [read_ready, read_udpserver, Loop.upd_pfd, Loop.upd_state, Loop.arm, Loop.append_obuf,
    Loop.udp_set, hrole, hr, hid, hd, Function.update, hum, Ne.symm hum, or_and_self_bits]

/-- C12 at a concrete input: a datagram `hi` whose `sin_port` holds 16540 arrives on the UDP
listener 12. -/
theorem C12_udp_read_witness :
    (demoUdp.fd2state 12).state = STATE_UDPSERVER ∧
    ∃ s', step demoEnv 100 { r := 2, data := bytes "hi", sin_port := 16540 } 12
        (polled (ready 12 POLLIN) demoUdp) = Outcome.cont s' [] ∧
      (s'.fd2state 3).obuf = bytes "C:U:S:10.0.0.2/53/16540/hi" ∧
      s'.udp_nodes2sock (bytes "10.0.0.2/53/16540/") = some 12 := by
  refine ⟨by decide, ?_⟩
  obtain ⟨s', h1, h2, _, h4, _, _⟩ :=
    C12_udp_read demoEnv 100 { r := 2, data := bytes "hi", sin_port := 16540 } 12
      (polled (ready 12 POLLIN) demoUdp)
      (by decide) (by decide) (by decide) (by decide) (by decide) (by decide) (by decide)
  refine ⟨s', h1, ?_, ?_⟩
  · have : demoEnv.master = 3 := rfl
    rw [this] at h2
    rw [h2]; decide
  · have hk : bytes "10.0.0.2/53/16540/" =
        ((polled (ready 12 POLLIN) demoUdp).fd2state 12).rnode ++ decimal 16540 ++ [47] := by
      decide
    rw [hk]; exact h4

/-- A step on a descriptor that is neither INVALID nor timed out and for which poll reported
nothing leaves the state as it is. -/
theorem step_idle (E : Env) (now : Int) (io : Sys) (i : Int) (s : Loop)
    (hto : ¬ timed_out E now (s.fd2state i)) (hrev : (s.pfds i).revents = 0) :
    step E now io i s = Outcome.cont s [] := by
  unfold step
  simp [hto, hrev]

/-- C13: a descriptor `i` in role CLOSING idle for more than CLOSING_TIME, or in role CONNECT
idle for more than CONNECT_TIME, is closed by the step: role INVALID, descriptor unused,
readiness entry cleared. If the role was CONNECT the encoded `C:T:F:` record of its `rnode` is
appended to the PTY `obuf` and the `rnode` is erased from `tcp_nodes2sock` (other keys stay);
if the role was CLOSING the PTY `obuf` and `tcp_nodes2sock` are unchanged. A CONNECT or CLOSING
descriptor `k` whose idle time does not exceed its limit skips the timeout rule: the step is
decided by its readiness alone, and with no readiness reported the state is unchanged. -/
theorem C13_timeout (E : Env) :
    (∀ (now : Int) (io : Sys) (i : Int) (s : Loop),
      (((s.fd2state i).state = STATE_CLOSING ∧ now - (s.fd2state i).time > E.CLOSING_TIME) ∨
        ((s.fd2state i).state = STATE_CONNECT ∧ now - (s.fd2state i).time > E.CONNECT_TIME)) →
      i ≠ E.master →
      ∃ s', step E now io i s = Outcome.cont s' [Effect.close i] ∧
        (s'.fd2state i).state = STATE_INVALID ∧
        (s'.fd2state i).fd = -1 ∧
        (s'.pfds i).fd = -1 ∧
        (s'.pfds i).events = 0 ∧
        ((s.fd2state i).state = STATE_CONNECT →
          (s'.fd2state E.master).obuf = (s.fd2state E.master).obuf ++
            E.possibly_b64encrypt "C:T:F:" (s.fd2state i).rnode ∧
          s'.tcp_nodes2sock (s.fd2state i).rnode = none ∧
          ∀ key, key ≠ (s.fd2state i).rnode → s'.tcp_nodes2sock key = s.tcp_nodes2sock key) ∧
        ((s.fd2state i).state = STATE_CLOSING →
          (s'.fd2state E.master).obuf = (s.fd2state E.master).obuf ∧
          s'.tcp_nodes2sock = s.tcp_nodes2sock)) ∧
    (∀ (now : Int) (io : Sys) (k : Int) (s : Loop),
      (((s.fd2state k).state = STATE_CLOSING ∧ now - (s.fd2state k).time ≤ E.CLOSING_TIME) ∨
        ((s.fd2state k).state = STATE_CONNECT ∧ now - (s.fd2state k).time ≤ E.CONNECT_TIME)) →
      step E now io k s =
        (if (s.pfds k).revents &&& (POLLERR ||| POLLHUP ||| POLLNVAL) ≠ 0 then
          hangup_close E k s
         else if (s.pfds k).revents &&& POLLIN ≠ 0 then read_ready E now io k s
         else if (s.pfds k).revents &&& POLLOUT ≠ 0 then write_ready E now io k s
         else Outcome.cont s []) ∧
      ((s.pfds k).revents = 0 → step E now io k s = Outcome.cont s [])) := by
  refine ⟨?_, ?_⟩
  · intro now io i s hto him
    have hinv : (s.fd2state i).state ≠ STATE_INVALID := by
      rcases hto with h | h <;> rw [h.1] <;> decide
    have ht : timed_out E now (s.fd2state i) := hto
    unfold step
    rw [if_neg hinv, if_pos ht]
    refine ⟨_, rfl, ?_⟩
    rcases hto with h | h
    · simp [h.1, Loop.upd_state, Loop.upd_pfd, Function.update, Ne.symm him]
    · simp [h.1, signal_finished, Loop.upd_state, Loop.upd_pfd, Loop.arm, Loop.append_obuf,
        Loop.tcp_erase, Function.update, him, Ne.symm him]
      intro key hkey
      simp [hkey]
  · intro now io k s hk
    have hkinv : (s.fd2state k).state ≠ STATE_INVALID := by
      rcases hk with h | h <;> rw [h.1] <;> decide
    have hkto : ¬ timed_out E now (s.fd2state k) := by
      rcases hk with h | h <;> simp [timed_out, h.1] <;> omega
    refine ⟨?_, fun h => step_idle E now io k s hkto h⟩
    unfold step
    rw [if_neg hkinv, if_neg hkto]

/-- C13 at concrete inputs: the CONNECT descriptor 8, idle since 100, is the only session. At
time 131 it has passed the limit of 30 and is closed with a `C:T:F:` record; at time 130 it has
not, and with no readiness reported its step changes nothing. -/
theorem C13_timeout_witness :
    (demoAccepted.fd2state 8).state = STATE_CONNECT ∧ (demoAccepted.fd2state 8).time = 100 ∧
    (∃ s', step demoEnv 131 {} 8 (polled (fun _ => 0) demoAccepted)
        = Outcome.cont s' [Effect.close 8] ∧
      (s'.fd2state 8).state = STATE_INVALID ∧
      (s'.fd2state 3).obuf = (demoAccepted.fd2state 3).obuf ++ bytes "C:T:F:10.0.0.1/22/8/" ∧
      s'.tcp_nodes2sock (bytes "10.0.0.1/22/8/") = none) ∧
    step demoEnv 130 {} 8 (polled (fun _ => 0) demoAccepted)
      = Outcome.cont (polled (fun _ => 0) demoAccepted) [] := by
  obtain ⟨s', h1, h2, _, _, _, h6, _⟩ :=
    (C13_timeout demoEnv).1 131 {} 8 (polled (fun _ => 0) demoAccepted)
      (Or.inr (by decide)) (by decide)
  have h9 := ((C13_timeout demoEnv).2 130 {} 8 (polled (fun _ => 0) demoAccepted)
    (Or.inr (by decide))).2
  obtain ⟨h6a, h6b, _⟩ := h6 (by decide)
  refine ⟨by decide, by decide, ⟨s', h1, h2, ?_, ?_⟩, h9 rfl⟩
  · exact h6a.trans (by decide)
  · have hk : bytes "10.0.0.1/22/8/"
        = ((polled (fun _ => 0) demoAccepted).fd2state 8).rnode := by
      decide
    rw [hk]; exact h6b

/-- C14: a step that is fatal to the session on descriptor `i` (a CONNECT or CLOSING timeout;
a failed receive in role CONNECTED; a rejected request in role SOCKS4_AUTH, SOCKS5_AUTH1 or
SOCKS5_AUTH2; a failed write in role CONNECT, SOCKS5_AUTH2 or CONNECTED) leaves every other
session alone: for every descriptor `j` other than `i` and the PTY master the record and the
readiness entry of `j` are unchanged, every `tcp_nodes2sock` entry under a key other than the
`rnode` of `i` is unchanged, `udp_nodes2sock` is unchanged, and the PTY `obuf` is either
unchanged or extended at its end by the one `C:T:F:` record of that `rnode`. -/
theorem C14_fatal_step_frame (E : Env) (now : Int) (io : Sys) (i : Int) (s : Loop)
    (him : i ≠ E.master)
    (hsize : io.data.length ≤ E.sizeof_sbuf)
    (hcase :
      timed_out E now (s.fd2state i) ∨
      (¬ timed_out E now (s.fd2state i) ∧
        (s.pfds i).revents &&& (POLLERR ||| POLLHUP ||| POLLNVAL) = 0 ∧
        (s.pfds i).revents &&& POLLIN ≠ 0 ∧
        (((s.fd2state i).state = STATE_CONNECTED ∧ io.r ≤ 0) ∨
         ((s.fd2state i).state = STATE_SOCKS4_AUTH ∧ (io.r ≤ 0 ∨ byte_at io.data 0 ≠ 4)) ∨
         ((s.fd2state i).state = STATE_SOCKS5_AUTH1 ∧ (io.r ≤ 0 ∨ byte_at io.data 0 ≠ 5)) ∨
         ((s.fd2state i).state = STATE_SOCKS5_AUTH2 ∧
           (io.r < 10 ∨ byte_at io.data 0 ≠ 5 ∨
            (byte_at io.data 3 ≠ 1 ∧ byte_at io.data 3 ≠ 4) ∨ byte_at io.data 1 ≠ 1)))) ∨
      (¬ timed_out E now (s.fd2state i) ∧
        (s.pfds i).revents &&& (POLLERR ||| POLLHUP ||| POLLNVAL) = 0 ∧
        (s.pfds i).revents &&& POLLIN = 0 ∧ (s.pfds i).revents &&& POLLOUT ≠ 0 ∧ io.r ≤ 0 ∧
        ((s.fd2state i).state = STATE_CONNECT ∨ (s.fd2state i).state = STATE_SOCKS5_AUTH2 ∨
         (s.fd2state i).state = STATE_CONNECTED))) :
    ∃ s' eff, step E now io i s = Outcome.cont s' eff ∧
      (s'.fd2state i).state = STATE_INVALID ∧
      (∀ j, j ≠ i → j ≠ E.master → s'.fd2state j = s.fd2state j ∧ s'.pfds j = s.pfds j) ∧
      (∀ key, key ≠ (s.fd2state i).rnode → s'.tcp_nodes2sock key = s.tcp_nodes2sock key) ∧
      s'.udp_nodes2sock = s.udp_nodes2sock ∧
      ((s'.fd2state E.master).obuf = (s.fd2state E.master).obuf ∨
       (s'.fd2state E.master).obuf = (s.fd2state E.master).obuf ++
         E.possibly_b64encrypt "C:T:F:" (s.fd2state i).rnode) := by
  have hb : ∀ k, byte_at (sbuf_after E.sizeof_sbuf io.data) k = byte_at io.data k :=
    fun k => byte_at_sbuf_after E.sizeof_sbuf io.data k hsize
  have hupd : ∀ (key : List Nat), key ≠ (s.fd2state i).rnode →
      Function.update s.tcp_nodes2sock (s.fd2state i).rnode none key = s.tcp_nodes2sock key :=
    fun key hkey => Function.update_noteq hkey _ _
  rcases hcase with hto | ⟨hto, herr, hin, hrole⟩ | ⟨hto, herr, hin, hout, hr, hrole⟩
  · have hinv : (s.fd2state i).state ≠ STATE_INVALID := by
      rcases hto with h | h <;> rw [h.1] <;> decide
    unfold step
    rw [if_neg hinv, if_pos hto]
    refine ⟨_, _, rfl, ?_⟩
    rcases hto with h | h
    · simp [timeout_close, h.1, Loop.upd_state, Loop.upd_pfd, Function.update, Ne.symm him]
      intro j hj _
      simp [hj]
    · simp [timeout_close, h.1, signal_finished, Loop.upd_state, Loop.upd_pfd, Loop.arm,
        Loop.append_obuf, Loop.tcp_erase, Function.update, him, Ne.symm him]
      refine ⟨?_, ?_⟩
      · intro j hj hjm
        simp [hj, hjm]
      · intro key hkey
        simp [hkey]
  · have hinv : (s.fd2state i).state ≠ STATE_INVALID := by
      rcases hrole with h | h | h | h <;> rw [h.1] <;> decide
    rw [step_read E now io i s hinv hto herr hin]
    rcases hrole with ⟨h, hr⟩ | ⟨h, hr⟩ | ⟨h, hr⟩ | ⟨h, hr⟩
    · refine ⟨_, _, by simp only [read_ready, Loop.upd_pfd, h, read_connected, if_pos hr]; rfl, ?_⟩
      simp [erase_and_signal, teardown, Loop.upd_state, Loop.upd_pfd, Loop.arm,
        Loop.append_obuf, Loop.tcp_erase, Function.update, him, Ne.symm him]
      refine ⟨?_, ?_⟩
      · intro j hj hjm
        simp [hj, hjm]
      · intro key hkey
        simp [hkey]
    · refine ⟨_, _, by simp only [read_ready, Loop.upd_pfd, h, read_socks4_auth, hb, if_pos hr]; rfl, ?_⟩
      simp [teardown, Loop.upd_state, Loop.upd_pfd, Function.update, Ne.symm him]
      intro j hj _
      simp [hj]
    · refine ⟨_, _, by simp only [read_ready, Loop.upd_pfd, h, read_socks5_auth1, hb, if_pos hr]; rfl, ?_⟩
      simp [teardown, Loop.upd_state, Loop.upd_pfd, Function.update, Ne.symm him]
      intro j hj _
      simp [hj]
    · refine ⟨_, _, by simp only [read_ready, Loop.upd_pfd, h, read_socks5_auth2, hb, if_pos hr]; rfl, ?_⟩
      simp [teardown, Loop.upd_state, Loop.upd_pfd, Function.update, Ne.symm him]
      intro j hj _
      simp [hj]
  · have hinv : (s.fd2state i).state ≠ STATE_INVALID := by
      rcases hrole with h | h | h <;> rw [h] <;> decide
    rw [step_write E now io i s hinv hto herr hin hout]
    have hw : write_ready E now io i s = write_tunnel E now io i
        (s.upd_pfd i (fun p => { p with revents := 0 })) := by
      rcases hrole with h | h | h <;> simp [write_ready, Loop.upd_pfd, h]
    rw [hw]
    refine ⟨_, _, by simp only [write_tunnel, if_pos hr]; rfl, ?_⟩
    simp [erase_and_signal, teardown, Loop.upd_state, Loop.upd_pfd, Loop.arm,
      Loop.append_obuf, Loop.tcp_erase, Function.update, him, Ne.symm him]
    refine ⟨?_, ?_⟩
    · intro j hj hjm
      simp [hj, hjm]
    · intro key hkey
      simp [hkey]

/-- C14 at a concrete input: at time 131 the CONNECT descriptor 8 times out; the record and
the readiness entry of the other session, descriptor 11, and its key stay. -/
theorem C14_fatal_step_frame_witness :
    timed_out demoEnv 131 ((polled (fun _ => 0) demoTwo).fd2state 8) ∧
    ∃ s' eff, step demoEnv 131 {} 8 (polled (fun _ => 0) demoTwo) = Outcome.cont s' eff ∧
      s'.fd2state 11 = (polled (fun _ => 0) demoTwo).fd2state 11 ∧
      s'.pfds 11 = (polled (fun _ => 0) demoTwo).pfds 11 ∧
      s'.tcp_nodes2sock (bytes "10.0.0.1/22/11/") = some 11 := by
  refine ⟨by decide, ?_⟩
  obtain ⟨s', eff, h1, _, h3, h4, _, _⟩ :=
    C14_fatal_step_frame demoEnv 131 {} 8 (polled (fun _ => 0) demoTwo) (by decide) (by decide)
      (Or.inl (by decide))
  refine ⟨s', eff, h1, (h3 11 (by decide) (by decide)).1, (h3 11 (by decide) (by decide)).2, ?_⟩
  rw [h4 _ (by decide)]
  decide

/-- The digits the conversion produces denote the number and contain no slash. -/
theorem decimalAux_spec (fuel : Nat) : ∀ (n : Nat) (acc : List Nat), n < fuel →
    ∃ d, decimalAux fuel n acc = d ++ acc ∧ digits_value d = n ∧ ∀ c ∈ d, c ≠ 47 := by
  induction fuel with
  | zero => intro n acc h; omega
  | succ fuel ih =>
    intro n acc h
    unfold decimalAux
    split
    · refine ⟨[48 + n], by simp, by simp [digits_value], ?_⟩
      intro c hc
      simp at hc
      omega
    · obtain ⟨d, h1, h2, h3⟩ := ih (n / 10) ((48 + n % 10) :: acc) (by omega)
      refine ⟨d ++ [48 + n % 10], by simp [h1], ?_, ?_⟩
      · unfold digits_value at h2 ⊢
        rw [List.foldl_append, h2]
        simp
        omega
      · intro c hc
        simp at hc
        rcases hc with hc | hc
        · exact h3 c hc
        · omega

theorem decimal_spec (n : Nat) : digits_value (decimal n) = n ∧ ∀ c ∈ decimal n, c ≠ 47 := by
  obtain ⟨d, h1, h2, h3⟩ := decimalAux_spec (n + 1) n [] (by omega)
  unfold decimal
  rw [h1]
  simpa using ⟨h2, h3⟩

/-- Different numbers have different decimal texts. -/
theorem decimal_injective (a b : Nat) (h : decimal a = decimal b) : a = b := by
  rw [← (decimal_spec a).1, ← (decimal_spec b).1, h]

theorem decimal_length_le (n k : Nat) (h : n < 10 ^ (k + 1)) : (decimal n).length ≤ k + 1 := by
  have := decimalAux_length_le (n + 1) n [] k h
  simpa [decimal] using this

theorem takeWhile_append_stop (P : Nat → Bool) (l r : List Nat) (x : Nat)
    (hl : ∀ a ∈ l, P a = true) (hx : P x = false) :
    (l ++ x :: r).takeWhile P = l := by
  induction l with
  | nil => simp [List.takeWhile, hx]
  | cons a l ih =>
    have ha : P a = true := hl a (by simp)
    simp [List.takeWhile, ha]
    exact ih (fun b hb => hl b (by simp [hb]))

/-- Behind a prefix that ends in a slash, a slash-free text followed by a slash can be read
back: two such strings that are equal carry the same text. -/
theorem last_segment_unique (p q da db : List Nat)
    (hp : p.getLast? = some 47) (hq : q.getLast? = some 47)
    (hda : ∀ c ∈ da, c ≠ 47) (hdb : ∀ c ∈ db, c ≠ 47)
    (h : p ++ da ++ [47] = q ++ db ++ [47]) : da = db := by
  have h1 : p ++ da = q ++ db := List.append_cancel_right h
  have key : ∀ (p d : List Nat), p.getLast? = some 47 → (∀ c ∈ d, c ≠ 47) →
      ((p ++ d).reverse.takeWhile (fun c => decide (c ≠ 47))) = d.reverse := by
    intro p d hp hd
    obtain ⟨p', rfl⟩ : ∃ p', p = p' ++ [47] := by
      rcases List.eq_nil_or_concat p with h | ⟨l, b, h⟩
      · subst h; simp at hp
      · subst h
        simp at hp
        exact ⟨l, by rw [hp]; simp⟩
    simp only [List.reverse_append, List.reverse_cons, List.reverse_nil, List.nil_append,
      List.singleton_append]
    apply takeWhile_append_stop
    · intro a ha
      simp at ha
      simpa using hd a ha
    · simp
  have := congrArg (fun l => (l.reverse.takeWhile (fun c => decide (c ≠ 47)))) h1
  simp only at this
  rw [key p da hp hda, key q db hq hdb] at this
  exact List.reverse_injective this

/-- Two keys that end in the decimal numbers of different descriptors, behind prefixes that
end in a slash, are different. -/
theorem key_ne (P Q : List Nat) (a b : Int) (ha0 : 0 ≤ a) (hb0 : 0 ≤ b) (hab : a ≠ b)
    (hP : P.getLast? = some 47) (hQ : Q.getLast? = some 47) :
    P ++ decimal a.toNat ++ [47] ≠ Q ++ decimal b.toNat ++ [47] := by
  intro h
  have hd := last_segment_unique P Q _ _ hP hQ (decimal_spec a.toNat).2 (decimal_spec b.toNat).2 h
  have := decimal_injective _ _ hd
  omega

/-- The header buffer of 256 bytes holds the whole key when the address text fits the 128
byte buffer `dst`, the port is a 16-bit number and the descriptor a non-negative int. -/
theorem snprintf_hdr_eq (dst : List Nat) (rport : Nat) (i : Int) (hd : dst.length ≤ 127)
    (hp : rport < 65536) (h0 : 0 ≤ i) (h31 : i < 2 ^ 31) :
    snprintf_hdr dst rport i = (dst ++ [47] ++ decimal rport ++ [47]) ++ decimal i.toNat ++ [47] := by
  have hlt : ¬ i < 0 := by omega
  have h1 := decimal_length_le rport 4 (by omega)
  have h2 := decimal_length_le i.toNat 9 (by
    have : i.toNat < 2 ^ 31 := by omega
    omega)
  unfold snprintf_hdr fmt_d
  rw [if_neg hlt]
  apply List.take_of_length_le
  simp
  omega

theorem getLast_append_one (l : List Nat) (x : Nat) : (l ++ [x]).getLast? = some x := by
  rw [List.getLast?_append]; simp

theorem config_rnode_last (ip rport : List Nat) : (config_rnode ip rport).getLast? = some 47 :=
  getLast_append_one _ _

/-- C17: keys that end in the decimal numbers of two different descriptors `a` and `b`, behind
prefixes that end in a slash, are different strings. The prefix of a TCP key is the configured
destination, which `main` builds as `ip/rport/` and so ends in a slash; the prefix of a SOCKS4
or SOCKS5 key is `dst/rport/`. Hence the keys the TCP-accept branch and the SOCKS branches build
for `a` differ from every key of that shape for `b`, and registering the key of `a` leaves the
`tcp_nodes2sock` entry under such a key of `b` as it was. -/
theorem C17_keys_unique (a b : Int) (P Q ipa rpa ipb rpb dsta dstb : List Nat)
    (porta portb : Nat) (s : Loop)
    (ha0 : 0 ≤ a) (ha : a < 2 ^ 31) (hb0 : 0 ≤ b) (hb : b < 2 ^ 31) (hab : a ≠ b)
    (hP : P.getLast? = some 47) (hQ : Q.getLast? = some 47)
    (hda : dsta.length ≤ 127) (hdb : dstb.length ≤ 127)
    (hpa : porta < 65536) (hpb : portb < 65536) :
    P ++ decimal a.toNat ++ [47] ≠ Q ++ decimal b.toNat ++ [47] ∧
    (config_rnode ipa rpa).getLast? = some 47 ∧
    config_rnode ipa rpa ++ snprintf_id a ≠ config_rnode ipb rpb ++ snprintf_id b ∧
    config_rnode ipa rpa ++ snprintf_id a ≠ snprintf_hdr dstb portb b ∧
    snprintf_hdr dsta porta a ≠ config_rnode ipb rpb ++ snprintf_id b ∧
    snprintf_hdr dsta porta a ≠ snprintf_hdr dstb portb b ∧
    (s.tcp_set (config_rnode ipa rpa ++ snprintf_id a) a).tcp_nodes2sock
        (Q ++ decimal b.toNat ++ [47]) = s.tcp_nodes2sock (Q ++ decimal b.toNat ++ [47]) ∧
    (s.tcp_set (snprintf_hdr dsta porta a) a).tcp_nodes2sock
        (Q ++ decimal b.toNat ++ [47]) = s.tcp_nodes2sock (Q ++ decimal b.toNat ++ [47]) := by
  have hia := snprintf_id_eq a ha0 ha
  have hib := snprintf_id_eq b hb0 hb
  have hha := snprintf_hdr_eq dsta porta a hda hpa ha0 ha
  have hhb := snprintf_hdr_eq dstb portb b hdb hpb hb0 hb
  have hca := config_rnode_last ipa rpa
  have hcb := config_rnode_last ipb rpb
  have hsa : (dsta ++ [47] ++ decimal porta ++ [47]).getLast? = some 47 :=
    getLast_append_one _ _
  have hsb : (dstb ++ [47] ++ decimal portb ++ [47]).getLast? = some 47 :=
    getLast_append_one _ _
  rw [hia, hib, hha, hhb]
  simp only [← List.append_assoc]
  refine ⟨key_ne P Q a b ha0 hb0 hab hP hQ, hca, key_ne _ _ a b ha0 hb0 hab hca hcb,
    key_ne _ _ a b ha0 hb0 hab hca hsb, key_ne _ _ a b ha0 hb0 hab hsa hcb,
    key_ne _ _ a b ha0 hb0 hab hsa hsb, ?_, ?_⟩
  · exact Function.update_noteq (Ne.symm (key_ne _ Q a b ha0 hb0 hab hca hQ)) _ _
  · exact Function.update_noteq (Ne.symm (key_ne _ Q a b ha0 hb0 hab hsa hQ)) _ _

/-- C17 at a concrete input: the key of a TCP session on descriptor 8 and the key of a SOCKS
session on descriptor 9 to the same destination differ. -/
theorem C17_keys_unique_witness :
    config_rnode (bytes "10.0.0.1") (bytes "22") ++ snprintf_id 8
      ≠ snprintf_hdr (bytes "10.0.0.1") 22 9 :=
  (C17_keys_unique 8 9 (bytes "x/") (bytes "y/") (bytes "10.0.0.1") (bytes "22")
    (bytes "10.0.0.1") (bytes "22") (bytes "10.0.0.1") (bytes "10.0.0.1") 22 22 demoInit
    (by decide) (by norm_num) (by decide) (by norm_num) (by decide) (by decide) (by decide)
    (by decide) (by decide) (by decide) (by decide)).2.2.2.1

/-- C18, the code at a failing input: the SOCKS4 session on descriptor 9 was granted at time
101, its reply is staged and POLLOUT is armed, as it is on the PTY master, the other
descriptor with pending output. The loop comes back to descriptor 9 at time 140, past
CONNECT_TIME. The timeout branch closes the descriptor and sets its readiness events to 0
without clearing `obuf`: afterwards descriptor 9 has a non-empty `obuf` and POLLOUT is not
armed. -/
theorem C18_timeout_leaves_obuf_unarmed :
    (demoSocks4b.fd2state 9).state = STATE_CONNECT ∧
    (demoSocks4b.fd2state 9).obuf = [0, 0x5a, 0, 80, 10, 0, 0, 2] ∧
    (demoSocks4b.pfds 9).events &&& POLLOUT = POLLOUT ∧
    (demoSocks4b.pfds 3).events &&& POLLOUT = POLLOUT ∧
    ∃ s', step demoEnv 140 {} 9 (polled (ready 9 POLLOUT) demoSocks4b)
        = Outcome.cont s' [Effect.close 9] ∧
      (s'.fd2state 9).obuf = [0, 0x5a, 0, 80, 10, 0, 0, 2] ∧
      (s'.pfds 9).events = 0 ∧
      (s'.pfds 9).events &&& POLLOUT = 0 := by
  refine ⟨by decide, by decide, by decide, by decide, _, rfl, ?_⟩
  decide

/-! ## The invariant is preserved -/

set_option linter.unusedTactic false
set_option linter.unreachableTactic false
set_option linter.unnecessarySeqFocus false

theorem or_pollout_pollin (e : Nat) : (e ||| POLLOUT) &&& POLLIN = e &&& POLLIN := by
  unfold POLLOUT POLLIN
  apply Nat.eq_of_testBit_eq
  intro i
  simp only [Nat.testBit_and, Nat.testBit_or]
  cases i with
  | zero => simp
  | succ i => simp [Nat.testBit_succ]

theorem and_not_pollout_pollin (e : Nat) : and_not e POLLOUT &&& POLLIN = e &&& POLLIN := by
  unfold and_not POLLOUT POLLIN
  apply Nat.eq_of_testBit_eq
  intro i
  simp only [Nat.testBit_and, Nat.testBit_xor]
  cases i with
  | zero => simp
  | succ i => simp [Nat.testBit_succ]

theorem KeyOf_ne_nil {j : Int} {k : List Nat} (h : KeyOf j k) : k ≠ [] := by
  obtain ⟨_, p, _, rfl⟩ := h
  simp

/-- A key has the shape of one descriptor only. -/
theorem KeyOf_unique {a b : Int} {k : List Nat} (ha : KeyOf a k) (hb : KeyOf b k) : a = b := by
  obtain ⟨ha0, p, hp, rfl⟩ := ha
  obtain ⟨hb0, q, hq, hk⟩ := hb
  by_contra hab
  exact key_ne p q a b ha0 hb0 hab hp hq hk

/-- A change that leaves roles, keys, the TCP map and read-arming alone, and at most consumes
`revents`, keeps the invariant. -/
theorem Inv.same {E : Env} {s s' : Loop} (h : Inv E s)
    (hrole : ∀ j, (s'.fd2state j).state = (s.fd2state j).state)
    (hrnode : ∀ j, (s'.fd2state j).rnode = (s.fd2state j).rnode)
    (htcp : s'.tcp_nodes2sock = s.tcp_nodes2sock)
    (hpin : ∀ j, (s'.pfds j).events &&& POLLIN = (s.pfds j).events &&& POLLIN)
    (hrev : ∀ j, (s'.pfds j).revents ≠ 0 → (s'.pfds j).revents = (s.pfds j).revents) :
    Inv E s' := by
  refine ⟨?_, ?_, ?_, ?_, ?_, ?_, ?_, ?_, ?_, ?_⟩
  · rw [hrole]; exact h.stdin
  · intro l hl; rw [hrole] at hl; rw [hrnode]; exact h.listener_rnode l hl
  · intro j hj; rw [hrole] at hj; rw [hrnode]; exact h.auth_rnode j hj
  · intro j hj; rw [hrole] at hj; rw [hrnode, htcp]; exact h.key j hj
  · intro k fd hk; rw [htcp] at hk; rw [hrole, hrnode]; exact h.owner k fd hk
  · intro j hj; rw [hrole] at hj; rw [hpin]; exact h.connect_pollin j hj
  · intro l hl; rw [hrole] at hl; exact h.script_listener l hl
  · intro i j hi hj; rw [hrole] at hi hj; exact h.script_one i j hi hj
  · intro i hi; rw [hrole] at hi; rw [hrole, hpin, hpin]; exact h.script_mask i hi
  · intro l hl
    rw [hrole] at hl
    obtain ⟨h1, h2⟩ := h.listener_poll l hl
    by_cases hz : (s'.pfds l).revents = 0
    · rw [hz]; simp
    · rw [hrev l hz, hpin]; exact ⟨h1, h2⟩

/-- Closing a descriptor that is neither stdin nor the script listener keeps the invariant,
provided its key is erased when it was registered. -/
theorem Inv.close {E : Env} {s s' : Loop} (i : Int) (h : Inv E s)
    (h1 : (s.fd2state i).state ≠ STATE_STDIN)
    (h2 : (s.fd2state i).state ≠ STATE_SCRIPT_ACCEPT)
    (hrole : ∀ j, (s'.fd2state j).state = if j = i then STATE_INVALID else (s.fd2state j).state)
    (hrnode : ∀ j, j ≠ i → (s'.fd2state j).rnode = (s.fd2state j).rnode)
    (htcp : (s'.tcp_nodes2sock = s.tcp_nodes2sock ∧ (s.fd2state i).state ≠ STATE_CONNECT ∧
        (s.fd2state i).state ≠ STATE_CONNECTED) ∨
      (s'.tcp_nodes2sock = Function.update s.tcp_nodes2sock (s.fd2state i).rnode none ∧
        ((s.fd2state i).state = STATE_CONNECT ∨ (s.fd2state i).state = STATE_CONNECTED ∨
          (s.fd2state i).state = STATE_SOCKS5_AUTH2)))
    (hpin : ∀ j, j ≠ i → (s'.pfds j).events &&& POLLIN = (s.pfds j).events &&& POLLIN)
    (hrev : ∀ j, (s'.pfds j).revents ≠ 0 → (s'.pfds j).revents = (s.pfds j).revents) :
    Inv E s' := by
  have live : ∀ j r, (s'.fd2state j).state = r → r ≠ STATE_INVALID →
      j ≠ i ∧ (s.fd2state j).state = r := by
    intro j r hj hr
    rw [hrole] at hj
    by_cases hji : j = i
    · rw [if_pos hji] at hj; exact absurd hj.symm hr
    · rw [if_neg hji] at hj; exact ⟨hji, hj⟩
  have hi0 : i ≠ 0 := by
    intro h0; rw [h0] at h1; exact h1 h.stdin
  -- the key of a live session other than `i` is not the erased key
  have hkeep : ∀ j, j ≠ i →
      ((s.fd2state j).state = STATE_CONNECT ∨ (s.fd2state j).state = STATE_CONNECTED) →
      s'.tcp_nodes2sock (s.fd2state j).rnode = s.tcp_nodes2sock (s.fd2state j).rnode := by
    intro j hji hj
    rcases htcp with ⟨ht, _⟩ | ⟨ht, hri⟩
    · rw [ht]
    · rw [ht]
      apply Function.update_noteq
      intro heq
      have hkj := (h.key j hj).1
      rcases hri with hc | hc | hc
      · have := (h.key i (Or.inl hc)).1
        rw [← heq] at this
        exact hji (KeyOf_unique hkj this)
      · have := (h.key i (Or.inr hc)).1
        rw [← heq] at this
        exact hji (KeyOf_unique hkj this)
      · have := h.auth_rnode i (Or.inr hc)
        rw [this] at heq
        exact KeyOf_ne_nil hkj heq
  refine ⟨?_, ?_, ?_, ?_, ?_, ?_, ?_, ?_, ?_, ?_⟩
  · rw [hrole, if_neg (Ne.symm hi0)]; exact h.stdin
  · intro l hl
    obtain ⟨hli, hl'⟩ := live l _ hl (by decide)
    rw [hrnode l hli]; exact h.listener_rnode l hl'
  · intro j hj
    have : j ≠ i ∧ ((s.fd2state j).state = STATE_SOCKS5_AUTH1 ∨
        (s.fd2state j).state = STATE_SOCKS5_AUTH2) := by
      rcases hj with hj | hj
      · exact ⟨(live j _ hj (by decide)).1, Or.inl (live j _ hj (by decide)).2⟩
      · exact ⟨(live j _ hj (by decide)).1, Or.inr (live j _ hj (by decide)).2⟩
    rw [hrnode j this.1]; exact h.auth_rnode j this.2
  · intro j hj
    have : j ≠ i ∧ ((s.fd2state j).state = STATE_CONNECT ∨
        (s.fd2state j).state = STATE_CONNECTED) := by
      rcases hj with hj | hj
      · exact ⟨(live j _ hj (by decide)).1, Or.inl (live j _ hj (by decide)).2⟩
      · exact ⟨(live j _ hj (by decide)).1, Or.inr (live j _ hj (by decide)).2⟩
    rw [hrnode j this.1, hkeep j this.1 this.2]
    exact h.key j this.2
  · intro k fd hk
    have hk' : s.tcp_nodes2sock k = some fd ∧ (k = (s.fd2state i).rnode →
        (s.fd2state i).state ≠ STATE_CONNECT ∧ (s.fd2state i).state ≠ STATE_CONNECTED) := by
      rcases htcp with ⟨ht, hn⟩ | ⟨ht, _⟩
      · rw [ht] at hk; exact ⟨hk, fun _ => hn⟩
      · rw [ht] at hk
        by_cases hki : k = (s.fd2state i).rnode
        · rw [hki] at hk; simp at hk
        · rw [Function.update_noteq hki] at hk
          exact ⟨hk, fun hh => absurd hh hki⟩
    obtain ⟨ho, hr⟩ := h.owner k fd hk'.1
    have hfi : fd ≠ i := by
      intro hfi
      rw [hfi] at ho hr
      have := hk'.2 hr.symm
      rcases ho with ho | ho
      · exact this.1 ho
      · exact this.2 ho
    rw [hrole, if_neg hfi, hrnode fd hfi]
    exact ⟨ho, hr⟩
  · intro j hj
    obtain ⟨hji, hj'⟩ := live j _ hj (by decide)
    rw [hpin j hji]; exact h.connect_pollin j hj'
  · intro l hl
    exact h.script_listener l (live l _ hl (by decide)).2
  · intro a b ha hb
    exact h.script_one a b (live a _ ha (by decide)).2 (live b _ hb (by decide)).2
  · intro a ha
    obtain ⟨_, ha'⟩ := live a _ ha (by decide)
    obtain ⟨m1, m2, m3⟩ := h.script_mask a ha'
    have hsi : E.script_sock ≠ i := by
      intro hh; rw [hh] at m1; exact h2 m1
    rw [hrole, if_neg hsi, hpin 0 (Ne.symm hi0), hpin _ hsi]
    exact ⟨m1, m2, m3⟩
  · intro l hl
    obtain ⟨hli, hl'⟩ := live l _ hl (by decide)
    obtain ⟨p1, p2⟩ := h.listener_poll l hl'
    by_cases hz : (s'.pfds l).revents = 0
    · rw [hz]; simp
    · rw [hrev l hz, hpin l hli]; exact ⟨p1, p2⟩

/-- Closing the script connection and arming stdin and the script listener for read again
keeps the invariant. -/
theorem Inv.close_script {E : Env} {s s' : Loop} (i : Int) (h : Inv E s)
    (hi : (s.fd2state i).state = STATE_SCRIPT_IO)
    (hrole : ∀ j, (s'.fd2state j).state = if j = i then STATE_INVALID else (s.fd2state j).state)
    (hrnode : ∀ j, j ≠ i → (s'.fd2state j).rnode = (s.fd2state j).rnode)
    (htcp : s'.tcp_nodes2sock = s.tcp_nodes2sock)
    (hpin : ∀ j, j ≠ i → j ≠ 0 → j ≠ E.script_sock →
      (s'.pfds j).events &&& POLLIN = (s.pfds j).events &&& POLLIN)
    (harm : (s'.pfds E.script_sock).events &&& POLLIN ≠ 0)
    (hrev : ∀ j, (s'.pfds j).revents ≠ 0 → (s'.pfds j).revents = (s.pfds j).revents) :
    Inv E s' := by
  have live : ∀ j r, (s'.fd2state j).state = r → r ≠ STATE_INVALID →
      j ≠ i ∧ (s.fd2state j).state = r := by
    intro j r hj hr
    rw [hrole] at hj
    by_cases hji : j = i
    · rw [if_pos hji] at hj; exact absurd hj.symm hr
    · rw [if_neg hji] at hj; exact ⟨hji, hj⟩
  obtain ⟨m1, _, _⟩ := h.script_mask i hi
  have hi0 : i ≠ 0 := by
    intro h0; rw [h0, h.stdin] at hi; exact absurd hi (by decide)
  have gone : ∀ a, (s'.fd2state a).state ≠ STATE_SCRIPT_IO := by
    intro a ha
    obtain ⟨hai, ha'⟩ := live a _ ha (by decide)
    exact hai (h.script_one a i ha' hi)
  refine ⟨?_, ?_, ?_, ?_, ?_, ?_, ?_, ?_, ?_, ?_⟩
  · rw [hrole, if_neg (Ne.symm hi0)]; exact h.stdin
  · intro l hl
    obtain ⟨hli, hl'⟩ := live l _ hl (by decide)
    rw [hrnode l hli]; exact h.listener_rnode l hl'
  · intro j hj
    have : j ≠ i ∧ ((s.fd2state j).state = STATE_SOCKS5_AUTH1 ∨
        (s.fd2state j).state = STATE_SOCKS5_AUTH2) := by
      rcases hj with hj | hj
      · exact ⟨(live j _ hj (by decide)).1, Or.inl (live j _ hj (by decide)).2⟩
      · exact ⟨(live j _ hj (by decide)).1, Or.inr (live j _ hj (by decide)).2⟩
    rw [hrnode j this.1]; exact h.auth_rnode j this.2
  · intro j hj
    have : j ≠ i ∧ ((s.fd2state j).state = STATE_CONNECT ∨
        (s.fd2state j).state = STATE_CONNECTED) := by
      rcases hj with hj | hj
      · exact ⟨(live j _ hj (by decide)).1, Or.inl (live j _ hj (by decide)).2⟩
      · exact ⟨(live j _ hj (by decide)).1, Or.inr (live j _ hj (by decide)).2⟩
    rw [hrnode j this.1, htcp]
    exact h.key j this.2
  · intro k fd hk
    rw [htcp] at hk
    obtain ⟨ho, hr⟩ := h.owner k fd hk
    have hfi : fd ≠ i := by
      intro hfi
      rw [hfi, hi] at ho
      rcases ho with ho | ho <;> exact absurd ho (by decide)
    rw [hrole, if_neg hfi, hrnode fd hfi]
    exact ⟨ho, hr⟩
  · intro j hj
    obtain ⟨hji, hj'⟩ := live j _ hj (by decide)
    have hj0 : j ≠ 0 := by
      intro h0; rw [h0, h.stdin] at hj'; exact absurd hj' (by decide)
    have hjs : j ≠ E.script_sock := by
      intro hs; rw [hs, m1] at hj'; exact absurd hj' (by decide)
    rw [hpin j hji hj0 hjs]; exact h.connect_pollin j hj'
  · intro l hl
    exact h.script_listener l (live l _ hl (by decide)).2
  · intro a b ha _
    exact absurd ha (gone a)
  · intro a ha
    exact absurd ha (gone a)
  · intro l hl
    obtain ⟨_, hl'⟩ := live l _ hl (by decide)
    have hls := h.script_listener l hl'
    obtain ⟨p1, _⟩ := h.listener_poll l hl'
    by_cases hz : (s'.pfds l).revents = 0
    · rw [hz]; simp
    · rw [hrev l hz]
      refine ⟨p1, fun _ => ?_⟩
      rw [hls]; exact harm

/-- Installing a fresh descriptor as a SOCKS client that still has to authenticate keeps the
invariant. -/
theorem Inv.install {E : Env} {s s' : Loop} (a : Int) (r : Role) (h : Inv E s)
    (ha : (s.fd2state a).state = STATE_INVALID)
    (hr : r = STATE_SOCKS4_AUTH ∨ r = STATE_SOCKS5_AUTH1)
    (hrole : ∀ j, (s'.fd2state j).state = if j = a then r else (s.fd2state j).state)
    (hrn : (s'.fd2state a).rnode = [])
    (hrnode : ∀ j, j ≠ a → (s'.fd2state j).rnode = (s.fd2state j).rnode)
    (htcp : s'.tcp_nodes2sock = s.tcp_nodes2sock)
    (hpin : ∀ j, j ≠ a → (s'.pfds j).events &&& POLLIN = (s.pfds j).events &&& POLLIN)
    (hrev : ∀ j, (s'.pfds j).revents ≠ 0 → (s'.pfds j).revents = (s.pfds j).revents) :
    Inv E s' := by
  have old : ∀ j q, (s'.fd2state j).state = q → q ≠ r → j ≠ a ∧ (s.fd2state j).state = q := by
    intro j q hj hq
    rw [hrole] at hj
    by_cases hja : j = a
    · rw [if_pos hja] at hj; exact absurd hj.symm hq
    · rw [if_neg hja] at hj; exact ⟨hja, hj⟩
  have ne : ∀ j q, (s.fd2state j).state = q → q ≠ STATE_INVALID → j ≠ a := by
    intro j q hj hq hja
    rw [hja, ha] at hj; exact hq hj.symm
  have ha0 : (0 : Int) ≠ a := ne 0 _ h.stdin (by decide)
  refine ⟨?_, ?_, ?_, ?_, ?_, ?_, ?_, ?_, ?_, ?_⟩
  · rw [hrole, if_neg ha0]; exact h.stdin
  · intro l hl
    obtain ⟨hla, hl'⟩ := old l _ hl (by rcases hr with hr | hr <;> rw [hr] <;> decide)
    rw [hrnode l hla]; exact h.listener_rnode l hl'
  · intro j hj
    by_cases hja : j = a
    · rw [hja]; exact hrn
    · rw [hrole, if_neg hja] at hj
      rw [hrnode j hja]; exact h.auth_rnode j hj
  · intro j hj
    have : j ≠ a ∧ ((s.fd2state j).state = STATE_CONNECT ∨
        (s.fd2state j).state = STATE_CONNECTED) := by
      rcases hj with hj | hj
      · obtain ⟨x, y⟩ := old j _ hj (by rcases hr with hr | hr <;> rw [hr] <;> decide)
        exact ⟨x, Or.inl y⟩
      · obtain ⟨x, y⟩ := old j _ hj (by rcases hr with hr | hr <;> rw [hr] <;> decide)
        exact ⟨x, Or.inr y⟩
    rw [hrnode j this.1, htcp]
    exact h.key j this.2
  · intro k fd hk
    rw [htcp] at hk
    obtain ⟨ho, hrk⟩ := h.owner k fd hk
    have hfa : fd ≠ a := by
      rcases ho with ho | ho
      · exact ne fd _ ho (by decide)
      · exact ne fd _ ho (by decide)
    rw [hrole, if_neg hfa, hrnode fd hfa]
    exact ⟨ho, hrk⟩
  · intro j hj
    obtain ⟨hja, hj'⟩ := old j _ hj (by rcases hr with hr | hr <;> rw [hr] <;> decide)
    rw [hpin j hja]; exact h.connect_pollin j hj'
  · intro l hl
    exact h.script_listener l
      (old l _ hl (by rcases hr with hr | hr <;> rw [hr] <;> decide)).2
  · intro x y hx hy
    exact h.script_one x y
      (old x _ hx (by rcases hr with hr | hr <;> rw [hr] <;> decide)).2
      (old y _ hy (by rcases hr with hr | hr <;> rw [hr] <;> decide)).2
  · intro x hx
    obtain ⟨_, hx'⟩ := old x _ hx (by rcases hr with hr | hr <;> rw [hr] <;> decide)
    obtain ⟨m1, m2, m3⟩ := h.script_mask x hx'
    have hsa : E.script_sock ≠ a := ne _ _ m1 (by decide)
    rw [hrole, if_neg hsa, hpin 0 ha0, hpin _ hsa]
    exact ⟨m1, m2, m3⟩
  · intro l hl
    obtain ⟨hla, hl'⟩ := old l _ hl (by rcases hr with hr | hr <;> rw [hr] <;> decide)
    obtain ⟨p1, p2⟩ := h.listener_poll l hl'
    by_cases hz : (s'.pfds l).revents = 0
    · rw [hz]; simp
    · rw [hrev l hz, hpin l hla]; exact ⟨p1, p2⟩

/-- Registering a session on descriptor `a`, fresh or a SOCKS client, under a key of `a`, with
read-arming off, keeps the invariant. -/
theorem Inv.register {E : Env} {s s' : Loop} (a : Int) (k : List Nat) (h : Inv E s)
    (ha : (s.fd2state a).state = STATE_INVALID ∨ (s.fd2state a).state = STATE_SOCKS4_AUTH ∨
      (s.fd2state a).state = STATE_SOCKS5_AUTH2)
    (hk : KeyOf a k)
    (hrole : ∀ j, (s'.fd2state j).state = if j = a then STATE_CONNECT else (s.fd2state j).state)
    (hrn : (s'.fd2state a).rnode = k)
    (hrnode : ∀ j, j ≠ a → (s'.fd2state j).rnode = (s.fd2state j).rnode)
    (htcp : s'.tcp_nodes2sock = Function.update s.tcp_nodes2sock k (some a))
    (hpa : (s'.pfds a).events &&& POLLIN = 0)
    (hpin : ∀ j, j ≠ a → (s'.pfds j).events &&& POLLIN = (s.pfds j).events &&& POLLIN)
    (hrev : ∀ j, (s'.pfds j).revents ≠ 0 → (s'.pfds j).revents = (s.pfds j).revents) :
    Inv E s' := by
  have old : ∀ j q, (s'.fd2state j).state = q → q ≠ STATE_CONNECT →
      j ≠ a ∧ (s.fd2state j).state = q := by
    intro j q hj hq
    rw [hrole] at hj
    by_cases hja : j = a
    · rw [if_pos hja] at hj; exact absurd hj.symm hq
    · rw [if_neg hja] at hj; exact ⟨hja, hj⟩
  have ne : ∀ j q, (s.fd2state j).state = q → q ≠ STATE_INVALID → q ≠ STATE_SOCKS4_AUTH →
      q ≠ STATE_SOCKS5_AUTH2 → j ≠ a := by
    intro j q hj h1 h2 h3 hja
    rw [hja] at hj
    rcases ha with ha | ha | ha <;> rw [ha] at hj
    · exact h1 hj.symm
    · exact h2 hj.symm
    · exact h3 hj.symm
  have ha0 : (0 : Int) ≠ a := ne 0 _ h.stdin (by decide) (by decide) (by decide)
  -- the key of another live session is not the new key
  have hother : ∀ j, j ≠ a →
      ((s.fd2state j).state = STATE_CONNECT ∨ (s.fd2state j).state = STATE_CONNECTED) →
      (s.fd2state j).rnode ≠ k := by
    intro j hja hj heq
    have := (h.key j hj).1
    rw [heq] at this
    exact hja (KeyOf_unique this hk)
  refine ⟨?_, ?_, ?_, ?_, ?_, ?_, ?_, ?_, ?_, ?_⟩
  · rw [hrole, if_neg ha0]; exact h.stdin
  · intro l hl
    obtain ⟨hla, hl'⟩ := old l _ hl (by decide)
    rw [hrnode l hla]; exact h.listener_rnode l hl'
  · intro j hj
    have : j ≠ a ∧ ((s.fd2state j).state = STATE_SOCKS5_AUTH1 ∨
        (s.fd2state j).state = STATE_SOCKS5_AUTH2) := by
      rcases hj with hj | hj
      · exact ⟨(old j _ hj (by decide)).1, Or.inl (old j _ hj (by decide)).2⟩
      · exact ⟨(old j _ hj (by decide)).1, Or.inr (old j _ hj (by decide)).2⟩
    rw [hrnode j this.1]; exact h.auth_rnode j this.2
  · intro j hj
    by_cases hja : j = a
    · rw [hja, hrn, htcp]
      exact ⟨hk, Function.update_same _ _ _⟩
    · rw [hrole, if_neg hja] at hj
      rw [hrnode j hja, htcp, Function.update_noteq (hother j hja hj)]
      exact h.key j hj
  · intro key fd hkey
    rw [htcp] at hkey
    by_cases hkk : key = k
    · rw [hkk, Function.update_same] at hkey
      have hfa : fd = a := (Option.some.inj hkey).symm
      rw [hfa, hrole, if_pos rfl, hrn, hkk]
      exact ⟨Or.inl rfl, rfl⟩
    · rw [Function.update_noteq hkk] at hkey
      obtain ⟨ho, hr⟩ := h.owner key fd hkey
      have hfa : fd ≠ a := by
        rcases ho with ho | ho
        · exact ne fd _ ho (by decide) (by decide) (by decide)
        · exact ne fd _ ho (by decide) (by decide) (by decide)
      rw [hrole, if_neg hfa, hrnode fd hfa]
      exact ⟨ho, hr⟩
  · intro j hj
    by_cases hja : j = a
    · rw [hja]; exact hpa
    · rw [hrole, if_neg hja] at hj
      rw [hpin j hja]; exact h.connect_pollin j hj
  · intro l hl
    exact h.script_listener l (old l _ hl (by decide)).2
  · intro x y hx hy
    exact h.script_one x y (old x _ hx (by decide)).2 (old y _ hy (by decide)).2
  · intro x hx
    obtain ⟨_, hx'⟩ := old x _ hx (by decide)
    obtain ⟨m1, m2, m3⟩ := h.script_mask x hx'
    have hsa : E.script_sock ≠ a := ne _ _ m1 (by decide) (by decide) (by decide)
    rw [hrole, if_neg hsa, hpin 0 ha0, hpin _ hsa]
    exact ⟨m1, m2, m3⟩
  · intro l hl
    obtain ⟨hla, hl'⟩ := old l _ hl (by decide)
    obtain ⟨p1, p2⟩ := h.listener_poll l hl'
    by_cases hz : (s'.pfds l).revents = 0
    · rw [hz]; simp
    · rw [hrev l hz, hpin l hla]; exact ⟨p1, p2⟩

/-- The step from SOCKS5_AUTH1 to SOCKS5_AUTH2 keeps the invariant. -/
theorem Inv.auth2 {E : Env} {s s' : Loop} (i : Int) (h : Inv E s)
    (hi : (s.fd2state i).state = STATE_SOCKS5_AUTH1)
    (hrole : ∀ j, (s'.fd2state j).state =
      if j = i then STATE_SOCKS5_AUTH2 else (s.fd2state j).state)
    (hrnode : ∀ j, (s'.fd2state j).rnode = (s.fd2state j).rnode)
    (htcp : s'.tcp_nodes2sock = s.tcp_nodes2sock)
    (hpin : ∀ j, (s'.pfds j).events &&& POLLIN = (s.pfds j).events &&& POLLIN)
    (hrev : ∀ j, (s'.pfds j).revents ≠ 0 → (s'.pfds j).revents = (s.pfds j).revents) :
    Inv E s' := by
  have old : ∀ j q, (s'.fd2state j).state = q → q ≠ STATE_SOCKS5_AUTH2 →
      j ≠ i ∧ (s.fd2state j).state = q := by
    intro j q hj hq
    rw [hrole] at hj
    by_cases hji : j = i
    · rw [if_pos hji] at hj; exact absurd hj.symm hq
    · rw [if_neg hji] at hj; exact ⟨hji, hj⟩
  have ne : ∀ j q, (s.fd2state j).state = q → q ≠ STATE_SOCKS5_AUTH1 → j ≠ i := by
    intro j q hj hq hji
    rw [hji, hi] at hj; exact hq hj.symm
  refine ⟨?_, ?_, ?_, ?_, ?_, ?_, ?_, ?_, ?_, ?_⟩
  · rw [hrole, if_neg (ne 0 _ h.stdin (by decide))]; exact h.stdin
  · intro l hl
    rw [hrnode]; exact h.listener_rnode l (old l _ hl (by decide)).2
  · intro j hj
    rw [hrnode]
    by_cases hji : j = i
    · rw [hji]; exact h.auth_rnode i (Or.inl hi)
    · rw [hrole, if_neg hji] at hj
      exact h.auth_rnode j hj
  · intro j hj
    have : (s.fd2state j).state = STATE_CONNECT ∨ (s.fd2state j).state = STATE_CONNECTED := by
      rcases hj with hj | hj
      · exact Or.inl (old j _ hj (by decide)).2
      · exact Or.inr (old j _ hj (by decide)).2
    rw [hrnode, htcp]; exact h.key j this
  · intro k fd hk
    rw [htcp] at hk
    obtain ⟨ho, hr⟩ := h.owner k fd hk
    have hfi : fd ≠ i := by
      rcases ho with ho | ho
      · exact ne fd _ ho (by decide)
      · exact ne fd _ ho (by decide)
    rw [hrole, if_neg hfi, hrnode]
    exact ⟨ho, hr⟩
  · intro j hj
    rw [hpin]; exact h.connect_pollin j (old j _ hj (by decide)).2
  · intro l hl
    exact h.script_listener l (old l _ hl (by decide)).2
  · intro x y hx hy
    exact h.script_one x y (old x _ hx (by decide)).2 (old y _ hy (by decide)).2
  · intro x hx
    obtain ⟨m1, m2, m3⟩ := h.script_mask x (old x _ hx (by decide)).2
    rw [hrole, if_neg (ne _ _ m1 (by decide)), hpin, hpin]
    exact ⟨m1, m2, m3⟩
  · intro l hl
    obtain ⟨p1, p2⟩ := h.listener_poll l (old l _ hl (by decide)).2
    by_cases hz : (s'.pfds l).revents = 0
    · rw [hz]; simp
    · rw [hrev l hz, hpin]; exact ⟨p1, p2⟩

/-- Accepting a script client on the read-ready script listener `i`, on the fresh descriptor
`a`, with read-arming taken from stdin and from the listener, keeps the invariant. -/
theorem Inv.script_accept {E : Env} {s s' : Loop} (i a : Int) (h : Inv E s)
    (hi : (s.fd2state i).state = STATE_SCRIPT_ACCEPT)
    (hin : (s.pfds i).revents &&& POLLIN ≠ 0)
    (ha : (s.fd2state a).state = STATE_INVALID)
    (hrole : ∀ j, (s'.fd2state j).state = if j = a then STATE_SCRIPT_IO else (s.fd2state j).state)
    (hrnode : ∀ j, j ≠ a → (s'.fd2state j).rnode = (s.fd2state j).rnode)
    (htcp : s'.tcp_nodes2sock = s.tcp_nodes2sock)
    (hp0 : (s'.pfds 0).events &&& POLLIN = 0)
    (hpi : (s'.pfds i).events &&& POLLIN = 0)
    (hpin : ∀ j, j ≠ a → j ≠ 0 → j ≠ i →
      (s'.pfds j).events &&& POLLIN = (s.pfds j).events &&& POLLIN)
    (hri : (s'.pfds i).revents = 0) :
    Inv E s' := by
  have old : ∀ j q, (s'.fd2state j).state = q → q ≠ STATE_SCRIPT_IO →
      j ≠ a ∧ (s.fd2state j).state = q := by
    intro j q hj hq
    rw [hrole] at hj
    by_cases hja : j = a
    · rw [if_pos hja] at hj; exact absurd hj.symm hq
    · rw [if_neg hja] at hj; exact ⟨hja, hj⟩
  have ne : ∀ j q, (s.fd2state j).state = q → q ≠ STATE_INVALID → j ≠ a := by
    intro j q hj hq hja
    rw [hja, ha] at hj; exact hq hj.symm
  have ha0 : (0 : Int) ≠ a := ne 0 _ h.stdin (by decide)
  have hia : i ≠ a := ne i _ hi (by decide)
  have his : i = E.script_sock := h.script_listener i hi
  -- no script connection exists before: the listener is armed for read
  have none : ∀ x, (s.fd2state x).state ≠ STATE_SCRIPT_IO := by
    intro x hx
    obtain ⟨_, _, m3⟩ := h.script_mask x hx
    rw [← his] at m3
    exact (h.listener_poll i hi).2 hin m3
  have only : ∀ x, (s'.fd2state x).state = STATE_SCRIPT_IO → x = a := by
    intro x hx
    by_contra hxa
    rw [hrole, if_neg hxa] at hx
    exact none x hx
  refine ⟨?_, ?_, ?_, ?_, ?_, ?_, ?_, ?_, ?_, ?_⟩
  · rw [hrole, if_neg ha0]; exact h.stdin
  · intro l hl
    obtain ⟨hla, hl'⟩ := old l _ hl (by decide)
    rw [hrnode l hla]; exact h.listener_rnode l hl'
  · intro j hj
    have : j ≠ a ∧ ((s.fd2state j).state = STATE_SOCKS5_AUTH1 ∨
        (s.fd2state j).state = STATE_SOCKS5_AUTH2) := by
      rcases hj with hj | hj
      · exact ⟨(old j _ hj (by decide)).1, Or.inl (old j _ hj (by decide)).2⟩
      · exact ⟨(old j _ hj (by decide)).1, Or.inr (old j _ hj (by decide)).2⟩
    rw [hrnode j this.1]; exact h.auth_rnode j this.2
  · intro j hj
    have : j ≠ a ∧ ((s.fd2state j).state = STATE_CONNECT ∨
        (s.fd2state j).state = STATE_CONNECTED) := by
      rcases hj with hj | hj
      · exact ⟨(old j _ hj (by decide)).1, Or.inl (old j _ hj (by decide)).2⟩
      · exact ⟨(old j _ hj (by decide)).1, Or.inr (old j _ hj (by decide)).2⟩
    rw [hrnode j this.1, htcp]
    exact h.key j this.2
  · intro k fd hk
    rw [htcp] at hk
    obtain ⟨ho, hr⟩ := h.owner k fd hk
    have hfa : fd ≠ a := by
      rcases ho with ho | ho
      · exact ne fd _ ho (by decide)
      · exact ne fd _ ho (by decide)
    rw [hrole, if_neg hfa, hrnode fd hfa]
    exact ⟨ho, hr⟩
  · intro j hj
    obtain ⟨hja, hj'⟩ := old j _ hj (by decide)
    by_cases hj0 : j = 0
    · rw [hj0]; exact hp0
    · by_cases hji : j = i
      · rw [hji]; exact hpi
      · rw [hpin j hja hj0 hji]; exact h.connect_pollin j hj'
  · intro l hl
    exact h.script_listener l (old l _ hl (by decide)).2
  · intro x y hx hy
    rw [only x hx, only y hy]
  · intro x _
    rw [← his, hrole, if_neg hia]
    exact ⟨hi, hp0, hpi⟩
  · intro l hl
    obtain ⟨_, hl'⟩ := old l _ hl (by decide)
    have hli : l = i := by rw [his]; exact h.script_listener l hl'
    rw [hli, hri]
    simp

/-! ### How the assignments act on the parts of the state the invariant reads -/

@[simp] theorem role_upd_state (s : Loop) (i : Int) (f : state → state) (j : Int) :
    ((s.upd_state i f).fd2state j).state =
      if j = i then (f (s.fd2state i)).state else (s.fd2state j).state := by
  simp only [Loop.upd_state, Function.update_apply]; split <;> rfl

@[simp] theorem rnode_upd_state (s : Loop) (i : Int) (f : state → state) (j : Int) :
    ((s.upd_state i f).fd2state j).rnode =
      if j = i then (f (s.fd2state i)).rnode else (s.fd2state j).rnode := by
  simp only [Loop.upd_state, Function.update_apply]; split <;> rfl

@[simp] theorem obuf_upd_state (s : Loop) (i : Int) (f : state → state) (j : Int) :
    ((s.upd_state i f).fd2state j).obuf =
      if j = i then (f (s.fd2state i)).obuf else (s.fd2state j).obuf := by
  simp only [Loop.upd_state, Function.update_apply]; split <;> rfl

@[simp] theorem odgrams_upd_state (s : Loop) (i : Int) (f : state → state) (j : Int) :
    ((s.upd_state i f).fd2state j).odgrams =
      if j = i then (f (s.fd2state i)).odgrams else (s.fd2state j).odgrams := by
  simp only [Loop.upd_state, Function.update_apply]; split <;> rfl

@[simp] theorem pfds_upd_state (s : Loop) (i : Int) (f : state → state) :
    (s.upd_state i f).pfds = s.pfds := rfl

@[simp] theorem tcp_upd_state (s : Loop) (i : Int) (f : state → state) :
    (s.upd_state i f).tcp_nodes2sock = s.tcp_nodes2sock := rfl

@[simp] theorem script_fd_upd_state (s : Loop) (i : Int) (f : state → state) :
    (s.upd_state i f).script_fd = s.script_fd := rfl

@[simp] theorem fd2state_upd_pfd (s : Loop) (i : Int) (f : pollfd → pollfd) :
    (s.upd_pfd i f).fd2state = s.fd2state := rfl

@[simp] theorem tcp_upd_pfd (s : Loop) (i : Int) (f : pollfd → pollfd) :
    (s.upd_pfd i f).tcp_nodes2sock = s.tcp_nodes2sock := rfl

@[simp] theorem script_fd_upd_pfd (s : Loop) (i : Int) (f : pollfd → pollfd) :
    (s.upd_pfd i f).script_fd = s.script_fd := rfl

@[simp] theorem events_upd_pfd (s : Loop) (i : Int) (f : pollfd → pollfd) (j : Int) :
    ((s.upd_pfd i f).pfds j).events =
      if j = i then (f (s.pfds i)).events else (s.pfds j).events := by
  simp only [Loop.upd_pfd, Function.update_apply]; split <;> rfl

@[simp] theorem revents_upd_pfd (s : Loop) (i : Int) (f : pollfd → pollfd) (j : Int) :
    ((s.upd_pfd i f).pfds j).revents =
      if j = i then (f (s.pfds i)).revents else (s.pfds j).revents := by
  simp only [Loop.upd_pfd, Function.update_apply]; split <;> rfl

@[simp] theorem fd2state_clear_pollout (i : Int) (s : Loop) :
    (clear_pollout i s).fd2state = s.fd2state := clear_pollout_fd2state i s

@[simp] theorem tcp_clear_pollout (i : Int) (s : Loop) :
    (clear_pollout i s).tcp_nodes2sock = s.tcp_nodes2sock := by
  unfold clear_pollout; split <;> rfl

@[simp] theorem script_fd_clear_pollout (i : Int) (s : Loop) :
    (clear_pollout i s).script_fd = s.script_fd := by
  unfold clear_pollout; split <;> rfl

@[simp] theorem pollin_clear_pollout (i : Int) (s : Loop) (j : Int) :
    ((clear_pollout i s).pfds j).events &&& POLLIN = (s.pfds j).events &&& POLLIN := by
  unfold clear_pollout
  split
  · rw [events_upd_pfd]
    split
    · next h => subst h; exact and_not_pollout_pollin _
    · rfl
  · rfl

@[simp] theorem revents_clear_pollout (i : Int) (s : Loop) (j : Int) :
    ((clear_pollout i s).pfds j).revents = (s.pfds j).revents := by
  unfold clear_pollout
  split
  · rw [revents_upd_pfd]; split
    · next h => subst h; rfl
    · rfl
  · rfl

@[simp] theorem fd2state_arm (s : Loop) (i : Int) (b : Nat) :
    (s.arm i b).fd2state = s.fd2state := rfl

@[simp] theorem tcp_arm (s : Loop) (i : Int) (b : Nat) :
    (s.arm i b).tcp_nodes2sock = s.tcp_nodes2sock := rfl

@[simp] theorem script_fd_arm (s : Loop) (i : Int) (b : Nat) :
    (s.arm i b).script_fd = s.script_fd := rfl

@[simp] theorem revents_arm (s : Loop) (i : Int) (b : Nat) (j : Int) :
    ((s.arm i b).pfds j).revents = (s.pfds j).revents := by
  unfold Loop.arm; rw [revents_upd_pfd]; split
  · next h => subst h; rfl
  · rfl

theorem events_arm (s : Loop) (i : Int) (b : Nat) (j : Int) :
    ((s.arm i b).pfds j).events =
      if j = i then (s.pfds i).events ||| b else (s.pfds j).events := by
  unfold Loop.arm; rw [events_upd_pfd]

@[simp] theorem pollin_arm_pollout (s : Loop) (i : Int) (j : Int) :
    ((s.arm i POLLOUT).pfds j).events &&& POLLIN = (s.pfds j).events &&& POLLIN := by
  rw [events_arm]; split
  · next h => subst h; exact or_pollout_pollin _
  · rfl

@[simp] theorem pollin_arm_pollin (s : Loop) (i : Int) (j : Int) :
    ((s.arm i POLLIN).pfds j).events &&& POLLIN =
      if j = i then POLLIN else (s.pfds j).events &&& POLLIN := by
  rw [events_arm]; split
  · exact or_and_self_bits _ _
  · rfl

@[simp] theorem role_append_obuf (s : Loop) (i : Int) (x : List Nat) (j : Int) :
    ((s.append_obuf i x).fd2state j).state = (s.fd2state j).state := by
  unfold Loop.append_obuf; rw [role_upd_state]; split
  · next h => subst h; rfl
  · rfl

@[simp] theorem rnode_append_obuf (s : Loop) (i : Int) (x : List Nat) (j : Int) :
    ((s.append_obuf i x).fd2state j).rnode = (s.fd2state j).rnode := by
  unfold Loop.append_obuf; rw [rnode_upd_state]; split
  · next h => subst h; rfl
  · rfl

@[simp] theorem pfds_append_obuf (s : Loop) (i : Int) (x : List Nat) :
    (s.append_obuf i x).pfds = s.pfds := rfl

@[simp] theorem tcp_append_obuf (s : Loop) (i : Int) (x : List Nat) :
    (s.append_obuf i x).tcp_nodes2sock = s.tcp_nodes2sock := rfl

@[simp] theorem script_fd_append_obuf (s : Loop) (i : Int) (x : List Nat) :
    (s.append_obuf i x).script_fd = s.script_fd := rfl

@[simp] theorem role_erase_obuf (s : Loop) (i : Int) (r : Int) (j : Int) :
    ((s.erase_obuf i r).fd2state j).state = (s.fd2state j).state := by
  unfold Loop.erase_obuf; rw [role_upd_state]; split
  · next h => subst h; rfl
  · rfl

@[simp] theorem rnode_erase_obuf (s : Loop) (i : Int) (r : Int) (j : Int) :
    ((s.erase_obuf i r).fd2state j).rnode = (s.fd2state j).rnode := by
  unfold Loop.erase_obuf; rw [rnode_upd_state]; split
  · next h => subst h; rfl
  · rfl

@[simp] theorem pfds_erase_obuf (s : Loop) (i : Int) (r : Int) :
    (s.erase_obuf i r).pfds = s.pfds := rfl

@[simp] theorem tcp_erase_obuf (s : Loop) (i : Int) (r : Int) :
    (s.erase_obuf i r).tcp_nodes2sock = s.tcp_nodes2sock := rfl

@[simp] theorem script_fd_erase_obuf (s : Loop) (i : Int) (r : Int) :
    (s.erase_obuf i r).script_fd = s.script_fd := rfl

@[simp] theorem fd2state_tcp_erase (s : Loop) (k : List Nat) :
    (s.tcp_erase k).fd2state = s.fd2state := rfl

@[simp] theorem pfds_tcp_erase (s : Loop) (k : List Nat) : (s.tcp_erase k).pfds = s.pfds := rfl

@[simp] theorem tcp_tcp_erase (s : Loop) (k : List Nat) :
    (s.tcp_erase k).tcp_nodes2sock = Function.update s.tcp_nodes2sock k none := rfl

@[simp] theorem script_fd_tcp_erase (s : Loop) (k : List Nat) :
    (s.tcp_erase k).script_fd = s.script_fd := rfl

@[simp] theorem fd2state_tcp_set (s : Loop) (k : List Nat) (fd : Int) :
    (s.tcp_set k fd).fd2state = s.fd2state := rfl

@[simp] theorem pfds_tcp_set (s : Loop) (k : List Nat) (fd : Int) :
    (s.tcp_set k fd).pfds = s.pfds := rfl

@[simp] theorem tcp_tcp_set (s : Loop) (k : List Nat) (fd : Int) :
    (s.tcp_set k fd).tcp_nodes2sock = Function.update s.tcp_nodes2sock k (some fd) := rfl

@[simp] theorem script_fd_tcp_set (s : Loop) (k : List Nat) (fd : Int) :
    (s.tcp_set k fd).script_fd = s.script_fd := rfl

@[simp] theorem fd2state_udp_set (s : Loop) (k : List Nat) (fd : Int) :
    (s.udp_set k fd).fd2state = s.fd2state := rfl

@[simp] theorem pfds_udp_set (s : Loop) (k : List Nat) (fd : Int) :
    (s.udp_set k fd).pfds = s.pfds := rfl

@[simp] theorem tcp_udp_set (s : Loop) (k : List Nat) (fd : Int) :
    (s.udp_set k fd).tcp_nodes2sock = s.tcp_nodes2sock := rfl

@[simp] theorem script_fd_udp_set (s : Loop) (k : List Nat) (fd : Int) :
    (s.udp_set k fd).script_fd = s.script_fd := rfl

theorem POLLIN_ne_zero : POLLIN ≠ 0 := by decide

theorem pollout_and_pollin : POLLOUT &&& POLLIN = 0 := by decide

theorem or_pollin_ne (e : Nat) : (e ||| POLLIN) &&& POLLIN ≠ 0 := by
  rw [or_and_self_bits]; decide

theorem ntohs_at_lt (sbuf : List Nat) (k : Nat) : ntohs_at sbuf k < 65536 := by
  unfold ntohs_at
  have h1 := Nat.mod_lt (byte_at sbuf k) (show 256 > 0 by decide)
  have h2 := Nat.mod_lt (byte_at sbuf (k + 1)) (show 256 > 0 by decide)
  omega

/-- The timeout branch keeps the invariant. -/
theorem inv_timeout_close {E : Env} {s s' : Loop} {eff : List Effect} (now : Int) (i : Int)
    (h : Inv E s) (hto : timed_out E now (s.fd2state i))
    (hs : timeout_close E i s = Outcome.cont s' eff) : Inv E s' := by
  unfold timeout_close at hs
  simp only [Outcome.cont.injEq] at hs
  obtain ⟨hs, _⟩ := hs
  subst hs
  rcases hto with ⟨hr, _⟩ | ⟨hr, _⟩
  · refine Inv.close i h (by rw [hr]; decide) (by rw [hr]; decide) ?_ ?_
      (Or.inl ⟨?_, by rw [hr]; decide, by rw [hr]; decide⟩) ?_ ?_ <;>
    (intros; simp_all; try (split_ifs <;> simp_all))
  · refine Inv.close i h (by rw [hr]; decide) (by rw [hr]; decide) ?_ ?_
      (Or.inr ⟨?_, Or.inl hr⟩) ?_ ?_ <;>
    (intros; simp_all [signal_finished]; try (split_ifs <;> simp_all))

/-- The error and hangup branch keeps the invariant. -/
theorem inv_hangup_close {E : Env} {s s' : Loop} {eff : List Effect} (i : Int)
    (h : Inv E s) (herr : (s.pfds i).revents &&& (POLLERR ||| POLLHUP ||| POLLNVAL) ≠ 0)
    (hs : hangup_close E i s = Outcome.cont s' eff) : Inv E s' := by
  unfold hangup_close at hs
  split at hs
  · cases hs
  · next htty =>
    simp only [Outcome.cont.injEq] at hs
    obtain ⟨hs, _⟩ := hs
    subst hs
    have h1 : (s.fd2state i).state ≠ STATE_STDIN := fun hh => htty (Or.inl hh)
    have h2 : (s.fd2state i).state ≠ STATE_SCRIPT_ACCEPT := fun hh =>
      herr (h.listener_poll i hh).1
    by_cases hc : (s.fd2state i).state = STATE_CONNECTED ∨ (s.fd2state i).state = STATE_CONNECT
    · have hns : (s.fd2state i).state ≠ STATE_SCRIPT_IO := by
        rcases hc with hc | hc <;> rw [hc] <;> decide
      refine Inv.close i h h1 h2 ?_ ?_
        (Or.inr ⟨?_, by rcases hc with hc | hc; exact Or.inr (Or.inl hc); exact Or.inl hc⟩)
        ?_ ?_ <;>
      (intros; simp_all [signal_finished]; try (split_ifs <;> simp_all))
    · by_cases hsc : (s.fd2state i).state = STATE_SCRIPT_IO
      · obtain ⟨m1, _, _⟩ := h.script_mask i hsc
        have hne : E.script_sock ≠ i := by
          intro hh; rw [hh, hsc] at m1; exact absurd m1 (by decide)
        refine Inv.close_script i h hsc ?_ ?_ ?_ ?_ ?_ ?_ <;>
        (intros; simp_all [rearm_stdin, POLLIN_ne_zero]; try (split_ifs <;> simp_all [POLLIN_ne_zero]))
      · have hn1 : (s.fd2state i).state ≠ STATE_CONNECT := fun hh => hc (Or.inr hh)
        have hn2 : (s.fd2state i).state ≠ STATE_CONNECTED := fun hh => hc (Or.inl hh)
        refine Inv.close i h h1 h2 ?_ ?_ (Or.inl ⟨?_, hn1, hn2⟩) ?_ ?_ <;>
        (intros; simp_all; try (split_ifs <;> simp_all))

/-- Consuming `revents` keeps the invariant. -/
theorem inv_clear_revents {E : Env} {s : Loop} (i : Int) (h : Inv E s) :
    Inv E (s.upd_pfd i (fun p => { p with revents := 0 })) := by
  refine Inv.same h ?_ ?_ ?_ ?_ ?_ <;>
  (intros; simp_all; try (split_ifs <;> simp_all))

theorem inv_read_stdin {E : Env} {s s' : Loop} {eff : List Effect} (io : Sys)
    (h : Inv E s) (hs : read_stdin E io s = Outcome.cont s' eff) : Inv E s' := by
  unfold read_stdin at hs
  split at hs
  · split at hs
    · simp only [Outcome.cont.injEq] at hs
      obtain ⟨rfl, _⟩ := hs
      exact h
    · cases hs
  · simp only [Outcome.cont.injEq] at hs
    obtain ⟨rfl, _⟩ := hs
    refine Inv.same h ?_ ?_ ?_ ?_ ?_ <;>
    (intros; simp_all; try (split_ifs <;> simp_all))

theorem inv_render {E : Env} {s : Loop} (now : Int) (tbuf : List Nat) (h : Inv E s) :
    Inv E (render now tbuf s) := by
  unfold render
  simp only
  split
  · refine Inv.same h ?_ ?_ ?_ ?_ ?_ <;>
    (intros; simp_all; try (split_ifs <;> simp_all))
  · refine Inv.same h ?_ ?_ ?_ ?_ ?_ <;>
    (intros; simp_all; try (split_ifs <;> simp_all))

/-- The drain loop of the PTY keeps the invariant. -/
theorem inv_read_pty {E : Env} (hE : EnvOK E) (now : Int) (reads : List PscRead) :
    ∀ {s s' : Loop} {eff : List Effect}, Inv E s →
      read_pty E now reads s = Outcome.cont s' eff → Inv E s' := by
  induction reads with
  | nil => intro s s' eff _ hs; cases hs
  | cons rd rest ih =>
    intro s s' eff h hs
    unfold read_pty at hs
    split at hs
    · cases hs
    · have h1 : Inv E (if rd.starttls = 1 then { s with winsize_changed := true }
          else if rd.ext_cmd.length > 0 then run_cmd_handler E rd.ext_cmd s
          else if rd.tbuf.length > 0 then render now rd.tbuf s
          else s) := by
        split
        · exact Inv.same h (fun _ => rfl) (fun _ => rfl) rfl (fun _ => rfl) (fun _ _ => rfl)
        · split
          · exact hE.2 _ _ h
          · split
            · exact inv_render now _ h
            · exact h
      simp only at hs
      split at hs
      · exact ih h1 hs
      · simp only [Outcome.cont.injEq] at hs
        obtain ⟨rfl, _⟩ := hs
        exact h1

theorem KeyOf_accept {s : Loop} (i a : Int) (ha0 : 0 ≤ a) (ha : a < 2 ^ 31)
    (hl : (s.fd2state i).rnode.getLast? = some 47) :
    KeyOf a ((s.fd2state i).rnode ++ snprintf_id a) := by
  refine ⟨ha0, (s.fd2state i).rnode, hl, ?_⟩
  rw [snprintf_id_eq a ha0 ha, List.append_assoc]

theorem KeyOf_hdr (dst : List Nat) (rport : Nat) (i : Int) (hd : dst.length ≤ 127)
    (hp : rport < 65536) (h0 : 0 ≤ i) (h31 : i < 2 ^ 31) :
    KeyOf i (snprintf_hdr dst rport i) :=
  ⟨h0, dst ++ [47] ++ decimal rport ++ [47], getLast_append_one _ _,
    snprintf_hdr_eq dst rport i hd hp h0 h31⟩

theorem inv_read_accept {E : Env} {s s' : Loop} {eff : List Effect} (now : Int) (io : Sys)
    (i : Int) (h : Inv E s) (hi : (s.fd2state i).state = STATE_ACCEPT) (hok : StepOK s io i)
    (hs : read_accept E now io i s = Outcome.cont s' eff) : Inv E s' := by
  unfold read_accept at hs
  split at hs
  · simp only [Outcome.cont.injEq] at hs
    obtain ⟨rfl, _⟩ := hs
    exact h
  · next hneg =>
    obtain ⟨ha31, hfresh⟩ := hok.2.2 (by omega)
    have hia : i ≠ io.afd := by
      intro hh; rw [hh, hfresh] at hi; exact absurd hi (by decide)
    have hk := KeyOf_accept (s := s) i io.afd (by omega) ha31 (h.listener_rnode i hi)
    simp only [Outcome.cont.injEq] at hs
    obtain ⟨rfl, _⟩ := hs
    refine Inv.register io.afd _ h (Or.inl hfresh) hk ?_ ?_ ?_ ?_ ?_ ?_ ?_ <;>
    (intros; simp_all; try (split_ifs <;> simp_all))

theorem inv_read_socks_accept {E : Env} {s s' : Loop} {eff : List Effect} (now : Int)
    (io : Sys) (i : Int) (r : Role) (hr : r = STATE_SOCKS4_AUTH ∨ r = STATE_SOCKS5_AUTH1)
    (h : Inv E s) (hok : StepOK s io i)
    (hs : (if io.afd < 0 then Outcome.cont s []
      else Outcome.cont (install io.afd POLLIN [] r now s) []) = Outcome.cont s' eff) :
    Inv E s' := by
  split at hs
  · simp only [Outcome.cont.injEq] at hs
    obtain ⟨rfl, _⟩ := hs
    exact h
  · obtain ⟨_, hfresh⟩ := hok.2.2 (by omega)
    simp only [Outcome.cont.injEq] at hs
    obtain ⟨rfl, _⟩ := hs
    refine Inv.install io.afd r h hfresh hr ?_ ?_ ?_ ?_ ?_ ?_ <;>
    (intros; simp_all [install]; try (split_ifs <;> simp_all))

theorem inv_tunnel_close {E : Env} {s : Loop} (i : Int) (h : Inv E s)
    (hi : (s.fd2state i).state = STATE_CONNECT ∨ (s.fd2state i).state = STATE_CONNECTED ∨
      (s.fd2state i).state = STATE_SOCKS5_AUTH2) :
    Inv E (erase_and_signal E i (teardown i s)) := by
  have h1 : (s.fd2state i).state ≠ STATE_STDIN := by
    rcases hi with hi | hi | hi <;> rw [hi] <;> decide
  have h2 : (s.fd2state i).state ≠ STATE_SCRIPT_ACCEPT := by
    rcases hi with hi | hi | hi <;> rw [hi] <;> decide
  refine Inv.close i h h1 h2 ?_ ?_ (Or.inr ⟨?_, hi⟩) ?_ ?_ <;>
  (intros; simp_all [erase_and_signal, teardown]; try (split_ifs <;> simp_all))

theorem inv_plain_close {E : Env} {s : Loop} (i : Int) (h : Inv E s)
    (hi : (s.fd2state i).state = STATE_SOCKS4_AUTH ∨ (s.fd2state i).state = STATE_SOCKS5_AUTH1 ∨
      (s.fd2state i).state = STATE_SOCKS5_AUTH2) :
    Inv E (teardown i s) := by
  have h1 : (s.fd2state i).state ≠ STATE_STDIN := by
    rcases hi with hi | hi | hi <;> rw [hi] <;> decide
  have h2 : (s.fd2state i).state ≠ STATE_SCRIPT_ACCEPT := by
    rcases hi with hi | hi | hi <;> rw [hi] <;> decide
  have h3 : (s.fd2state i).state ≠ STATE_CONNECT := by
    rcases hi with hi | hi | hi <;> rw [hi] <;> decide
  have h4 : (s.fd2state i).state ≠ STATE_CONNECTED := by
    rcases hi with hi | hi | hi <;> rw [hi] <;> decide
  refine Inv.close i h h1 h2 ?_ ?_ (Or.inl ⟨?_, h3, h4⟩) ?_ ?_ <;>
  (intros; simp_all [teardown]; try (split_ifs <;> simp_all))

theorem inv_script_close {E : Env} {s : Loop} (i : Int) (h : Inv E s)
    (hi : (s.fd2state i).state = STATE_SCRIPT_IO) : Inv E (script_close E i s) := by
  obtain ⟨m1, _, _⟩ := h.script_mask i hi
  have hne : E.script_sock ≠ i := by
    intro hh; rw [hh, hi] at m1; exact absurd m1 (by decide)
  refine Inv.close_script i h hi ?_ ?_ ?_ ?_ ?_ ?_ <;>
  (intros; simp_all [script_close, rearm_stdin, teardown, POLLIN_ne_zero];
    try (split_ifs <;> simp_all [POLLIN_ne_zero]))

theorem inv_read_connected {E : Env} {s s' : Loop} {eff : List Effect} (now : Int) (io : Sys)
    (i : Int) (h : Inv E s) (hi : (s.fd2state i).state = STATE_CONNECTED)
    (hs : read_connected E now io i s = Outcome.cont s' eff) : Inv E s' := by
  unfold read_connected at hs
  split at hs
  · simp only [Outcome.cont.injEq] at hs
    obtain ⟨rfl, _⟩ := hs
    exact inv_tunnel_close i h (Or.inr (Or.inl hi))
  · simp only [Outcome.cont.injEq] at hs
    obtain ⟨rfl, _⟩ := hs
    refine Inv.same h ?_ ?_ ?_ ?_ ?_ <;>
    (intros; simp_all; try (split_ifs <;> simp_all))

theorem inv_read_socks4_auth {E : Env} (hE : EnvOK E) {s s' : Loop} {eff : List Effect}
    (now : Int) (io : Sys) (i : Int) (h : Inv E s) (hi : (s.fd2state i).state = STATE_SOCKS4_AUTH)
    (hok : StepOK s io i) (hs : read_socks4_auth E now io i s = Outcome.cont s' eff) :
    Inv E s' := by
  unfold read_socks4_auth at hs
  simp only at hs
  split at hs
  · simp only [Outcome.cont.injEq] at hs
    obtain ⟨rfl, _⟩ := hs
    exact inv_plain_close i h (Or.inl hi)
  · simp only [Outcome.cont.injEq] at hs
    obtain ⟨rfl, _⟩ := hs
    refine Inv.register i
      (snprintf_hdr (E.inet_ntop AF_INET
          (((((sbuf_after E.sizeof_sbuf io.data).set 0 0).set 1 0x5a).drop 4).take 4))
        (ntohs_at (((sbuf_after E.sizeof_sbuf io.data).set 0 0).set 1 0x5a) 2) i)
      h (Or.inr (Or.inl hi))
      (KeyOf_hdr _ _ i (hE.1 _ _) (ntohs_at_lt _ _) hok.1 hok.2.1) ?_ ?_ ?_ ?_ ?_ ?_ ?_ <;>
    (intros; simp_all [register, pollout_and_pollin]; try (split_ifs <;> simp_all))

theorem inv_read_socks5_auth1 {E : Env} {s s' : Loop} {eff : List Effect}
    (now : Int) (io : Sys) (i : Int) (h : Inv E s) (hi : (s.fd2state i).state = STATE_SOCKS5_AUTH1)
    (hs : read_socks5_auth1 E now io i s = Outcome.cont s' eff) : Inv E s' := by
  unfold read_socks5_auth1 at hs
  simp only at hs
  split at hs
  · simp only [Outcome.cont.injEq] at hs
    obtain ⟨rfl, _⟩ := hs
    exact inv_plain_close i h (Or.inr (Or.inl hi))
  · simp only [Outcome.cont.injEq] at hs
    obtain ⟨rfl, _⟩ := hs
    refine Inv.auth2 i h hi ?_ ?_ ?_ ?_ ?_ <;>
    (intros; simp_all; try (split_ifs <;> simp_all))

theorem inv_read_socks5_auth2 {E : Env} (hE : EnvOK E) {s s' : Loop} {eff : List Effect}
    (now : Int) (io : Sys) (i : Int) (h : Inv E s) (hi : (s.fd2state i).state = STATE_SOCKS5_AUTH2)
    (hok : StepOK s io i) (hs : read_socks5_auth2 E now io i s = Outcome.cont s' eff) :
    Inv E s' := by
  unfold read_socks5_auth2 at hs
  simp only at hs
  split at hs
  · simp only [Outcome.cont.injEq] at hs
    obtain ⟨rfl, _⟩ := hs
    exact inv_plain_close i h (Or.inr (Or.inr hi))
  · simp only [Outcome.cont.injEq] at hs
    obtain ⟨rfl, _⟩ := hs
    have hp : (if byte_at (sbuf_after E.sizeof_sbuf io.data) 3 = 1
        then ntohs_at (sbuf_after E.sizeof_sbuf io.data) 8
        else ntohs_at (sbuf_after E.sizeof_sbuf io.data) 20) < 65536 := by
      split <;> exact ntohs_at_lt _ _
    have hd : (if byte_at (sbuf_after E.sizeof_sbuf io.data) 3 = 1
        then E.inet_ntop AF_INET ((sbuf_after E.sizeof_sbuf io.data).drop 4 |>.take 4)
        else E.inet_ntop AF_INET6 ((sbuf_after E.sizeof_sbuf io.data).drop 4 |>.take 16)).length
        ≤ 127 := by
      split <;> exact hE.1 _ _
    refine Inv.register i _ h (Or.inr (Or.inr hi))
      (KeyOf_hdr _ _ i hd hp hok.1 hok.2.1) ?_ ?_ ?_ ?_ ?_ ?_ ?_ <;>
    (intros; simp_all [register, pollout_and_pollin]; try (split_ifs <;> simp_all))

theorem inv_read_udpserver {E : Env} {s s' : Loop} {eff : List Effect} (now : Int) (io : Sys)
    (i : Int) (h : Inv E s) (hs : read_udpserver E now io i s = Outcome.cont s' eff) :
    Inv E s' := by
  unfold read_udpserver at hs
  split at hs
  · simp only [Outcome.cont.injEq] at hs
    obtain ⟨rfl, _⟩ := hs
    exact h
  · simp only [Outcome.cont.injEq] at hs
    obtain ⟨rfl, _⟩ := hs
    refine Inv.same h ?_ ?_ ?_ ?_ ?_ <;>
    (intros; simp_all; try (split_ifs <;> simp_all))

theorem inv_read_script_accept {E : Env} {s s' : Loop} {eff : List Effect} (now : Int)
    (io : Sys) (i : Int) (h : Inv E s) (hi : (s.fd2state i).state = STATE_SCRIPT_ACCEPT)
    (hin : (s.pfds i).revents &&& POLLIN ≠ 0) (hok : StepOK s io i)
    (hs : read_script_accept now io i (s.upd_pfd i (fun p => { p with revents := 0 }))
      = Outcome.cont s' eff) : Inv E s' := by
  unfold read_script_accept at hs
  simp only at hs
  split at hs
  · simp only [Outcome.cont.injEq] at hs
    obtain ⟨rfl, _⟩ := hs
    refine Inv.same h ?_ ?_ ?_ ?_ ?_ <;>
    (intros; simp_all; try (split_ifs <;> simp_all))
  · obtain ⟨_, hfresh⟩ := hok.2.2 (by omega)
    have hia : i ≠ io.afd := by
      intro hh; rw [hh, hfresh] at hi; exact absurd hi (by decide)
    have h0a : (0 : Int) ≠ io.afd := by
      intro hh; rw [← hh, h.stdin] at hfresh; exact absurd hfresh (by decide)
    simp only [Outcome.cont.injEq] at hs
    obtain ⟨rfl, _⟩ := hs
    refine Inv.script_accept i io.afd h hi hin hfresh ?_ ?_ ?_ ?_ ?_ ?_ ?_ <;>
    (intros; simp_all; try (split_ifs <;> simp_all))

theorem inv_read_script {E : Env} {s s' : Loop} {eff : List Effect} (io : Sys)
    (i : Int) (h : Inv E s) (hi : (s.fd2state i).state = STATE_SCRIPT_IO)
    (hs : read_script E io i s = Outcome.cont s' eff) : Inv E s' := by
  unfold read_script at hs
  split at hs
  · split at hs
    · simp only [Outcome.cont.injEq] at hs
      obtain ⟨rfl, _⟩ := hs
      exact h
    · simp only [Outcome.cont.injEq] at hs
      obtain ⟨rfl, _⟩ := hs
      exact inv_script_close i h hi
  · simp only [Outcome.cont.injEq] at hs
    obtain ⟨rfl, _⟩ := hs
    refine Inv.same h ?_ ?_ ?_ ?_ ?_ <;>
    (intros; simp_all; try (split_ifs <;> simp_all))

/-- The read-ready branch keeps the invariant. -/
theorem inv_read_ready {E : Env} (hE : EnvOK E) {s s' : Loop} {eff : List Effect}
    (now : Int) (io : Sys) (i : Int) (h : Inv E s) (hok : StepOK s io i)
    (hin : (s.pfds i).revents &&& POLLIN ≠ 0)
    (hs : read_ready E now io i s = Outcome.cont s' eff) : Inv E s' := by
  have h0 := inv_clear_revents i h
  have hok0 : StepOK (s.upd_pfd i (fun p => { p with revents := 0 })) io i := hok
  unfold read_ready at hs
  simp only [fd2state_upd_pfd] at hs
  cases hr : (s.fd2state i).state <;> simp only [hr] at hs
  case STATE_STDIN => exact inv_read_stdin io h0 hs
  case STATE_PTY => exact inv_read_pty hE now _ h0 hs
  case STATE_ACCEPT => exact inv_read_accept now io i h0 hr hok0 hs
  case STATE_SOCKS5_ACCEPT =>
    exact inv_read_socks_accept now io i _ (Or.inr rfl) h0 hok0 hs
  case STATE_SOCKS4_ACCEPT =>
    exact inv_read_socks_accept now io i _ (Or.inl rfl) h0 hok0 hs
  case STATE_CONNECTED => exact inv_read_connected now io i h0 hr hs
  case STATE_SOCKS4_AUTH => exact inv_read_socks4_auth hE now io i h0 hr hok0 hs
  case STATE_SOCKS5_AUTH1 => exact inv_read_socks5_auth1 now io i h0 hr hs
  case STATE_SOCKS5_AUTH2 => exact inv_read_socks5_auth2 hE now io i h0 hr hok0 hs
  case STATE_UDPSERVER => exact inv_read_udpserver now io i h0 hs
  case STATE_SCRIPT_ACCEPT => exact inv_read_script_accept now io i h hr hin hok hs
  case STATE_SCRIPT_IO => exact inv_read_script io i h0 hr hs
  all_goals
    simp only [Outcome.cont.injEq] at hs
    obtain ⟨rfl, _⟩ := hs
    exact h0

theorem inv_drain {E : Env} {s : Loop} (now : Int) (r : Int) (i : Int) (h : Inv E s) :
    Inv E (clear_pollout i ((s.upd_state i (fun st => { st with time := now })).erase_obuf i r)) := by
  refine Inv.same h ?_ ?_ ?_ ?_ ?_ <;>
  (intros; simp_all; try (split_ifs <;> simp_all))

theorem inv_write_stdout {E : Env} {s s' : Loop} {eff : List Effect} (io : Sys) (i : Int)
    (h : Inv E s) (hs : write_stdout io i s = Outcome.cont s' eff) : Inv E s' := by
  unfold write_stdout at hs
  simp only at hs
  split at hs
  · split at hs
    · simp only [Outcome.cont.injEq] at hs
      obtain ⟨rfl, _⟩ := hs
      exact h
    · exact absurd hs (by simp)
  · simp only [Outcome.cont.injEq] at hs
    obtain ⟨rfl, _⟩ := hs
    refine Inv.same h ?_ ?_ ?_ ?_ ?_ <;>
    (intros; simp_all; try (split_ifs <;> simp_all))

theorem inv_write_pty {E : Env} {s s' : Loop} {eff : List Effect} (now : Int) (io : Sys)
    (i : Int) (h : Inv E s) (hs : write_pty E now io i s = Outcome.cont s' eff) : Inv E s' := by
  unfold write_pty at hs
  simp only at hs
  split at hs
  · split at hs
    · simp only [Outcome.cont.injEq] at hs
      obtain ⟨rfl, _⟩ := hs
      exact h
    · exact absurd hs (by simp)
  · simp only [Outcome.cont.injEq] at hs
    obtain ⟨rfl, _⟩ := hs
    exact inv_drain now io.r i h

theorem inv_write_tunnel {E : Env} {s s' : Loop} {eff : List Effect} (now : Int) (io : Sys)
    (i : Int) (h : Inv E s)
    (hi : (s.fd2state i).state = STATE_CONNECT ∨ (s.fd2state i).state = STATE_CONNECTED ∨
      (s.fd2state i).state = STATE_SOCKS5_AUTH2)
    (hs : write_tunnel E now io i s = Outcome.cont s' eff) : Inv E s' := by
  unfold write_tunnel at hs
  simp only at hs
  split at hs
  · simp only [Outcome.cont.injEq] at hs
    obtain ⟨rfl, _⟩ := hs
    exact inv_tunnel_close i h hi
  · simp only [Outcome.cont.injEq] at hs
    obtain ⟨rfl, _⟩ := hs
    exact inv_drain now io.r i h

theorem inv_write_udpserver {E : Env} {s s' : Loop} {eff : List Effect} (now : Int) (io : Sys)
    (i : Int) (h : Inv E s) (hs : write_udpserver now io i s = Outcome.cont s' eff) :
    Inv E s' := by
  unfold write_udpserver at hs
  simp only at hs
  split at hs
  · simp only [Outcome.cont.injEq] at hs
    obtain ⟨rfl, _⟩ := hs
    exact h
  · simp only [Outcome.cont.injEq] at hs
    obtain ⟨rfl, _⟩ := hs
    refine Inv.same h ?_ ?_ ?_ ?_ ?_ <;>
    (intros; simp_all; try (split_ifs <;> simp_all))

theorem inv_write_script {E : Env} {s s' : Loop} {eff : List Effect} (now : Int) (io : Sys)
    (i : Int) (h : Inv E s) (hi : (s.fd2state i).state = STATE_SCRIPT_IO)
    (hs : write_script E now io i s = Outcome.cont s' eff) : Inv E s' := by
  unfold write_script at hs
  simp only at hs
  split at hs
  · split at hs
    · simp only [Outcome.cont.injEq] at hs
      obtain ⟨rfl, _⟩ := hs
      exact h
    · simp only [Outcome.cont.injEq] at hs
      obtain ⟨rfl, _⟩ := hs
      exact inv_script_close i h hi
  · simp only [Outcome.cont.injEq] at hs
    obtain ⟨rfl, _⟩ := hs
    exact inv_drain now io.r i h

/-- The write-ready branch keeps the invariant. -/
theorem inv_write_ready {E : Env} {s s' : Loop} {eff : List Effect}
    (now : Int) (io : Sys) (i : Int) (h : Inv E s)
    (hs : write_ready E now io i s = Outcome.cont s' eff) : Inv E s' := by
  have h0 := inv_clear_revents i h
  unfold write_ready at hs
  simp only [fd2state_upd_pfd] at hs
  cases hr : (s.fd2state i).state <;> simp only [hr] at hs
  case STATE_STDOUT => exact inv_write_stdout io i h0 hs
  case STATE_PTY => exact inv_write_pty now io i h0 hs
  case STATE_CONNECT => exact inv_write_tunnel now io i h0 (Or.inl hr) hs
  case STATE_SOCKS5_AUTH2 => exact inv_write_tunnel now io i h0 (Or.inr (Or.inr hr)) hs
  case STATE_CONNECTED => exact inv_write_tunnel now io i h0 (Or.inr (Or.inl hr)) hs
  case STATE_UDPSERVER => exact inv_write_udpserver now io i h0 hs
  case STATE_SCRIPT_IO => exact inv_write_script now io i h0 hr hs
  all_goals
    simp only [Outcome.cont.injEq] at hs
    obtain ⟨rfl, _⟩ := hs
    refine Inv.same h0 ?_ ?_ ?_ ?_ ?_ <;>
    (intros; simp_all; try (split_ifs <;> simp_all))

/-- Every branch of the loop body keeps the invariant. -/
theorem inv_step {E : Env} (hE : EnvOK E) {s s' : Loop} {eff : List Effect}
    (now : Int) (io : Sys) (i : Int) (h : Inv E s) (hok : StepOK s io i)
    (hs : step E now io i s = Outcome.cont s' eff) : Inv E s' := by
  unfold step at hs
  split at hs
  · simp only [Outcome.cont.injEq] at hs
    obtain ⟨rfl, _⟩ := hs
    exact h
  · split at hs
    · rename_i hto
      exact inv_timeout_close now i h hto hs
    · split at hs
      · rename_i herr
        exact inv_hangup_close i h herr hs
      · split at hs
        · rename_i hin
          exact inv_read_ready hE now io i h hok hin hs
        · split at hs
          · exact inv_write_ready now io i h hs
          · simp only [Outcome.cont.injEq] at hs
            obtain ⟨rfl, _⟩ := hs
            exact h

theorem inv_polled {E : Env} {s : Loop} (rev : Int → Nat) (h : Inv E s) (hp : PollOK E s rev) :
    Inv E (polled rev s) where
  stdin := h.stdin
  listener_rnode := h.listener_rnode
  auth_rnode := h.auth_rnode
  key := h.key
  owner := h.owner
  connect_pollin := h.connect_pollin
  script_listener := h.script_listener
  script_one := h.script_one
  script_mask := h.script_mask
  listener_poll := by
    intro l hl
    have hl' : l = E.script_sock := h.script_listener l hl
    subst hl'
    exact hp

theorem inv_winsize {E : Env} {s : Loop} (h : Inv E s) : Inv E (winsize_step E s) := by
  unfold winsize_step
  split
  · refine Inv.same h ?_ ?_ ?_ ?_ ?_ <;>
    (intros; simp_all; try (split_ifs <;> simp_all))
  · exact h

theorem boot_add {s : Loop} (role : Role) (l : Int × List Nat) (h : Boot s) (hl : l.1 ≠ 0)
    (hr : role = STATE_ACCEPT ∧ l.2.getLast? = some 47 ∨ role = STATE_UDPSERVER ∨
      role = STATE_SOCKS5_ACCEPT ∨ role = STATE_SOCKS4_ACCEPT) :
    Boot (add_listener role s l) := by
  obtain ⟨b1, b2, b3, b4, b5⟩ := h
  have h0 : (0 : Int) ≠ l.1 := fun hh => hl hh.symm
  unfold add_listener
  refine ⟨?_, ?_, ?_, ?_, ?_⟩
  · simp [h0, b1]
  · intro j hj
    simp only [role_upd_state, rnode_upd_state] at hj ⊢
    split_ifs at hj ⊢ with hjl
    · rcases hr with ⟨_, hr⟩ | hr | hr | hr
      · exact hr
      all_goals (rw [hr] at hj; exact absurd hj (by decide))
    · exact b2 j hj
  · intro j
    simp only [role_upd_state]
    split_ifs with hjl
    · rcases hr with ⟨hr, _⟩ | hr | hr | hr <;> (rw [hr]; decide)
    · exact b3 j
  · intro k
    simp [b4]
  · intro j
    simp only [pfds_upd_state, revents_upd_pfd]
    split_ifs <;> simp [b5]

theorem boot_foldl (role : Role) (ls : List (Int × List Nat)) :
    ∀ s : Loop, Boot s →
      (∀ l ∈ ls, l.1 ≠ 0 ∧ (role = STATE_ACCEPT ∧ l.2.getLast? = some 47 ∨
        role = STATE_UDPSERVER ∨ role = STATE_SOCKS5_ACCEPT ∨ role = STATE_SOCKS4_ACCEPT)) →
      Boot (ls.foldl (add_listener role) s) := by
  induction ls with
  | nil => intro s h _; exact h
  | cons l ls ih =>
    intro s h hl
    rw [List.foldl_cons]
    exact ih _ (boot_add role l h (hl l (List.mem_cons_self _ _)).1 (hl l (List.mem_cons_self _ _)).2)
      (fun m hm => hl m (List.mem_cons_of_mem _ hm))

theorem boot_inv {E : Env} {s : Loop} (h : Boot s) : Inv E s := by
  obtain ⟨b1, b2, b3, b4, b5⟩ := h
  refine ⟨b1, b2, ?_, ?_, ?_, ?_, ?_, ?_, ?_, ?_⟩
  · intro j hj
    rcases hj with hj | hj
    · exact absurd hj (b3 j).1
    · exact absurd hj (b3 j).2.1
  · intro j hj
    rcases hj with hj | hj
    · exact absurd hj (b3 j).2.2.1
    · exact absurd hj (b3 j).2.2.2.1
  · intro k fd hk
    rw [b4] at hk
    exact absurd hk (by simp)
  · intro j hj
    exact absurd hj (b3 j).2.2.1
  · intro l hl
    exact absurd hl (b3 l).2.2.2.2.2
  · intro i j hi _
    exact absurd hi (b3 i).2.2.2.2.1
  · intro i hi
    exact absurd hi (b3 i).2.2.2.2.1
  · intro l hl
    exact absurd hl (b3 l).2.2.2.2.2

theorem boot_script {E : Env} {s : Loop} (h : Boot s) (h0 : E.script_sock ≠ 0) :
    Inv E (if E.script_sock ≠ -1 then add_listener STATE_SCRIPT_ACCEPT s (E.script_sock, [])
      else s) := by
  split
  swap
  · exact boot_inv h
  obtain ⟨b1, b2, b3, b4, b5⟩ := h
  have h0' : (0 : Int) ≠ E.script_sock := fun hh => h0 hh.symm
  unfold add_listener
  refine ⟨?_, ?_, ?_, ?_, ?_, ?_, ?_, ?_, ?_, ?_⟩
  · simp [h0', b1]
  · intro j hj
    simp only [role_upd_state, rnode_upd_state, fd2state_upd_pfd] at hj ⊢
    by_cases hjl : j = E.script_sock
    · rw [if_pos hjl] at hj; exact absurd hj (by decide)
    · rw [if_neg hjl] at hj ⊢; exact b2 j hj
  · intro j hj
    simp only [role_upd_state, fd2state_upd_pfd] at hj
    by_cases hjl : j = E.script_sock
    · rw [if_pos hjl] at hj
      rcases hj with hj | hj <;> exact absurd hj (by decide)
    · rw [if_neg hjl] at hj
      rcases hj with hj | hj
      · exact absurd hj (b3 j).1
      · exact absurd hj (b3 j).2.1
  · intro j hj
    simp only [role_upd_state, fd2state_upd_pfd] at hj
    by_cases hjl : j = E.script_sock
    · rw [if_pos hjl] at hj
      rcases hj with hj | hj <;> exact absurd hj (by decide)
    · rw [if_neg hjl] at hj
      rcases hj with hj | hj
      · exact absurd hj (b3 j).2.2.1
      · exact absurd hj (b3 j).2.2.2.1
  · intro k fd hk
    simp only [tcp_upd_state, tcp_upd_pfd, b4] at hk
    exact absurd hk (by simp)
  · intro j hj
    simp only [role_upd_state, fd2state_upd_pfd] at hj
    by_cases hjl : j = E.script_sock
    · rw [if_pos hjl] at hj; exact absurd hj (by decide)
    · rw [if_neg hjl] at hj; exact absurd hj (b3 j).2.2.1
  · intro l hl
    simp only [role_upd_state, fd2state_upd_pfd] at hl
    by_cases hjl : l = E.script_sock
    · exact hjl
    · rw [if_neg hjl] at hl; exact absurd hl (b3 l).2.2.2.2.2
  · intro i j hi _
    simp only [role_upd_state, fd2state_upd_pfd] at hi
    by_cases hjl : i = E.script_sock
    · rw [if_pos hjl] at hi; exact absurd hi (by decide)
    · rw [if_neg hjl] at hi; exact absurd hi (b3 i).2.2.2.2.1
  · intro i hi
    simp only [role_upd_state, fd2state_upd_pfd] at hi
    by_cases hjl : i = E.script_sock
    · rw [if_pos hjl] at hi; exact absurd hi (by decide)
    · rw [if_neg hjl] at hi; exact absurd hi (b3 i).2.2.2.2.1
  · intro l _
    simp only [pfds_upd_state, revents_upd_pfd]
    split_ifs <;> simp [b5]

theorem boot_optional {s : Loop} (fd : Int) (role : Role) (h : Boot s) (h0 : fd ≠ 0)
    (hr : role = STATE_SOCKS5_ACCEPT ∨ role = STATE_SOCKS4_ACCEPT) :
    Boot (if fd ≠ -1 then add_listener role s (fd, []) else s) := by
  split
  · exact boot_add role _ h h0 (Or.inr (Or.inr hr))
  · exact h

/-- The tables the start-up code builds satisfy the invariant. -/
theorem inv_init {E : Env} (tcp udp : List (Int × List Nat)) (socks5_fd socks4_fd : Int)
    (h : InitOK E tcp udp socks5_fd socks4_fd) :
    Inv E (init_loop E.master tcp udp socks5_fd socks4_fd E.script_sock) := by
  obtain ⟨hm, htcp, hudp, h5, h4, hsc⟩ := h
  have hm' : (0 : Int) ≠ E.master := fun hh => hm hh.symm
  unfold init_loop
  simp only
  refine boot_script ?_ hsc
  refine boot_optional _ _ ?_ h4 (Or.inr rfl)
  refine boot_optional _ _ ?_ h5 (Or.inl rfl)
  refine boot_foldl STATE_UDPSERVER udp _ ?_ (fun l hl => ⟨hudp l hl, Or.inr (Or.inl rfl)⟩)
  refine boot_foldl STATE_ACCEPT tcp _ ?_
    (fun l hl => ⟨(htcp l hl).1, Or.inl ⟨rfl, (htcp l hl).2⟩⟩)
  refine ⟨?_, ?_, ?_, ?_, ?_⟩
  · simp [hm']
  · intro l hl
    simp only [fd2state_upd_pfd, role_upd_state] at hl
    split_ifs at hl <;> exact absurd hl (by decide)
  · intro j
    simp only [fd2state_upd_pfd, role_upd_state]
    split_ifs <;> decide
  · intro k
    simp
  · intro j
    simp only [revents_upd_pfd]
    split_ifs <;> rfl

/-- Every state the loop can be in satisfies the invariant. -/
theorem reach_inv {E : Env} (hE : EnvOK E) {s : Loop} (h : Reach E s) : Inv E s := by
  induction h with
  | init tcp udp socks5_fd socks4_fd h => exact inv_init tcp udp socks5_fd socks4_fd h
  | winsize _ ih => exact inv_winsize ih
  | poll rev _ hp ih => exact inv_polled rev ih hp
  | step now io i _ hok hs ih => exact inv_step hE now io i ih hok hs

/-! ## The invariant on the states the loop can be in -/

theorem demoSafe_ok : EnvOK demoSafe :=
  ⟨fun _ _ => List.length_take_le _ _, fun _ _ h => h⟩

theorem demoInit_reach : Reach demoSafe demoInit :=
  Reach.init [(5, bytes "10.0.0.1/22/")] [] 6 7 (by unfold InitOK; decide)

theorem demoScript_reach : Reach demoSafe demoScript :=
  @Reach.step demoSafe (polled (ready 4 POLLIN) demoInit) demoScript [] 100 { afd := 10 } 4
    (Reach.poll (ready 4 POLLIN) demoInit_reach (by unfold PollOK; decide))
    (by unfold StepOK; decide) rfl

theorem script_step_closes {E : Env} {s s' : Loop} {eff : List Effect} (now : Int) (io : Sys)
    (i : Int) (hi : (s.fd2state i).state = STATE_SCRIPT_IO) (hi0 : i ≠ 0)
    (his : i ≠ E.script_sock) (hs : step E now io i s = Outcome.cont s' eff) :
    (script_fails io (s.pfds i).revents →
      (s'.fd2state i).state = STATE_INVALID ∧
      (s'.pfds 0).events &&& POLLIN ≠ 0 ∧ (s'.pfds E.script_sock).events &&& POLLIN ≠ 0) ∧
    (¬ script_fails io (s.pfds i).revents → (s'.fd2state i).state = STATE_SCRIPT_IO) := by
  have hto : ¬ timed_out E now (s.fd2state i) := by
    unfold timed_out; rw [hi]; simp
  have h0i : (0 : Int) ≠ i := fun hh => hi0 hh.symm
  have hsi : E.script_sock ≠ i := fun hh => his hh.symm
  unfold step at hs
  rw [if_neg (by rw [hi]; decide), if_neg hto] at hs
  unfold script_fails
  split at hs
  · rename_i herr
    unfold hangup_close at hs
    rw [if_neg (by rw [hi]; decide)] at hs
    simp only [Outcome.cont.injEq] at hs
    obtain ⟨rfl, _⟩ := hs
    refine ⟨fun _ => ⟨?_, ?_, ?_⟩, fun hn => absurd (Or.inl herr) hn⟩ <;>
    simp_all [rearm_stdin, POLLIN_ne_zero]
  · rename_i herr
    split at hs
    · rename_i hin
      unfold read_ready at hs
      simp only [fd2state_upd_pfd, hi] at hs
      unfold read_script at hs
      split at hs
      · rename_i hr
        split at hs
        · rename_i he
          simp only [Outcome.cont.injEq] at hs
          obtain ⟨rfl, _⟩ := hs
          refine ⟨fun hf => ?_, fun _ => by simpa using hi⟩
          rcases hf with hf | ⟨_, _, hf⟩
          · exact absurd hf herr
          · exact absurd he hf
        · rename_i he
          simp only [Outcome.cont.injEq] at hs
          obtain ⟨rfl, _⟩ := hs
          refine ⟨fun _ => ⟨?_, ?_, ?_⟩, fun hn => absurd (Or.inr ⟨Or.inl hin, hr, he⟩) hn⟩ <;>
          simp_all [script_close, teardown, rearm_stdin, POLLIN_ne_zero]
      · rename_i hr
        simp only [Outcome.cont.injEq] at hs
        obtain ⟨rfl, _⟩ := hs
        refine ⟨fun hf => ?_, fun _ => by simpa using hi⟩
        rcases hf with hf | ⟨_, hf, _⟩
        · exact absurd hf herr
        · exact absurd hf hr
    · rename_i hin
      split at hs
      · rename_i hout
        unfold write_ready at hs
        simp only [fd2state_upd_pfd, hi] at hs
        unfold write_script at hs
        simp only at hs
        split at hs
        · rename_i hr
          split at hs
          · rename_i he
            simp only [Outcome.cont.injEq] at hs
            obtain ⟨rfl, _⟩ := hs
            refine ⟨fun hf => ?_, fun _ => by simpa using hi⟩
            rcases hf with hf | ⟨_, _, hf⟩
            · exact absurd hf herr
            · exact absurd he hf
          · rename_i he
            simp only [Outcome.cont.injEq] at hs
            obtain ⟨rfl, _⟩ := hs
            refine ⟨fun _ => ⟨?_, ?_, ?_⟩, fun hn => absurd (Or.inr ⟨Or.inr hout, hr, he⟩) hn⟩ <;>
            simp_all [script_close, teardown, rearm_stdin, POLLIN_ne_zero]
        · rename_i hr
          simp only [Outcome.cont.injEq] at hs
          obtain ⟨rfl, _⟩ := hs
          refine ⟨fun hf => ?_, fun _ => by simpa using hi⟩
          rcases hf with hf | ⟨_, hf, _⟩
          · exact absurd hf herr
          · exact absurd hf hr
      · rename_i hout
        simp only [Outcome.cont.injEq] at hs
        obtain ⟨rfl, _⟩ := hs
        refine ⟨fun hf => ?_, fun _ => hi⟩
        rcases hf with hf | ⟨hf | hf, _, _⟩
        · exact absurd hf herr
        · exact absurd hf hin
        · exact absurd hf hout

/-- Where poll reports no error condition on the script listener, and POLLIN there only when
it was asked for, the loop keeps the script connection exclusive: on every such state at most
one descriptor has role SCRIPT_IO, and while one exists neither descriptor 0 nor the script
listener has POLLIN armed. When the body runs for the SCRIPT_IO descriptor and closes it (error
or hangup readiness, a failed read, a failed write), no SCRIPT_IO descriptor is left and POLLIN
is armed again on both; when it does not close it, the descriptor keeps its role and both stay
unarmed. -/
theorem script_exclusive_on_reach (E : Env) (s : Loop) (hE : EnvOK E) (hr : Reach E s) :
    (∀ a b, (s.fd2state a).state = STATE_SCRIPT_IO → (s.fd2state b).state = STATE_SCRIPT_IO →
      a = b) ∧
    (∀ a, (s.fd2state a).state = STATE_SCRIPT_IO →
      (s.pfds 0).events &&& POLLIN = 0 ∧ (s.pfds E.script_sock).events &&& POLLIN = 0) ∧
    ∀ (now : Int) (io : Sys) (i : Int) (s' : Loop) (eff : List Effect),
      (s.fd2state i).state = STATE_SCRIPT_IO → StepOK s io i →
      step E now io i s = Outcome.cont s' eff →
      (script_fails io (s.pfds i).revents →
        (s'.fd2state i).state = STATE_INVALID ∧ (∀ j, (s'.fd2state j).state ≠ STATE_SCRIPT_IO) ∧
        (s'.pfds 0).events &&& POLLIN ≠ 0 ∧ (s'.pfds E.script_sock).events &&& POLLIN ≠ 0) ∧
      (¬ script_fails io (s.pfds i).revents →
        (s'.fd2state i).state = STATE_SCRIPT_IO ∧
        (s'.pfds 0).events &&& POLLIN = 0 ∧ (s'.pfds E.script_sock).events &&& POLLIN = 0) := by
  have h := reach_inv hE hr
  refine ⟨h.script_one, fun a ha => (h.script_mask a ha).2, ?_⟩
  intro now io i s' eff hi hok hs
  have h' := inv_step hE now io i h hok hs
  obtain ⟨m1, _, _⟩ := h.script_mask i hi
  have hi0 : i ≠ 0 := by
    intro hh; rw [hh, h.stdin] at hi; exact absurd hi (by decide)
  have his : i ≠ E.script_sock := by
    intro hh; rw [← hh, hi] at m1; exact absurd m1 (by decide)
  obtain ⟨c1, c2⟩ := script_step_closes now io i hi hi0 his hs
  refine ⟨fun hf => ?_, fun hf => ⟨c2 hf, (h'.script_mask i (c2 hf)).2⟩⟩
  obtain ⟨t1, t2, t3⟩ := c1 hf
  exact ⟨t1, fun j hj => t2 (h'.script_mask j hj).2.1, t2, t3⟩

/-- A worked run of the script connection: descriptor 10 is the script connection, descriptors
0 and 4 are not armed for read; poll reports a hangup on 10, the body closes it, and 0 and 4
are armed for read again. -/
theorem script_exclusive_on_reach_demo :
    (demoScript.fd2state 10).state = STATE_SCRIPT_IO ∧
    ((demoScript.pfds 0).events &&& POLLIN = 0 ∧ (demoScript.pfds 4).events &&& POLLIN = 0) ∧
    (demoHung.fd2state 10).state = STATE_INVALID ∧
    (demoHung.pfds 0).events &&& POLLIN ≠ 0 ∧ (demoHung.pfds 4).events &&& POLLIN ≠ 0 :=
  have h := script_exclusive_on_reach demoSafe (polled (ready 10 (POLLIN ||| POLLHUP)) demoScript)
    demoSafe_ok (Reach.poll _ demoScript_reach (by unfold PollOK; decide))
  have t := (h.2.2 101 {} 10 demoHung [Effect.close 10] (by decide) (by unfold StepOK; decide)
    rfl).1 (by unfold script_fails; decide)
  ⟨by decide, h.2.1 10 (by decide), t.1, t.2.2.1, t.2.2.2⟩

/-- C20, the code at a failing input: poll reports an error condition on the script listener.
The script client is connected on descriptor 10. Poll reports POLLERR on the masked listener,
descriptor 4, and the error branch (lines 291-312) closes it. The TCP listener is served next
and accept returns the free number 4: the session is installed in role CONNECT with `events`
0 (lines 371-376). Then the script client hangs up, and the teardown arms
`pfds[config::script_sock]` by number (line 302): descriptor 4 is in role CONNECT and has
POLLIN armed. -/
theorem C20_connect_read_armed :
    Reach demoSafe demoScript ∧ demoSafe.script_sock = 4 ∧
    step demoSafe 101 {} 4 (polled (ready 4 POLLERR) demoScript) =
      Outcome.cont demoDead [Effect.close 4] ∧
    StepOK (polled (ready 5 POLLIN) demoDead) { afd := 4 } 5 ∧
    step demoSafe 102 { afd := 4 } 5 (polled (ready 5 POLLIN) demoDead) =
      Outcome.cont demoDeadTcp [] ∧
    (demoDeadTcp.fd2state 4).state = STATE_CONNECT ∧ (demoDeadTcp.pfds 4).events = 0 ∧
    step demoSafe 103 {} 10 (polled (ready 10 (POLLIN ||| POLLHUP)) demoDeadTcp) =
      Outcome.cont demoDeadArmed [Effect.close 10] ∧
    (demoDeadArmed.fd2state 4).state = STATE_CONNECT ∧
    (demoDeadArmed.pfds 4).events &&& POLLIN ≠ 0 :=
  ⟨demoScript_reach, rfl, rfl, by unfold StepOK; decide, rfl, by decide, by decide, rfl,
    by decide, by decide⟩

/-- Where poll reports no error condition on the script listener, and POLLIN there only when
it was asked for, a descriptor in role CONNECT is never armed for read: on every such state,
and again after the body has run for any descriptor, every descriptor whose role is CONNECT
has POLLIN clear in the `events` field of its readiness entry. -/
theorem connect_not_read_armed_on_reach (E : Env) (now : Int) (io : Sys) (i : Int) (s s' : Loop)
    (eff : List Effect) (hE : EnvOK E) (hr : Reach E s) (hok : StepOK s io i)
    (hs : step E now io i s = Outcome.cont s' eff) :
    (∀ j, (s.fd2state j).state = STATE_CONNECT → (s.pfds j).events &&& POLLIN = 0) ∧
    ∀ j, (s'.fd2state j).state = STATE_CONNECT → (s'.pfds j).events &&& POLLIN = 0 :=
  ⟨(reach_inv hE hr).connect_pollin,
    (inv_step hE now io i (reach_inv hE hr) hok hs).connect_pollin⟩

theorem demoSocks4a_reach : Reach demoSafe demoSocks4a :=
  @Reach.step demoSafe (polled (ready 7 POLLIN) demoInit) demoSocks4a [] 100 { afd := 9 } 7
    (Reach.poll (ready 7 POLLIN) demoInit_reach (by unfold PollOK; decide))
    (by unfold StepOK; decide) rfl

/-- A worked run of a grant: the SOCKS4 client on descriptor 9 is granted, its role becomes
CONNECT and its readiness entry has POLLIN clear. -/
theorem connect_not_read_armed_on_reach_demo :
    (demoSocks4b.fd2state 9).state = STATE_CONNECT ∧
    (demoSocks4b.pfds 9).events &&& POLLIN = 0 :=
  ⟨by decide,
    (connect_not_read_armed_on_reach demoSafe 101 { r := 9, data := [4, 1, 0, 80, 10, 0, 0, 2, 0] } 9
      (polled (ready 9 POLLIN) demoSocks4a) demoSocks4b [] demoSafe_ok
      (Reach.poll (ready 9 POLLIN) demoSocks4a_reach (by unfold PollOK; decide))
      (by unfold StepOK; decide) rfl).2 9 (by decide)⟩

/-! ## The key map names live sessions only -/

theorem Owned.keep {s s' : Loop} (h : Owned s)
    (hkeep : ∀ fd, (s.fd2state fd).state = STATE_CONNECT ∨ (s.fd2state fd).state = STATE_CONNECTED →
      (s'.fd2state fd).state = (s.fd2state fd).state ∧ (s'.fd2state fd).rnode = (s.fd2state fd).rnode)
    (htcp : s'.tcp_nodes2sock = s.tcp_nodes2sock) : Owned s' := by
  intro k fd hk
  rw [htcp] at hk
  obtain ⟨a, b⟩ := h k fd hk
  obtain ⟨c, d⟩ := hkeep fd a
  rw [c, d]
  exact ⟨a, b⟩

theorem Owned.drop {s s' : Loop} (i : Int) (h : Owned s)
    (hother : ∀ fd, fd ≠ i →
      (s'.fd2state fd).state = (s.fd2state fd).state ∧ (s'.fd2state fd).rnode = (s.fd2state fd).rnode)
    (htcp : s'.tcp_nodes2sock = Function.update s.tcp_nodes2sock (s.fd2state i).rnode none) :
    Owned s' := by
  intro k fd hk
  rw [htcp] at hk
  by_cases hki : k = (s.fd2state i).rnode
  · rw [hki] at hk; simp at hk
  · rw [Function.update_noteq hki] at hk
    obtain ⟨a, b⟩ := h k fd hk
    have hfi : fd ≠ i := by
      intro hh; rw [hh] at b; exact hki b.symm
    obtain ⟨c, d⟩ := hother fd hfi
    rw [c, d]
    exact ⟨a, b⟩

theorem Owned.add {s s' : Loop} (a : Int) (k : List Nat) (h : Owned s)
    (hns : ¬ ((s.fd2state a).state = STATE_CONNECT ∨ (s.fd2state a).state = STATE_CONNECTED))
    (hrole : (s'.fd2state a).state = STATE_CONNECT) (hrn : (s'.fd2state a).rnode = k)
    (hother : ∀ fd, fd ≠ a →
      (s'.fd2state fd).state = (s.fd2state fd).state ∧ (s'.fd2state fd).rnode = (s.fd2state fd).rnode)
    (htcp : s'.tcp_nodes2sock = Function.update s.tcp_nodes2sock k (some a)) : Owned s' := by
  intro k' fd hk
  rw [htcp] at hk
  by_cases hkk : k' = k
  · rw [hkk] at hk
    simp at hk
    subst hk
    rw [hkk]
    exact ⟨Or.inl hrole, hrn⟩
  · rw [Function.update_noteq hkk] at hk
    obtain ⟨x, y⟩ := h k' fd hk
    have hfa : fd ≠ a := by
      intro hh; rw [hh] at x; exact hns x
    obtain ⟨c, d⟩ := hother fd hfa
    rw [c, d]
    exact ⟨x, y⟩

theorem own_timeout_close {E : Env} {s s' : Loop} {eff : List Effect} (now : Int) (i : Int)
    (h : Owned s) (hto : timed_out E now (s.fd2state i))
    (hs : timeout_close E i s = Outcome.cont s' eff) : Owned s' := by
  unfold timeout_close at hs
  simp only [Outcome.cont.injEq] at hs
  obtain ⟨rfl, _⟩ := hs
  rcases hto with ⟨hr, _⟩ | ⟨hr, _⟩
  · refine Owned.keep h ?_ ?_ <;>
    (first
      | (intros; simp_all [signal_finished]; done)
      | (intros; simp_all [signal_finished]; split_ifs <;> simp_all; done)
      | (intros; simp_all [signal_finished]; intro hh; subst hh; simp_all; done)
      | (intros; simp [signal_finished]; done))
  · refine Owned.drop i h ?_ ?_ <;>
    (first
      | (intros; simp_all [signal_finished]; done)
      | (intros; simp_all [signal_finished]; split_ifs <;> simp_all; done)
      | (intros; simp_all [signal_finished]; intro hh; subst hh; simp_all; done)
      | (intros; simp [signal_finished]; done))

theorem own_hangup_close {E : Env} {s s' : Loop} {eff : List Effect} (i : Int)
    (h : Owned s) (hs : hangup_close E i s = Outcome.cont s' eff) : Owned s' := by
  unfold hangup_close at hs
  split at hs
  · cases hs
  · simp only [Outcome.cont.injEq] at hs
    obtain ⟨rfl, _⟩ := hs
    by_cases hc : (s.fd2state i).state = STATE_CONNECTED ∨ (s.fd2state i).state = STATE_CONNECT
    · have hns : (s.fd2state i).state ≠ STATE_SCRIPT_IO := by
        rcases hc with hc | hc <;> rw [hc] <;> decide
      refine Owned.drop i h ?_ ?_ <;>
      (first
        | (intros; simp_all [signal_finished]; done)
        | (intros; simp_all [signal_finished]; split_ifs <;> simp_all; done)
        | (intros; simp_all [signal_finished]; intro hh; subst hh; simp_all; done)
        | (intros; simp [signal_finished]; done))
    · have hn1 : (s.fd2state i).state ≠ STATE_CONNECT := fun hh => hc (Or.inr hh)
      have hn2 : (s.fd2state i).state ≠ STATE_CONNECTED := fun hh => hc (Or.inl hh)
      refine Owned.keep h ?_ ?_ <;>
      (first
        | (intros; simp_all [rearm_stdin]; done)
        | (intros; simp_all [rearm_stdin]; split_ifs <;> simp_all; done)
        | (intros; simp_all [rearm_stdin]; intro hh; subst hh; simp_all; done)
        | (intros; simp [rearm_stdin]; done))

theorem own_render {s : Loop} (now : Int) (tbuf : List Nat) (h : Owned s) :
    Owned (render now tbuf s) := by
  unfold render
  simp only
  split
  · refine Owned.keep h ?_ ?_ <;>
    (first
      | (intros; simp_all; done)
      | (intros; simp_all; split_ifs <;> simp_all; done)
      | (intros; simp_all; intro hh; subst hh; simp_all; done)
      | (intros; simp; done))
  · refine Owned.keep h ?_ ?_ <;>
    (first
      | (intros; simp_all; done)
      | (intros; simp_all; split_ifs <;> simp_all; done)
      | (intros; simp_all; intro hh; subst hh; simp_all; done)
      | (intros; simp; done))

theorem own_read_pty {E : Env} (hD : ∀ cmd t, Owned t → Owned (run_cmd_handler E cmd t))
    (now : Int) (reads : List PscRead) :
    ∀ {s s' : Loop} {eff : List Effect}, Owned s →
      read_pty E now reads s = Outcome.cont s' eff → Owned s' := by
  induction reads with
  | nil => intro s s' eff _ hs; cases hs
  | cons rd rest ih =>
    intro s s' eff h hs
    unfold read_pty at hs
    split at hs
    · cases hs
    · have h1 : Owned (if rd.starttls = 1 then { s with winsize_changed := true }
          else if rd.ext_cmd.length > 0 then run_cmd_handler E rd.ext_cmd s
          else if rd.tbuf.length > 0 then render now rd.tbuf s
          else s) := by
        split
        · exact h
        · split
          · exact hD _ _ h
          · split
            · exact own_render now _ h
            · exact h
      simp only at hs
      split at hs
      · exact ih h1 hs
      · simp only [Outcome.cont.injEq] at hs
        obtain ⟨rfl, _⟩ := hs
        exact h1

theorem own_read_ready {E : Env} (hD : ∀ cmd t, Owned t → Owned (run_cmd_handler E cmd t))
    {s s' : Loop} {eff : List Effect} (now : Int) (io : Sys) (i : Int) (h : Owned s)
    (hf : 0 ≤ io.afd → (s.fd2state io.afd).state = STATE_INVALID)
    (hs : read_ready E now io i s = Outcome.cont s' eff) : Owned s' := by
  have h0 : Owned (s.upd_pfd i (fun p => { p with revents := 0 })) := h
  unfold read_ready at hs
  simp only [fd2state_upd_pfd] at hs
  cases hr : (s.fd2state i).state <;> simp only [hr] at hs
  case STATE_PTY => exact own_read_pty hD now io.reads h0 hs
  case STATE_ACCEPT =>
    unfold read_accept at hs
    split at hs
    · simp only [Outcome.cont.injEq] at hs
      obtain ⟨rfl, _⟩ := hs
      exact h0
    · have hfr := hf (by omega)
      simp only [Outcome.cont.injEq] at hs
      obtain ⟨rfl, _⟩ := hs
      refine Owned.add io.afd ((s.fd2state i).rnode ++ snprintf_id io.afd) h0
        (by simp [hfr]) ?_ ?_ ?_ ?_ <;>
      (first
        | (intros; simp_all [teardown, erase_and_signal, install, register, script_close, rearm_stdin]; done)
        | (intros; simp_all [teardown, erase_and_signal, install, register, script_close, rearm_stdin]; split_ifs <;> simp_all; done)
        | (intros; simp_all [teardown, erase_and_signal, install, register, script_close, rearm_stdin]; intro hh; subst hh; simp_all; done)
        | (intros; simp [teardown, erase_and_signal, install, register, script_close, rearm_stdin]; done))
  case STATE_SOCKS4_AUTH =>
    unfold read_socks4_auth at hs
    simp only at hs
    split at hs
    · simp only [Outcome.cont.injEq] at hs
      obtain ⟨rfl, _⟩ := hs
      refine Owned.keep h0 ?_ ?_ <;>
      (first
        | (intros; simp_all [teardown, erase_and_signal, install, register, script_close, rearm_stdin]; done)
        | (intros; simp_all [teardown, erase_and_signal, install, register, script_close, rearm_stdin]; split_ifs <;> simp_all; done)
        | (intros; simp_all [teardown, erase_and_signal, install, register, script_close, rearm_stdin]; intro hh; subst hh; simp_all; done)
        | (intros; simp [teardown, erase_and_signal, install, register, script_close, rearm_stdin]; done))
    · simp only [Outcome.cont.injEq] at hs
      obtain ⟨rfl, _⟩ := hs
      refine Owned.add i
        (snprintf_hdr (E.inet_ntop AF_INET
            (((((sbuf_after E.sizeof_sbuf io.data).set 0 0).set 1 0x5a).drop 4).take 4))
          (ntohs_at (((sbuf_after E.sizeof_sbuf io.data).set 0 0).set 1 0x5a) 2) i)
        h0 (by simp [hr]) ?_ ?_ ?_ ?_ <;>
      (first
        | (intros; simp_all [teardown, erase_and_signal, install, register, script_close, rearm_stdin]; done)
        | (intros; simp_all [teardown, erase_and_signal, install, register, script_close, rearm_stdin]; split_ifs <;> simp_all; done)
        | (intros; simp_all [teardown, erase_and_signal, install, register, script_close, rearm_stdin]; intro hh; subst hh; simp_all; done)
        | (intros; simp [teardown, erase_and_signal, install, register, script_close, rearm_stdin]; done))
  case STATE_SOCKS5_AUTH2 =>
    unfold read_socks5_auth2 at hs
    simp only at hs
    split at hs
    · simp only [Outcome.cont.injEq] at hs
      obtain ⟨rfl, _⟩ := hs
      refine Owned.keep h0 ?_ ?_ <;>
      (first
        | (intros; simp_all [teardown, erase_and_signal, install, register, script_close, rearm_stdin]; done)
        | (intros; simp_all [teardown, erase_and_signal, install, register, script_close, rearm_stdin]; split_ifs <;> simp_all; done)
        | (intros; simp_all [teardown, erase_and_signal, install, register, script_close, rearm_stdin]; intro hh; subst hh; simp_all; done)
        | (intros; simp [teardown, erase_and_signal, install, register, script_close, rearm_stdin]; done))
    · simp only [Outcome.cont.injEq] at hs
      obtain ⟨rfl, _⟩ := hs
      refine Owned.add i
        (snprintf_hdr
          (if byte_at (sbuf_after E.sizeof_sbuf io.data) 3 = 1
            then E.inet_ntop AF_INET ((sbuf_after E.sizeof_sbuf io.data).drop 4 |>.take 4)
            else E.inet_ntop AF_INET6 ((sbuf_after E.sizeof_sbuf io.data).drop 4 |>.take 16))
          (if byte_at (sbuf_after E.sizeof_sbuf io.data) 3 = 1
            then ntohs_at (sbuf_after E.sizeof_sbuf io.data) 8
            else ntohs_at (sbuf_after E.sizeof_sbuf io.data) 20) i)
        h0 (by simp [hr]) ?_ ?_ ?_ ?_ <;>
      (first
        | (intros; simp_all [teardown, erase_and_signal, install, register, script_close, rearm_stdin]; done)
        | (intros; simp_all [teardown, erase_and_signal, install, register, script_close, rearm_stdin]; split_ifs <;> simp_all; done)
        | (intros; simp_all [teardown, erase_and_signal, install, register, script_close, rearm_stdin]; intro hh; subst hh; simp_all; done)
        | (intros; simp [teardown, erase_and_signal, install, register, script_close, rearm_stdin]; done))
  case STATE_CONNECTED =>
    unfold read_connected at hs
    split at hs
    · simp only [Outcome.cont.injEq] at hs
      obtain ⟨rfl, _⟩ := hs
      refine Owned.drop i h0 ?_ ?_ <;>
      (first
        | (intros; simp_all [teardown, erase_and_signal, install, register, script_close, rearm_stdin]; done)
        | (intros; simp_all [teardown, erase_and_signal, install, register, script_close, rearm_stdin]; split_ifs <;> simp_all; done)
        | (intros; simp_all [teardown, erase_and_signal, install, register, script_close, rearm_stdin]; intro hh; subst hh; simp_all; done)
        | (intros; simp [teardown, erase_and_signal, install, register, script_close, rearm_stdin]; done))
    · simp only [Outcome.cont.injEq] at hs
      obtain ⟨rfl, _⟩ := hs
      refine Owned.keep h0 ?_ ?_ <;>
      (first
        | (intros; simp_all [teardown, erase_and_signal, install, register, script_close, rearm_stdin]; done)
        | (intros; simp_all [teardown, erase_and_signal, install, register, script_close, rearm_stdin]; split_ifs <;> simp_all; done)
        | (intros; simp_all [teardown, erase_and_signal, install, register, script_close, rearm_stdin]; intro hh; subst hh; simp_all; done)
        | (intros; simp [teardown, erase_and_signal, install, register, script_close, rearm_stdin]; done))
  all_goals
    first
    | (unfold read_stdin at hs)
    | (unfold read_socks5_accept at hs)
    | (unfold read_socks4_accept at hs)
    | (unfold read_socks5_auth1 at hs)
    | (unfold read_udpserver at hs)
    | (unfold read_script_accept at hs)
    | (unfold read_script at hs)
    | skip
    try simp only at hs
    repeat' split at hs
    all_goals
      first
      | (cases hs; done)
      | (simp only [Outcome.cont.injEq] at hs
         obtain ⟨rfl, _⟩ := hs
         have hfr : (s.fd2state io.afd).state = STATE_INVALID := hf (by omega)
         refine Owned.keep h0 ?_ ?_ <;>
         (first
           | (intro fd hfd
              have hne : fd ≠ io.afd := by
                intro hh; subst hh; simp_all
              simp_all [install]
              done)
           | (intros; simp_all [teardown, erase_and_signal, install, register, script_close, rearm_stdin]; done)
           | (intros; simp_all [teardown, erase_and_signal, install, register, script_close, rearm_stdin]; split_ifs <;> simp_all; done)
           | (intros; simp_all [teardown, erase_and_signal, install, register, script_close, rearm_stdin]; intro hh; subst hh; simp_all; done)
           | (intros; simp [teardown, erase_and_signal, install, register, script_close, rearm_stdin]; done)))
      | (simp only [Outcome.cont.injEq] at hs
         obtain ⟨rfl, _⟩ := hs
         refine Owned.keep h0 ?_ ?_ <;>
         (first
           | (intros; simp_all [teardown, erase_and_signal, install, register, script_close, rearm_stdin]; done)
           | (intros; simp_all [teardown, erase_and_signal, install, register, script_close, rearm_stdin]; split_ifs <;> simp_all; done)
           | (intros; simp_all [teardown, erase_and_signal, install, register, script_close, rearm_stdin]; intro hh; subst hh; simp_all; done)
           | (intros; simp [teardown, erase_and_signal, install, register, script_close, rearm_stdin]; done)))

theorem own_write_ready {E : Env} {s s' : Loop} {eff : List Effect} (now : Int) (io : Sys)
    (i : Int) (h : Owned s) (hs : write_ready E now io i s = Outcome.cont s' eff) :
    Owned s' := by
  have h0 : Owned (s.upd_pfd i (fun p => { p with revents := 0 })) := h
  unfold write_ready at hs
  simp only [fd2state_upd_pfd] at hs
  cases hr : (s.fd2state i).state <;> simp only [hr] at hs
  all_goals
    first
    | (unfold write_stdout at hs)
    | (unfold write_pty at hs)
    | (unfold write_tunnel at hs)
    | (unfold write_udpserver at hs)
    | (unfold write_script at hs)
    | skip
    try simp only at hs
    repeat' split at hs
    all_goals
      first
      | (cases hs; done)
      | (simp only [Outcome.cont.injEq] at hs
         obtain ⟨rfl, _⟩ := hs
         refine Owned.keep h0 ?_ ?_ <;>
         (first
           | (intros; simp_all [teardown, erase_and_signal, install, register, script_close, rearm_stdin]; done)
           | (intros; simp_all [teardown, erase_and_signal, install, register, script_close, rearm_stdin]; split_ifs <;> simp_all; done)
           | (intros; simp_all [teardown, erase_and_signal, install, register, script_close, rearm_stdin]; intro hh; subst hh; simp_all; done)
           | (intros; simp [teardown, erase_and_signal, install, register, script_close, rearm_stdin]; done)))
      | (simp only [Outcome.cont.injEq] at hs
         obtain ⟨rfl, _⟩ := hs
         refine Owned.drop i h0 ?_ ?_ <;>
         (first
           | (intros; simp_all [teardown, erase_and_signal, install, register, script_close, rearm_stdin]; done)
           | (intros; simp_all [teardown, erase_and_signal, install, register, script_close, rearm_stdin]; split_ifs <;> simp_all; done)
           | (intros; simp_all [teardown, erase_and_signal, install, register, script_close, rearm_stdin]; intro hh; subst hh; simp_all; done)
           | (intros; simp [teardown, erase_and_signal, install, register, script_close, rearm_stdin]; done)))

/-- Every pass of the body keeps the key map owned. -/
theorem own_step {E : Env} (hD : ∀ cmd t, Owned t → Owned (run_cmd_handler E cmd t))
    {s s' : Loop} {eff : List Effect} (now : Int) (io : Sys) (i : Int) (h : Owned s)
    (hf : 0 ≤ io.afd → (s.fd2state io.afd).state = STATE_INVALID)
    (hs : step E now io i s = Outcome.cont s' eff) : Owned s' := by
  unfold step at hs
  split at hs
  · simp only [Outcome.cont.injEq] at hs
    obtain ⟨rfl, _⟩ := hs
    exact h
  · split at hs
    · rename_i hto
      exact own_timeout_close now i h hto hs
    · split at hs
      · exact own_hangup_close i h hs
      · split at hs
        · exact own_read_ready hD now io i h hf hs
        · split at hs
          · exact own_write_ready now io i h hs
          · simp only [Outcome.cont.injEq] at hs
            obtain ⟨rfl, _⟩ := hs
            exact h

theorem own_winsize {E : Env} {s : Loop} (h : Owned s) : Owned (winsize_step E s) := by
  unfold winsize_step
  split
  · exact Owned.keep h (fun fd _ => by simp) (by simp)
  · exact h

theorem apply_owned (c : Cmd) {s : Loop} (h : Owned s) : Owned (apply_cmd c s) := by
  cases c with
  | confirm k =>
    unfold apply_cmd
    simp only
    cases hk : s.tcp_nodes2sock k with
    | none => exact h
    | some fd =>
      simp only
      obtain ⟨a, b⟩ := h k fd hk
      intro k' fd' hk'
      simp only [tcp_arm, tcp_upd_state] at hk'
      obtain ⟨a', b'⟩ := h k' fd' hk'
      simp only [fd2state_arm, role_upd_state, rnode_upd_state]
      by_cases hf : fd' = fd
      · subst hf; simp [b']
      · simp [hf, a', b']
  | finish k =>
    unfold apply_cmd
    simp only
    cases hk : s.tcp_nodes2sock k with
    | none => exact h
    | some fd =>
      simp only
      obtain ⟨a, b⟩ := h k fd hk
      intro k' fd' hk'
      simp only [tcp_tcp_erase, tcp_upd_state] at hk'
      by_cases hkk : k' = k
      · rw [hkk] at hk'; simp at hk'
      · rw [Function.update_noteq hkk] at hk'
        obtain ⟨a', b'⟩ := h k' fd' hk'
        have hf : fd' ≠ fd := by
          intro hh; rw [hh, b] at b'; exact hkk b'.symm
        simp only [fd2state_tcp_erase, role_upd_state, rnode_upd_state]
        simp [hf, a', b']
  | data k b =>
    unfold apply_cmd
    simp only
    cases hk : s.tcp_nodes2sock k with
    | none => exact h
    | some fd =>
      simp only
      exact Owned.keep h (fun fd _ => by simp) (by simp)
  | dgram k p b =>
    unfold apply_cmd
    simp only
    cases hk : s.udp_nodes2sock k with
    | none => exact h
    | some fd =>
      simp only
      refine Owned.keep h (fun fd' _ => ?_) (by simp)
      simp only [fd2state_arm, role_upd_state, rnode_upd_state]
      split_ifs with hf
      · subst hf; exact ⟨rfl, rfl⟩
      · exact ⟨rfl, rfl⟩

theorem apply_invalid (c : Cmd) {s : Loop} (h : Owned s) (j : Int)
    (hj : (s.fd2state j).state = STATE_INVALID) :
    ((apply_cmd c s).fd2state j).state = STATE_INVALID := by
  cases c with
  | confirm k =>
    unfold apply_cmd
    simp only
    cases hk : s.tcp_nodes2sock k with
    | none => exact hj
    | some fd =>
      simp only
      obtain ⟨a, _⟩ := h k fd hk
      have hf : j ≠ fd := by
        intro hh; rw [hh] at hj; rw [hj] at a; rcases a with a | a <;> exact absurd a (by decide)
      simp [hf, hj]
  | finish k =>
    unfold apply_cmd
    simp only
    cases hk : s.tcp_nodes2sock k with
    | none => exact hj
    | some fd =>
      simp only
      obtain ⟨a, _⟩ := h k fd hk
      have hf : j ≠ fd := by
        intro hh; rw [hh] at hj; rw [hj] at a; rcases a with a | a <;> exact absurd a (by decide)
      simp [hf, hj]
  | data k b =>
    unfold apply_cmd
    simp only
    cases hk : s.tcp_nodes2sock k with
    | none => exact hj
    | some fd => simp [hj]
  | dgram k p b =>
    unfold apply_cmd
    simp only
    cases hk : s.udp_nodes2sock k with
    | none => exact hj
    | some fd =>
      simp only [fd2state_arm, role_upd_state]
      split_ifs with hf
      · subst hf; exact hj
      · exact hj

/-! ## The queue of the PTY master -/

@[simp] theorem obuf_append_obuf (s : Loop) (i : Int) (x : List Nat) (j : Int) :
    ((s.append_obuf i x).fd2state j).obuf =
      if j = i then (s.fd2state i).obuf ++ x else (s.fd2state j).obuf := by
  unfold Loop.append_obuf; rw [obuf_upd_state]

@[simp] theorem obuf_erase_obuf (s : Loop) (i : Int) (r : Int) (j : Int) :
    ((s.erase_obuf i r).fd2state j).obuf =
      if j = i then (s.fd2state i).obuf.drop r.toNat else (s.fd2state j).obuf := by
  unfold Loop.erase_obuf; rw [obuf_upd_state]

theorem Appends.refl {E : Env} {s : Loop} (hm : (s.fd2state E.master).state = STATE_PTY) :
    Appends E s s := ⟨hm, fun _ h => h, [], by simp⟩

theorem Appends.trans {E : Env} {s t u : Loop} (h1 : Appends E s t) (h2 : Appends E t u) :
    Appends E s u := by
  obtain ⟨_, n1, g1, e1⟩ := h1
  obtain ⟨r2, n2, g2, e2⟩ := h2
  exact ⟨r2, fun j h => n1 j (n2 j h), g1 ++ g2, by rw [e2, e1, List.append_assoc]⟩

theorem app_timeout_close {E : Env} {s s' : Loop} {eff : List Effect} (io : Sys) (i : Int)
    (hm : (s.fd2state E.master).state = STATE_PTY) (hi : (s.fd2state i).state ≠ STATE_PTY)
    (hs : timeout_close E i s = Outcome.cont s' eff) :
    Appends E s s' ∧ written_on E.master io eff = [] := by
  have hne : E.master ≠ i := by
    intro hh; rw [← hh] at hi; exact hi hm
  unfold timeout_close at hs
  simp only [Outcome.cont.injEq] at hs
  obtain ⟨rfl, rfl⟩ := hs
  unfold Appends
  split_ifs
  · refine ⟨⟨?_, ?_, ?_⟩, ?_⟩
    · simp_all [signal_finished]
    · intro j hj
      revert hj
      simp [signal_finished]
      try (split_ifs <;> simp_all)
    · simp_all [signal_finished]
    · simp_all [written_on, signal_finished]
  · refine ⟨⟨?_, ?_, ?_⟩, ?_⟩
    · simp_all [signal_finished]
    · intro j hj
      revert hj
      simp [signal_finished]
      try (split_ifs <;> simp_all)
    · simp_all [signal_finished]
    · simp_all [written_on, signal_finished]

theorem app_hangup_close {E : Env} {s s' : Loop} {eff : List Effect} (io : Sys) (i : Int)
    (hm : (s.fd2state E.master).state = STATE_PTY)
    (hs : hangup_close E i s = Outcome.cont s' eff) :
    Appends E s s' ∧ written_on E.master io eff = [] := by
  unfold hangup_close at hs
  split at hs
  · cases hs
  · rename_i hi
    have hne : E.master ≠ i := by
      intro hh; rw [← hh] at hi; exact hi (Or.inr hm)
    simp only [Outcome.cont.injEq] at hs
    obtain ⟨rfl, rfl⟩ := hs
    unfold Appends
    split_ifs
    · refine ⟨⟨?_, ?_, ?_⟩, ?_⟩
      · simp_all [signal_finished, rearm_stdin]
      · intro j hj
        revert hj
        simp [signal_finished, rearm_stdin]
        try (split_ifs <;> simp_all)
      · simp_all [signal_finished, rearm_stdin]
      · simp_all [written_on, signal_finished, rearm_stdin]
    · refine ⟨⟨?_, ?_, ?_⟩, ?_⟩
      · simp_all [signal_finished, rearm_stdin]
      · intro j hj
        revert hj
        simp [signal_finished, rearm_stdin]
        try (split_ifs <;> simp_all)
      · simp_all [signal_finished, rearm_stdin]
      · simp_all [written_on, signal_finished, rearm_stdin]
    · refine ⟨⟨?_, ?_, ?_⟩, ?_⟩
      · simp_all [signal_finished, rearm_stdin]
      · intro j hj
        revert hj
        simp [signal_finished, rearm_stdin]
        try (split_ifs <;> simp_all)
      · simp_all [signal_finished, rearm_stdin]
      · simp_all [written_on, signal_finished, rearm_stdin]
    · refine ⟨⟨?_, ?_, ?_⟩, ?_⟩
      · simp_all [signal_finished, rearm_stdin]
      · intro j hj
        revert hj
        simp [signal_finished, rearm_stdin]
        try (split_ifs <;> simp_all)
      · simp_all [signal_finished, rearm_stdin]
      · simp_all [written_on, signal_finished, rearm_stdin]

theorem app_render {E : Env} {s : Loop} (now : Int) (tbuf : List Nat)
    (hm : (s.fd2state E.master).state = STATE_PTY) : Appends E s (render now tbuf s) := by
  unfold render Appends
  simp only
  split
  · refine ⟨?_, ?_, ?_⟩
    · simp_all
      try (split_ifs <;> simp_all)
      try (intro h; simp_all)
    · intro j hj
      revert hj
      simp
      try (split_ifs <;> simp_all)
    · simp_all
      try (split_ifs <;> simp_all)
  · refine ⟨?_, ?_, ?_⟩
    · simp_all
      try (split_ifs <;> simp_all)
      try (intro h; simp_all)
    · intro j hj
      revert hj
      simp
      try (split_ifs <;> simp_all)
    · simp_all
      try (split_ifs <;> simp_all)

theorem app_read_pty {E : Env} (hP : PtyOK E) (io : Sys) (now : Int) (reads : List PscRead) :
    ∀ {s s' : Loop} {eff : List Effect}, Owned s → (s.fd2state E.master).state = STATE_PTY →
      read_pty E now reads s = Outcome.cont s' eff →
      Appends E s s' ∧ written_on E.master io eff = [] := by
  induction reads with
  | nil => intro s s' eff _ _ hs; cases hs
  | cons rd rest ih =>
    intro s s' eff ho hm hs
    unfold read_pty at hs
    split at hs
    · cases hs
    · have h1 : Owned (if rd.starttls = 1 then { s with winsize_changed := true }
          else if rd.ext_cmd.length > 0 then run_cmd_handler E rd.ext_cmd s
          else if rd.tbuf.length > 0 then render now rd.tbuf s
          else s) ∧
          Appends E s (if rd.starttls = 1 then { s with winsize_changed := true }
          else if rd.ext_cmd.length > 0 then run_cmd_handler E rd.ext_cmd s
          else if rd.tbuf.length > 0 then render now rd.tbuf s
          else s) := by
        split
        · exact ⟨ho, Appends.refl hm⟩
        · split
          · exact ⟨hP.2.2.1 _ _ ho, hP.2.2.2 _ _ ho hm⟩
          · split
            · exact ⟨own_render now _ ho, app_render now _ hm⟩
            · exact ⟨ho, Appends.refl hm⟩
      simp only at hs
      split at hs
      · obtain ⟨a, b⟩ := ih h1.1 h1.2.1 hs
        exact ⟨h1.2.trans a, b⟩
      · simp only [Outcome.cont.injEq] at hs
        obtain ⟨rfl, rfl⟩ := hs
        exact ⟨h1.2, rfl⟩

theorem app_read_ready {E : Env} (hP : PtyOK E) {s s' : Loop} {eff : List Effect}
    (now : Int) (io : Sys) (i : Int) (ho : Owned s)
    (hm : (s.fd2state E.master).state = STATE_PTY)
    (hok : StepOK s io i) (hs : read_ready E now io i s = Outcome.cont s' eff) :
    Appends E s s' ∧ written_on E.master io eff = [] := by
  have hfresh : 0 ≤ io.afd → E.master ≠ io.afd ∧ (s.fd2state io.afd).state = STATE_INVALID := by
    intro h0
    have := (hok.2.2 h0).2
    refine ⟨fun hh => ?_, this⟩
    rw [← hh, hm] at this
    exact absurd this (by decide)
  unfold read_ready at hs
  simp only [fd2state_upd_pfd] at hs
  cases hr : (s.fd2state i).state <;> simp only [hr] at hs
  case STATE_PTY =>
    obtain ⟨a, b⟩ := app_read_pty hP io now io.reads
      (show Owned (s.upd_pfd i (fun p => { p with revents := 0 })) from ho)
      (show ((s.upd_pfd i (fun p => { p with revents := 0 })).fd2state E.master).state
        = STATE_PTY from hm) hs
    exact ⟨a, b⟩
  all_goals
    have hne : E.master ≠ i := by
      intro hh; rw [← hh, hm] at hr; exact absurd hr (by decide)
    first
    | (unfold read_stdin at hs)
    | (unfold read_accept at hs)
    | (unfold read_socks5_accept at hs)
    | (unfold read_socks4_accept at hs)
    | (unfold read_connected at hs)
    | (unfold read_socks4_auth at hs)
    | (unfold read_socks5_auth1 at hs)
    | (unfold read_socks5_auth2 at hs)
    | (unfold read_udpserver at hs)
    | (unfold read_script_accept at hs)
    | (unfold read_script at hs)
    | skip
    try simp only at hs
    repeat' split at hs
    all_goals
      first
      | (cases hs; done)
      | (simp only [Outcome.cont.injEq] at hs
         obtain ⟨rfl, rfl⟩ := hs
         have h0 : 0 ≤ io.afd := by omega
         obtain ⟨hfr, hfi⟩ := hfresh h0
         unfold Appends
         refine ⟨⟨?_, ?_, ?_⟩, ?_⟩
         · simp_all [teardown, erase_and_signal, install, register, script_close, rearm_stdin]
         · intro j hj
           revert hj
           simp [teardown, erase_and_signal, install, register, script_close, rearm_stdin]
           try (split_ifs <;> simp_all)
         · simp_all [teardown, erase_and_signal, install, register, script_close, rearm_stdin]
         · simp_all [written_on, teardown, erase_and_signal, install, register, script_close, rearm_stdin])
      | (simp only [Outcome.cont.injEq] at hs
         obtain ⟨rfl, rfl⟩ := hs
         unfold Appends
         refine ⟨⟨?_, ?_, ?_⟩, ?_⟩
         · simp_all [teardown, erase_and_signal, install, register, script_close, rearm_stdin]
         · intro j hj
           revert hj
           simp [teardown, erase_and_signal, install, register, script_close, rearm_stdin]
           try (split_ifs <;> simp_all)
         · simp_all [teardown, erase_and_signal, install, register, script_close, rearm_stdin]
         · simp_all [written_on, teardown, erase_and_signal, install, register, script_close, rearm_stdin])

theorem app_write_stdout {E : Env} {s s' : Loop} {eff : List Effect} (io : Sys) (i : Int)
    (hm : (s.fd2state E.master).state = STATE_PTY) (hne : E.master ≠ i) (h1 : E.master ≠ 1)
    (hs : write_stdout io i s = Outcome.cont s' eff) :
    Appends E s s' ∧ written_on E.master io eff = [] := by
  have hne' : i ≠ E.master := fun hh => hne hh.symm
  have h1' : (1 : Int) ≠ E.master := fun hh => h1 hh.symm
  unfold write_stdout at hs
  try simp only at hs
  repeat' split at hs
  all_goals
    first
    | (cases hs; done)
    | skip
  all_goals
    simp only [Outcome.cont.injEq] at hs
    obtain ⟨rfl, rfl⟩ := hs
    unfold Appends
    refine ⟨⟨?_, ?_, ?_⟩, ?_⟩
    · simp_all [fd2state_upd_pfd]
    · intro j hj
      revert hj
      simp [fd2state_upd_pfd]
      try (split_ifs <;> simp_all)
    · simp_all [fd2state_upd_pfd]
    · simp_all [written_on, fd2state_upd_pfd]

theorem app_write_tunnel {E : Env} {s s' : Loop} {eff : List Effect} (now : Int) (io : Sys) (i : Int)
    (hm : (s.fd2state E.master).state = STATE_PTY) (hne : E.master ≠ i) (h1 : E.master ≠ 1)
    (hs : write_tunnel E now io i s = Outcome.cont s' eff) :
    Appends E s s' ∧ written_on E.master io eff = [] := by
  have hne' : i ≠ E.master := fun hh => hne hh.symm
  have h1' : (1 : Int) ≠ E.master := fun hh => h1 hh.symm
  unfold write_tunnel at hs
  try simp only at hs
  repeat' split at hs
  all_goals
    first
    | (cases hs; done)
    | skip
  all_goals
    simp only [Outcome.cont.injEq] at hs
    obtain ⟨rfl, rfl⟩ := hs
    unfold Appends
    refine ⟨⟨?_, ?_, ?_⟩, ?_⟩
    · simp_all [teardown, erase_and_signal]
    · intro j hj
      revert hj
      simp [teardown, erase_and_signal]
      try (split_ifs <;> simp_all)
    · simp_all [teardown, erase_and_signal]
    · simp_all [written_on, teardown, erase_and_signal]

theorem app_write_udpserver {E : Env} {s s' : Loop} {eff : List Effect} (now : Int) (io : Sys) (i : Int)
    (hm : (s.fd2state E.master).state = STATE_PTY) (hne : E.master ≠ i) (h1 : E.master ≠ 1)
    (hs : write_udpserver now io i s = Outcome.cont s' eff) :
    Appends E s s' ∧ written_on E.master io eff = [] := by
  have hne' : i ≠ E.master := fun hh => hne hh.symm
  have h1' : (1 : Int) ≠ E.master := fun hh => h1 hh.symm
  unfold write_udpserver at hs
  try simp only at hs
  repeat' split at hs
  all_goals
    first
    | (cases hs; done)
    | skip
  all_goals
    simp only [Outcome.cont.injEq] at hs
    obtain ⟨rfl, rfl⟩ := hs
    unfold Appends
    refine ⟨⟨?_, ?_, ?_⟩, ?_⟩
    · simp_all [fd2state_upd_pfd]
    · intro j hj
      revert hj
      simp [fd2state_upd_pfd]
      try (split_ifs <;> simp_all)
    · simp_all [fd2state_upd_pfd]
    · simp_all [written_on, fd2state_upd_pfd]

theorem app_write_script {E : Env} {s s' : Loop} {eff : List Effect} (now : Int) (io : Sys) (i : Int)
    (hm : (s.fd2state E.master).state = STATE_PTY) (hne : E.master ≠ i) (h1 : E.master ≠ 1)
    (hs : write_script E now io i s = Outcome.cont s' eff) :
    Appends E s s' ∧ written_on E.master io eff = [] := by
  have hne' : i ≠ E.master := fun hh => hne hh.symm
  have h1' : (1 : Int) ≠ E.master := fun hh => h1 hh.symm
  unfold write_script at hs
  try simp only at hs
  repeat' split at hs
  all_goals
    first
    | (cases hs; done)
    | skip
  all_goals
    simp only [Outcome.cont.injEq] at hs
    obtain ⟨rfl, rfl⟩ := hs
    unfold Appends
    refine ⟨⟨?_, ?_, ?_⟩, ?_⟩
    · simp_all [teardown, script_close, rearm_stdin]
    · intro j hj
      revert hj
      simp [teardown, script_close, rearm_stdin]
      try (split_ifs <;> simp_all)
    · simp_all [teardown, script_close, rearm_stdin]
    · simp_all [written_on, teardown, script_close, rearm_stdin]

theorem app_write_ready {E : Env} (hP : PtyOK E) {s s' : Loop} {eff : List Effect}
    (now : Int) (io : Sys) (i : Int) (hm : (s.fd2state E.master).state = STATE_PTY)
    (hu : ∀ j, (s.fd2state j).state = STATE_PTY → j = E.master)
    (hs : write_ready E now io i s = Outcome.cont s' eff) :
    ((s'.fd2state E.master).state = STATE_PTY ∧
      ∀ j, (s'.fd2state j).state = STATE_PTY → (s.fd2state j).state = STATE_PTY) ∧
    ∃ g, written_on E.master io eff ++ (s'.fd2state E.master).obuf
      = (s.fd2state E.master).obuf ++ g := by
  obtain ⟨hw, h1, _⟩ := hP
  have key : ∀ {t : Loop}, (t.fd2state = s.fd2state) → Appends E t s' ∧ written_on E.master io eff = [] →
      ((s'.fd2state E.master).state = STATE_PTY ∧
        ∀ j, (s'.fd2state j).state = STATE_PTY → (s.fd2state j).state = STATE_PTY) ∧
      ∃ g, written_on E.master io eff ++ (s'.fd2state E.master).obuf
        = (s.fd2state E.master).obuf ++ g := by
    intro t ht hh
    obtain ⟨⟨a, b, g, c⟩, d⟩ := hh
    rw [ht] at b c
    exact ⟨⟨a, b⟩, g, by rw [d, c]; rfl⟩
  unfold write_ready at hs
  simp only [fd2state_upd_pfd] at hs
  cases hr : (s.fd2state i).state <;> simp only [hr] at hs
  case STATE_PTY =>
    have him : i = E.master := hu i hr
    subst him
    unfold write_pty at hs
    simp only at hs
    split at hs
    · split at hs
      · simp only [Outcome.cont.injEq] at hs
        obtain ⟨rfl, rfl⟩ := hs
        have hz : io.r.toNat = 0 := by omega
        refine ⟨⟨hm, fun _ h => h⟩, [], ?_⟩
        simp [written_on, hw, hz]
      · cases hs
    · simp only [Outcome.cont.injEq] at hs
      obtain ⟨rfl, rfl⟩ := hs
      refine ⟨⟨?_, ?_⟩, [], ?_⟩
      · simpa using hm
      · intro j hj
        revert hj
        simp
        try (split_ifs <;> simp_all)
      · simp [written_on, hw]
  all_goals
    have hne : E.master ≠ i := by
      intro hh; rw [← hh, hm] at hr; exact absurd hr (by decide)
  case STATE_STDOUT => exact key rfl (@app_write_stdout E (s.upd_pfd i (fun p => { p with revents := 0 })) s' eff io i hm hne h1 hs)
  case STATE_CONNECT => exact key rfl (@app_write_tunnel E (s.upd_pfd i (fun p => { p with revents := 0 })) s' eff now io i hm hne h1 hs)
  case STATE_SOCKS5_AUTH2 => exact key rfl (@app_write_tunnel E (s.upd_pfd i (fun p => { p with revents := 0 })) s' eff now io i hm hne h1 hs)
  case STATE_CONNECTED => exact key rfl (@app_write_tunnel E (s.upd_pfd i (fun p => { p with revents := 0 })) s' eff now io i hm hne h1 hs)
  case STATE_UDPSERVER => exact key rfl (@app_write_udpserver E (s.upd_pfd i (fun p => { p with revents := 0 })) s' eff now io i hm hne h1 hs)
  case STATE_SCRIPT_IO => exact key rfl (@app_write_script E (s.upd_pfd i (fun p => { p with revents := 0 })) s' eff now io i hm hne h1 hs)
  all_goals
    simp only [Outcome.cont.injEq] at hs
    obtain ⟨rfl, rfl⟩ := hs
    refine ⟨⟨?_, ?_⟩, [], ?_⟩
    · simpa using hm
    · intro j hj
      revert hj
      simp
    · simp [written_on]

theorem queued_eq {E : Env} {s s' : Loop} {w g : List Nat}
    (h : w ++ (s'.fd2state E.master).obuf = (s.fd2state E.master).obuf ++ g) :
    queued E s s' w = g := by
  unfold queued
  rw [h, List.drop_left]

/-- The law of the PTY queue for one pass of the body. -/
theorem pty_step_law {E : Env} (hP : PtyOK E) {s s' : Loop} {eff : List Effect}
    (now : Int) (io : Sys) (i : Int) (ho : Owned s)
    (hm : (s.fd2state E.master).state = STATE_PTY)
    (hu : ∀ j, (s.fd2state j).state = STATE_PTY → j = E.master) (hok : StepOK s io i)
    (hs : step E now io i s = Outcome.cont s' eff) :
    ((s'.fd2state E.master).state = STATE_PTY ∧
      ∀ j, (s'.fd2state j).state = STATE_PTY → (s.fd2state j).state = STATE_PTY) ∧
    ∃ g, written_on E.master io eff ++ (s'.fd2state E.master).obuf
      = (s.fd2state E.master).obuf ++ g := by
  have key : Appends E s s' ∧ written_on E.master io eff = [] →
      ((s'.fd2state E.master).state = STATE_PTY ∧
        ∀ j, (s'.fd2state j).state = STATE_PTY → (s.fd2state j).state = STATE_PTY) ∧
      ∃ g, written_on E.master io eff ++ (s'.fd2state E.master).obuf
        = (s.fd2state E.master).obuf ++ g := by
    intro hh
    obtain ⟨⟨a, b, g, c⟩, d⟩ := hh
    exact ⟨⟨a, b⟩, g, by rw [d, c]; rfl⟩
  unfold step at hs
  split at hs
  · simp only [Outcome.cont.injEq] at hs
    obtain ⟨rfl, rfl⟩ := hs
    exact key ⟨Appends.refl hm, rfl⟩
  · split at hs
    · rename_i hto
      have hi : (s.fd2state i).state ≠ STATE_PTY := by
        intro hh
        unfold timed_out at hto
        rw [hh] at hto
        simp at hto
      exact key (app_timeout_close io i hm hi hs)
    · split at hs
      · exact key (app_hangup_close io i hm hs)
      · split at hs
        · exact key (app_read_ready hP now io i ho hm hok hs)
        · split at hs
          · exact app_write_ready hP now io i hm hu hs
          · simp only [Outcome.cont.injEq] at hs
            obtain ⟨rfl, rfl⟩ := hs
            exact key ⟨Appends.refl hm, rfl⟩

theorem pty_winsize {E : Env} {s : Loop} (hm : (s.fd2state E.master).state = STATE_PTY) :
    Appends E s (winsize_step E s) := by
  unfold winsize_step
  split
  · refine ⟨?_, ?_, ?_⟩
    · simpa using hm
    · intro j hj
      revert hj
      simp
    · simp
  · exact Appends.refl hm

theorem run_law {E : Env} (hP : PtyOK E) {s t : Loop} {w : List Nat} {fs : List (List Nat)}
    (ho : Owned s) (hm : (s.fd2state E.master).state = STATE_PTY)
    (hu : ∀ j, (s.fd2state j).state = STATE_PTY → j = E.master) (h : Run E s w fs t) :
    (Owned t ∧ (t.fd2state E.master).state = STATE_PTY ∧
      ∀ j, (t.fd2state j).state = STATE_PTY → j = E.master) ∧
    w ++ (t.fd2state E.master).obuf = (s.fd2state E.master).obuf ++ fs.flatten := by
  induction h with
  | start => exact ⟨⟨ho, hm, hu⟩, by simp⟩
  | @winsize t0 w0 fs0 _ ih =>
    obtain ⟨⟨o, m, u⟩, e⟩ := ih
    obtain ⟨a, b, g, c⟩ := pty_winsize m
    refine ⟨⟨own_winsize o, a, fun j hj => u j (b j hj)⟩, ?_⟩
    have hq : queued E t0 (winsize_step E t0) [] = g := queued_eq (by simpa using c)
    rw [hq, c, ← List.append_assoc, e]
    simp
  | poll rev _ ih => exact ih
  | @body t0 t1 w0 fs0 eff now io i _ hok hs ih =>
    obtain ⟨⟨o, m, u⟩, e⟩ := ih
    obtain ⟨⟨a, b⟩, g, c⟩ := pty_step_law hP now io i o m u hok hs
    refine ⟨⟨own_step hP.2.2.1 now io i o (fun h0 => (hok.2.2 h0).2) hs, a,
      fun j hj => u j (b j hj)⟩, ?_⟩
    rw [hP.1]
    have hq : queued E t0 t1 (written_on E.master io eff) = g := queued_eq c
    rw [hq, List.append_assoc, c, ← List.append_assoc, e]
    simp


theorem apply_appends {E : Env} (c : Cmd) {s : Loop} (h : Owned s)
    (hm : (s.fd2state E.master).state = STATE_PTY) : Appends E s (apply_cmd c s) := by
  have hne : ∀ k fd, s.tcp_nodes2sock k = some fd → E.master ≠ fd := by
    intro k fd hk hh
    obtain ⟨a, _⟩ := h k fd hk
    rw [← hh, hm] at a
    rcases a with a | a <;> exact absurd a (by decide)
  cases c with
  | confirm k =>
    unfold apply_cmd
    simp only
    cases hk : s.tcp_nodes2sock k with
    | none => exact Appends.refl hm
    | some fd =>
      have := hne k fd hk
      refine ⟨?_, ?_, [], ?_⟩
      · simp [this, hm]
      · intro j hj
        revert hj
        simp
        split_ifs <;> simp
      · simp [this]
  | finish k =>
    unfold apply_cmd
    simp only
    cases hk : s.tcp_nodes2sock k with
    | none => exact Appends.refl hm
    | some fd =>
      have := hne k fd hk
      refine ⟨?_, ?_, [], ?_⟩
      · simp [this, hm]
      · intro j hj
        revert hj
        simp
        split_ifs <;> simp
      · simp [this]
  | data k b =>
    unfold apply_cmd
    simp only
    cases hk : s.tcp_nodes2sock k with
    | none => exact Appends.refl hm
    | some fd =>
      have := hne k fd hk
      refine ⟨?_, ?_, [], ?_⟩
      · simp [hm]
      · intro j hj
        simpa using hj
      · simp [this]
  | dgram k p b =>
    unfold apply_cmd
    simp only
    cases hk : s.udp_nodes2sock k with
    | none => exact Appends.refl hm
    | some fd =>
      refine ⟨?_, ?_, [], ?_⟩
      · simp only [fd2state_arm, role_upd_state]
        split_ifs with hf
        · rw [← hf]; exact hm
        · exact hm
      · intro j hj
        simp only [fd2state_arm, role_upd_state] at hj
        split_ifs at hj with hf
        · rw [hf]; exact hj
        · exact hj
      · simp only [fd2state_arm, obuf_upd_state, List.append_nil]
        split_ifs with hf
        · rw [hf]
        · rfl

theorem demoPeer_owned (cmd : List Nat) (s : Loop) (h : Owned s) :
    Owned (run_cmd_handler demoPeer cmd s) := by
  have : Owned (demoDispatch cmd s) := by
    unfold demoDispatch
    split
    · exact apply_owned _ h
    · exact h
  exact this

theorem demoPeer_pty : PtyOK demoPeer := by
  refine ⟨rfl, by decide, demoPeer_owned, ?_⟩
  intro cmd s h hm
  have : Appends demoPeer s (demoDispatch cmd s) := by
    unfold demoDispatch
    split
    · exact apply_appends _ h hm
    · exact Appends.refl hm
  exact this

theorem demoInit_owned : Owned demoInit := by
  intro k fd hk
  have : demoInit.tcp_nodes2sock k = none := by
    unfold demoInit init_loop add_listener
    simp
  rw [this] at hk
  exact absurd hk (by simp)

theorem demoInit_pty : ∀ j, (demoInit.fd2state j).state = STATE_PTY → j = demoPeer.master := by
  intro j hj
  by_contra hne
  have h3 : j ≠ 3 := hne
  revert hj
  unfold demoInit init_loop add_listener
  simp [h3]
  split_ifs <;> simp

/-- C15: bytes read on stdin (or on the script connection) reach the PTY in order. (1) A read
of `r > 0` bytes on a descriptor in role STDIN or SCRIPT_IO appends exactly the encoded `D:0:`
record of these bytes at the end of the PTY `obuf`. (2) With the collaborators as in `PtyOK`,
the PTY master the only descriptor in role PTY and every key naming a live session, for every
pass of the body that goes on, the bytes it wrote to the PTY followed by the PTY `obuf`
afterwards are the PTY `obuf` before followed by what the pass queued, so a pass that wrote
nothing to the PTY only appends. (3) A write on the PTY master that returned `r > 0` offers
the whole `obuf` and removes exactly its first `r` bytes. (4) Hence, under the conditions of
(2), for every run from such a state the bytes written to the PTY followed by the PTY `obuf`
at the end are the PTY `obuf` at the start followed by what the moves of the run queued, in
the order of the moves. -/
theorem C15_pty_queue_fifo (E : Env) :
    (∀ (now : Int) (io : Sys) (i : Int) (s : Loop),
      ((s.fd2state i).state = STATE_STDIN ∨ (s.fd2state i).state = STATE_SCRIPT_IO) →
      (s.pfds i).revents &&& (POLLERR ||| POLLHUP ||| POLLNVAL) = 0 →
      (s.pfds i).revents &&& POLLIN ≠ 0 → 0 < io.r →
      ∃ s', step E now io i s = Outcome.cont s' [] ∧
        (s'.fd2state E.master).obuf = (s.fd2state E.master).obuf ++
          E.possibly_b64encrypt "D:0:" (string_of io.data io.r) ∧
        queued E s s' [] = E.possibly_b64encrypt "D:0:" (string_of io.data io.r)) ∧
    (PtyOK E → ∀ (s : Loop), Owned s → (s.fd2state E.master).state = STATE_PTY →
      (∀ j, (s.fd2state j).state = STATE_PTY → j = E.master) →
      ∀ (now : Int) (io : Sys) (i : Int) (s' : Loop) (eff : List Effect),
        StepOK s io i → step E now io i s = Outcome.cont s' eff →
        written_on E.w_fileno io eff ++ (s'.fd2state E.master).obuf =
          (s.fd2state E.master).obuf ++ queued E s s' (written_on E.w_fileno io eff) ∧
        (written_on E.w_fileno io eff = [] →
          (s'.fd2state E.master).obuf = (s.fd2state E.master).obuf ++ queued E s s' [])) ∧
    (∀ (now : Int) (io : Sys) (s : Loop), (s.fd2state E.master).state = STATE_PTY →
      (s.pfds E.master).revents &&& (POLLERR ||| POLLHUP ||| POLLNVAL) = 0 →
      (s.pfds E.master).revents &&& POLLIN = 0 → (s.pfds E.master).revents &&& POLLOUT ≠ 0 →
      0 < io.r →
      ∃ s', step E now io E.master s =
          Outcome.cont s' [Effect.write E.w_fileno (s.fd2state E.master).obuf] ∧
        written_on E.w_fileno io [Effect.write E.w_fileno (s.fd2state E.master).obuf] =
          (s.fd2state E.master).obuf.take io.r.toNat ∧
        (s'.fd2state E.master).obuf = (s.fd2state E.master).obuf.drop io.r.toNat) ∧
    (PtyOK E → ∀ (s : Loop), Owned s → (s.fd2state E.master).state = STATE_PTY →
      (∀ j, (s.fd2state j).state = STATE_PTY → j = E.master) →
      ∀ (w : List Nat) (fs : List (List Nat)) (t : Loop), Run E s w fs t →
        w ++ (t.fd2state E.master).obuf = (s.fd2state E.master).obuf ++ fs.flatten) := by
  refine ⟨?_, ?_, ?_, ?_⟩
  · intro now io i s hi herr hin hr
    have hinv : (s.fd2state i).state ≠ STATE_INVALID := by
      rcases hi with hi | hi <;> rw [hi] <;> decide
    have hto : ¬ timed_out E now (s.fd2state i) := by
      unfold timed_out
      rcases hi with hi | hi <;> rw [hi] <;> simp
    rw [step_read E now io i s hinv hto herr hin]
    have hr' : ¬ io.r ≤ 0 := by omega
    unfold read_ready
    simp only [fd2state_upd_pfd]
    rcases hi with hi | hi
    · simp only [hi]
      unfold read_stdin
      rw [if_neg hr']
      refine ⟨_, rfl, ?_, ?_⟩
      · simp
      · apply queued_eq; simp
    · simp only [hi]
      unfold read_script
      rw [if_neg hr']
      refine ⟨_, rfl, ?_, ?_⟩
      · simp
      · apply queued_eq; simp
  · intro hP s ho hm hu now io i s' eff hok hs
    obtain ⟨_, g, c⟩ := pty_step_law hP now io i ho hm hu hok hs
    rw [hP.1]
    have hq : queued E s s' (written_on E.master io eff) = g := queued_eq c
    refine ⟨by rw [hq, c], fun hw => ?_⟩
    rw [hw] at hq c
    rw [hq]
    simpa using c
  · intro now io s hm herr hin hout hr
    have hinv : (s.fd2state E.master).state ≠ STATE_INVALID := by rw [hm]; decide
    have hto : ¬ timed_out E now (s.fd2state E.master) := by
      unfold timed_out; rw [hm]; simp
    rw [step_write E now io E.master s hinv hto herr hin hout]
    have hr' : ¬ io.r ≤ 0 := by omega
    unfold write_ready
    simp only [fd2state_upd_pfd, hm]
    unfold write_pty
    simp only [fd2state_upd_pfd]
    rw [if_neg hr']
    refine ⟨_, rfl, ?_, ?_⟩
    · simp [written_on]
    · simp
  · intro hP s ho hm hu w fs t hrun
    exact (run_law hP ho hm hu hrun).2

/-- C15 on a worked run from the start state, with a dispatcher that obeys the remote side: a
TCP client is accepted on descriptor 8, the remote side confirms the connect and the
dispatcher makes the session CONNECTED, `ls` is read on stdin, the PTY master takes 20 bytes.
The 20 bytes written are the `C:T:N:` record, queued first, and the `D:0:` record is what is
left. -/
theorem C15_pty_queue_fifo_witness :
    ∃ (w : List Nat) (fs : List (List Nat)) (t : Loop), Run demoPeer demoInit w fs t ∧
      (t.fd2state 8).state = STATE_CONNECTED ∧
      fs = [bytes "C:T:N:10.0.0.1/22/8/", [], bytes "D:0:ls\n", []] ∧
      w = bytes "C:T:N:10.0.0.1/22/8/" ∧
      w ++ (t.fd2state 3).obuf = bytes "C:T:N:10.0.0.1/22/8/D:0:ls\n" := by
  have r1 : Run demoPeer demoInit _ _ _ :=
    Run.body 100 { afd := 8 } 5 (Run.poll (ready 5 POLLIN) Run.start)
      (by unfold StepOK; decide) rfl
  have r2 : Run demoPeer demoInit _ _ _ :=
    Run.body 101 { reads := [{ r := 0, ext_cmd := bytes "C:T:C:10.0.0.1/22/8/" }] } 3
      (Run.poll (ready 3 POLLIN) r1) (by unfold StepOK; decide) rfl
  have r3 : Run demoPeer demoInit _ _ _ :=
    Run.body 102 { r := 3, data := bytes "ls\n" } 0 (Run.poll (ready 0 POLLIN) r2)
      (by unfold StepOK; decide) rfl
  have r4 : Run demoPeer demoInit _ _ _ :=
    Run.body 103 { r := 20 } 3 (Run.poll (ready 3 POLLOUT) r3) (by unfold StepOK; decide) rfl
  have h := (C15_pty_queue_fifo demoPeer).2.2.2 demoPeer_pty demoInit demoInit_owned
    (by decide) demoInit_pty _ _ _ r4
  refine ⟨_, _, _, r4, by decide, by decide, by decide, ?_⟩
  exact h.trans (by decide)

/-! ## The reply queues of the UDP listeners -/

@[simp] theorem ulports_upd_state (s : Loop) (i : Int) (f : state → state) (j : Int) :
    ((s.upd_state i f).fd2state j).ulports =
      if j = i then (f (s.fd2state i)).ulports else (s.fd2state j).ulports := by
  simp only [Loop.upd_state, Function.update_apply]; split <;> rfl

@[simp] theorem odgrams_append_obuf (s : Loop) (i : Int) (x : List Nat) (j : Int) :
    ((s.append_obuf i x).fd2state j).odgrams = (s.fd2state j).odgrams := by
  unfold Loop.append_obuf; rw [odgrams_upd_state]; split
  · next h => subst h; rfl
  · rfl

@[simp] theorem ulports_append_obuf (s : Loop) (i : Int) (x : List Nat) (j : Int) :
    ((s.append_obuf i x).fd2state j).ulports = (s.fd2state j).ulports := by
  unfold Loop.append_obuf; rw [ulports_upd_state]; split
  · next h => subst h; rfl
  · rfl

@[simp] theorem odgrams_erase_obuf (s : Loop) (i : Int) (r : Int) (j : Int) :
    ((s.erase_obuf i r).fd2state j).odgrams = (s.fd2state j).odgrams := by
  unfold Loop.erase_obuf; rw [odgrams_upd_state]; split
  · next h => subst h; rfl
  · rfl

@[simp] theorem ulports_erase_obuf (s : Loop) (i : Int) (r : Int) (j : Int) :
    ((s.erase_obuf i r).fd2state j).ulports = (s.fd2state j).ulports := by
  unfold Loop.erase_obuf; rw [ulports_upd_state]; split
  · next h => subst h; rfl
  · rfl

theorem lock_timeout_close {E : Env} {s s' : Loop} {eff : List Effect} (i : Int)
    (h : Lockstep s) (hs : timeout_close E i s = Outcome.cont s' eff) : Lockstep s' := by
  unfold timeout_close at hs
  simp only [Outcome.cont.injEq] at hs
  obtain ⟨rfl, _⟩ := hs
  intro j
  have hj := h j
  have hi := h i
  split_ifs <;> simp [signal_finished] <;> split_ifs <;> simp_all

theorem lock_hangup_close {E : Env} {s s' : Loop} {eff : List Effect} (i : Int)
    (h : Lockstep s) (hs : hangup_close E i s = Outcome.cont s' eff) : Lockstep s' := by
  unfold hangup_close at hs
  split at hs
  · cases hs
  · simp only [Outcome.cont.injEq] at hs
    obtain ⟨rfl, _⟩ := hs
    intro j
    have hj := h j
    have hi := h i
    split_ifs <;> simp [signal_finished, rearm_stdin] <;> split_ifs <;> simp_all

theorem lock_render {s : Loop} (now : Int) (tbuf : List Nat) (h : Lockstep s) :
    Lockstep (render now tbuf s) := by
  unfold render
  intro j
  have hj := h j
  have h1 := h 1
  have hf := h s.script_fd
  simp only
  split <;> simp <;> split_ifs <;> simp_all

theorem lock_read_pty {E : Env}
    (hE : ∀ cmd t, Lockstep t → Lockstep (run_cmd_handler E cmd t)) (now : Int)
    (reads : List PscRead) :
    ∀ {s s' : Loop} {eff : List Effect}, Lockstep s →
      read_pty E now reads s = Outcome.cont s' eff → Lockstep s' := by
  induction reads with
  | nil => intro s s' eff _ hs; cases hs
  | cons rd rest ih =>
    intro s s' eff h hs
    unfold read_pty at hs
    split at hs
    · cases hs
    · have h1 : Lockstep (if rd.starttls = 1 then { s with winsize_changed := true }
          else if rd.ext_cmd.length > 0 then run_cmd_handler E rd.ext_cmd s
          else if rd.tbuf.length > 0 then render now rd.tbuf s
          else s) := by
        split
        · exact h
        · split
          · exact hE _ _ h
          · split
            · exact lock_render now _ h
            · exact h
      simp only at hs
      split at hs
      · exact ih h1 hs
      · simp only [Outcome.cont.injEq] at hs
        obtain ⟨rfl, _⟩ := hs
        exact h1

theorem lock_read_ready {E : Env}
    (hE : ∀ cmd t, Lockstep t → Lockstep (run_cmd_handler E cmd t)) {s s' : Loop}
    {eff : List Effect} (now : Int) (io : Sys) (i : Int) (h : Lockstep s)
    (hs : read_ready E now io i s = Outcome.cont s' eff) : Lockstep s' := by
  unfold read_ready at hs
  simp only [fd2state_upd_pfd] at hs
  cases hr : (s.fd2state i).state <;> simp only [hr] at hs
  case STATE_PTY =>
    exact lock_read_pty hE now io.reads
      (show Lockstep (s.upd_pfd i (fun p => { p with revents := 0 })) from h) hs
  all_goals
    first
    | (unfold read_stdin at hs)
    | (unfold read_accept at hs)
    | (unfold read_socks5_accept at hs)
    | (unfold read_socks4_accept at hs)
    | (unfold read_connected at hs)
    | (unfold read_socks4_auth at hs)
    | (unfold read_socks5_auth1 at hs)
    | (unfold read_socks5_auth2 at hs)
    | (unfold read_udpserver at hs)
    | (unfold read_script_accept at hs)
    | (unfold read_script at hs)
    | skip
    try simp only at hs
    repeat' split at hs
    all_goals
      first
      | (cases hs; done)
      | (simp only [Outcome.cont.injEq] at hs
         obtain ⟨rfl, _⟩ := hs
         intro j
         have hj := h j
         have hi := h i
         have ha := h io.afd
         first
         | (simp [teardown, erase_and_signal, install, register, script_close, rearm_stdin]
            exact hj)
         | (simp [teardown, erase_and_signal, install, register, script_close, rearm_stdin]
            split_ifs <;> simp_all))

theorem lock_write_ready {E : Env} {s s' : Loop} {eff : List Effect} (now : Int) (io : Sys)
    (i : Int) (h : Lockstep s) (hs : write_ready E now io i s = Outcome.cont s' eff) :
    Lockstep s' := by
  unfold write_ready at hs
  simp only [fd2state_upd_pfd] at hs
  cases hr : (s.fd2state i).state <;> simp only [hr] at hs
  all_goals
    first
    | (unfold write_stdout at hs)
    | (unfold write_pty at hs)
    | (unfold write_tunnel at hs)
    | (unfold write_udpserver at hs)
    | (unfold write_script at hs)
    | skip
    try simp only at hs
    repeat' split at hs
    all_goals
      first
      | (cases hs; done)
      | (simp only [Outcome.cont.injEq] at hs
         obtain ⟨rfl, _⟩ := hs
         intro j
         have hj := h j
         have hi := h i
         first
         | (simp [teardown, erase_and_signal, script_close, rearm_stdin]
            exact hj)
         | (simp [teardown, erase_and_signal, script_close, rearm_stdin]
            split_ifs <;> simp_all))

/-- Every pass of the body keeps the two queues of every descriptor equally long. -/
theorem lock_step {E : Env}
    (hE : ∀ cmd t, Lockstep t → Lockstep (run_cmd_handler E cmd t)) {s s' : Loop}
    {eff : List Effect} (now : Int) (io : Sys) (i : Int) (h : Lockstep s)
    (hs : step E now io i s = Outcome.cont s' eff) : Lockstep s' := by
  unfold step at hs
  split at hs
  · simp only [Outcome.cont.injEq] at hs
    obtain ⟨rfl, _⟩ := hs
    exact h
  · split at hs
    · exact lock_timeout_close i h hs
    · split at hs
      · exact lock_hangup_close i h hs
      · split at hs
        · exact lock_read_ready hE now io i h hs
        · split at hs
          · exact lock_write_ready now io i h hs
          · simp only [Outcome.cont.injEq] at hs
            obtain ⟨rfl, _⟩ := hs
            exact h

/-- C21: a write-ready pass on a UDPSERVER descriptor whose `odgrams` is not empty and as long
as its `ulports` offers the head datagram to sendto on that descriptor, for the address
127.0.0.1 of `lsin` and with the head of `ulports` as `sin_port`, unchanged. If sendto returns
a positive count the pass removes exactly the head of `odgrams` and the head of `ulports`; if
sendto returns 0 or less the pass leaves both queues as they are; the queues of every other
descriptor stay as they are. Hence, with a dispatcher that keeps them so, the two queues of
every descriptor are equally long after every pass of the body, after the window-size step and
after poll, if they were before. -/
theorem C21_udp_queues_lockstep (E : Env) (now : Int) (io : Sys) (i : Int) (s : Loop)
    (d : List Nat) (ds : List (List Nat))
    (hi : (s.fd2state i).state = STATE_UDPSERVER) (hd : (s.fd2state i).odgrams = d :: ds)
    (hlen : (s.fd2state i).odgrams.length = (s.fd2state i).ulports.length)
    (herr : (s.pfds i).revents &&& (POLLERR ||| POLLHUP ||| POLLNVAL) = 0)
    (hin : (s.pfds i).revents &&& POLLIN = 0) (hout : (s.pfds i).revents &&& POLLOUT ≠ 0) :
    (∃ (p : Nat) (ps : List Nat), (s.fd2state i).ulports = p :: ps ∧
      (0 < io.r → ∃ s', step E now io i s = Outcome.cont s' [Effect.sendto i d lsin_addr p] ∧
        (s'.fd2state i).odgrams = ds ∧ (s'.fd2state i).ulports = ps ∧
        ∀ j, j ≠ i → (s'.fd2state j).odgrams = (s.fd2state j).odgrams ∧
          (s'.fd2state j).ulports = (s.fd2state j).ulports) ∧
      (io.r ≤ 0 → ∃ s', step E now io i s = Outcome.cont s' [Effect.sendto i d lsin_addr p] ∧
        ∀ j, (s'.fd2state j).odgrams = (s.fd2state j).odgrams ∧
          (s'.fd2state j).ulports = (s.fd2state j).ulports)) ∧
    ((∀ cmd t, Lockstep t → Lockstep (run_cmd_handler E cmd t)) →
      ∀ (t : Loop), Lockstep t →
        (∀ (now' : Int) (io' : Sys) (k : Int) (t' : Loop) (eff : List Effect),
          step E now' io' k t = Outcome.cont t' eff → Lockstep t') ∧
        Lockstep (winsize_step E t) ∧ ∀ rev, Lockstep (polled rev t)) := by
  refine ⟨?_, ?_⟩
  · obtain ⟨p, ps, hp⟩ : ∃ p ps, (s.fd2state i).ulports = p :: ps := by
      cases hu : (s.fd2state i).ulports with
      | nil => rw [hd, hu] at hlen; simp at hlen
      | cons p ps => exact ⟨p, ps, rfl⟩
    have hinv : (s.fd2state i).state ≠ STATE_INVALID := by rw [hi]; decide
    have hto : ¬ timed_out E now (s.fd2state i) := by
      unfold timed_out; rw [hi]; simp
    refine ⟨p, ps, hp, ?_, ?_⟩
    · intro hr
      have hr' : ¬ io.r ≤ 0 := by omega
      rw [step_write E now io i s hinv hto herr hin hout]
      unfold write_ready
      simp only [fd2state_upd_pfd, hi]
      unfold write_udpserver
      simp only [fd2state_upd_pfd, hd, hp, List.headD_cons]
      rw [if_neg hr']
      refine ⟨_, rfl, ?_, ?_, ?_⟩
      · simp [hd]
      · simp [hp]
      · intro j hj
        simp [hj]
    · intro hr
      rw [step_write E now io i s hinv hto herr hin hout]
      unfold write_ready
      simp only [fd2state_upd_pfd, hi]
      unfold write_udpserver
      simp only [fd2state_upd_pfd, hd, hp, List.headD_cons]
      rw [if_pos hr]
      exact ⟨_, rfl, fun j => ⟨rfl, rfl⟩⟩
  · intro hE t ht
    refine ⟨fun now' io' k t' eff hs => lock_step hE now' io' k ht hs, ?_, fun rev => ht⟩
    unfold winsize_step
    split
    · intro j
      have hj := ht j
      simpa using hj
    · exact ht

theorem demoUdpQueued_lockstep : Lockstep demoUdpQueued := by
  intro j
  unfold demoUdpQueued demoUdp init_loop add_listener
  simp
  split_ifs <;> simp

/-- C21 on a worked pass: two datagrams are queued on the UDP listener 12; sendto takes the
first, `pong`, for port 16540, and one datagram with its port is left; the queues of every
descriptor are equally long afterwards. -/
theorem C21_udp_queues_lockstep_witness :
    ∃ s', step demoEnv 100 { r := 4 } 12 (polled (ready 12 POLLOUT) demoUdpQueued)
        = Outcome.cont s' [Effect.sendto 12 (bytes "pong") [127, 0, 0, 1] 16540] ∧
      (s'.fd2state 12).odgrams = [bytes "x"] ∧ (s'.fd2state 12).ulports = [16541] ∧
      Lockstep s' := by
  obtain ⟨⟨p, ps, hp, h1, _⟩, h2⟩ := C21_udp_queues_lockstep demoEnv 100 { r := 4 } 12
    (polled (ready 12 POLLOUT) demoUdpQueued) (bytes "pong") [bytes "x"]
    (by decide) (by decide) (by decide) (by decide) (by decide) (by decide)
  have hp' : p = 16540 ∧ ps = [16541] := by
    have : (16540 :: [16541] : List Nat) = p :: ps := hp
    simp only [List.cons.injEq] at this
    exact ⟨this.1.symm, this.2.symm⟩
  obtain ⟨s', e1, e2, e3, _⟩ := h1 (by decide)
  have hl := (h2 (fun _ _ h => h) (polled (ready 12 POLLOUT) demoUdpQueued)
    demoUdpQueued_lockstep).1 100 { r := 4 } 12 s' _ e1
  rw [hp'.1] at e1
  rw [hp'.2] at e3
  exact ⟨s', e1, e2, e3, hl⟩


/-! ## Closing a descriptor -/

@[simp] theorem fd_upd_state (s : Loop) (i : Int) (f : state → state) (j : Int) :
    ((s.upd_state i f).fd2state j).fd =
      if j = i then (f (s.fd2state i)).fd else (s.fd2state j).fd := by
  simp only [Loop.upd_state, Function.update_apply]; split <;> rfl

@[simp] theorem fd_append_obuf (s : Loop) (i : Int) (x : List Nat) (j : Int) :
    ((s.append_obuf i x).fd2state j).fd = (s.fd2state j).fd := by
  unfold Loop.append_obuf; rw [fd_upd_state]; split
  · next h => subst h; rfl
  · rfl

@[simp] theorem fd_erase_obuf (s : Loop) (i : Int) (r : Int) (j : Int) :
    ((s.erase_obuf i r).fd2state j).fd = (s.fd2state j).fd := by
  unfold Loop.erase_obuf; rw [fd_upd_state]; split
  · next h => subst h; rfl
  · rfl

@[simp] theorem pfd_upd_pfd (s : Loop) (i : Int) (f : pollfd → pollfd) (j : Int) :
    ((s.upd_pfd i f).pfds j).fd = if j = i then (f (s.pfds i)).fd else (s.pfds j).fd := by
  simp only [Loop.upd_pfd, Function.update_apply]; split <;> rfl

@[simp] theorem pfd_arm (s : Loop) (i : Int) (b : Nat) (j : Int) :
    ((s.arm i b).pfds j).fd = (s.pfds j).fd := by
  unfold Loop.arm; rw [pfd_upd_pfd]; split
  · next h => subst h; rfl
  · rfl

@[simp] theorem pfd_clear_pollout (i : Int) (s : Loop) (j : Int) :
    ((clear_pollout i s).pfds j).fd = (s.pfds j).fd := by
  unfold clear_pollout
  split
  · rw [pfd_upd_pfd]; split
    · next h => subst h; rfl
    · rfl
  · rfl

theorem closed_timeout_close {E : Env} {s s' : Loop} {eff : List Effect} (i : Int)
    (hs : timeout_close E i s = Outcome.cont s' eff) : Closed i s' eff := by
  unfold timeout_close at hs
  simp only [Outcome.cont.injEq] at hs
  obtain ⟨rfl, rfl⟩ := hs
  unfold Closed
  simp

theorem closed_hangup_close {E : Env} {s s' : Loop} {eff : List Effect} (i : Int)
    (hs : hangup_close E i s = Outcome.cont s' eff) : Closed i s' eff := by
  unfold hangup_close at hs
  split at hs
  · cases hs
  · simp only [Outcome.cont.injEq] at hs
    obtain ⟨rfl, rfl⟩ := hs
    unfold Closed
    simp

theorem read_pty_eff {E : Env} (now : Int) (reads : List PscRead) :
    ∀ {s s' : Loop} {eff : List Effect}, read_pty E now reads s = Outcome.cont s' eff →
      eff = [] := by
  induction reads with
  | nil => intro s s' eff hs; cases hs
  | cons rd rest ih =>
    intro s s' eff hs
    unfold read_pty at hs
    split at hs
    · cases hs
    · simp only at hs
      split at hs
      · exact ih hs
      · simp only [Outcome.cont.injEq] at hs
        exact hs.2.symm

theorem closed_read_ready {E : Env} {s s' : Loop} {eff : List Effect} (now : Int) (io : Sys)
    (i : Int) (hs : read_ready E now io i s = Outcome.cont s' eff) : Closed i s' eff := by
  unfold read_ready at hs
  simp only [fd2state_upd_pfd] at hs
  cases hr : (s.fd2state i).state <;> simp only [hr] at hs
  case STATE_PTY =>
    have := read_pty_eff now io.reads hs
    subst this
    unfold Closed
    simp
  all_goals
    first
    | (unfold read_stdin at hs)
    | (unfold read_accept at hs)
    | (unfold read_socks5_accept at hs)
    | (unfold read_socks4_accept at hs)
    | (unfold read_connected at hs)
    | (unfold read_socks4_auth at hs)
    | (unfold read_socks5_auth1 at hs)
    | (unfold read_socks5_auth2 at hs)
    | (unfold read_udpserver at hs)
    | (unfold read_script_accept at hs)
    | (unfold read_script at hs)
    | skip
    try simp only at hs
    repeat' split at hs
    all_goals
      first
      | (cases hs; done)
      | (simp only [Outcome.cont.injEq] at hs
         obtain ⟨rfl, rfl⟩ := hs
         unfold Closed
         simp [teardown, erase_and_signal, script_close, rearm_stdin]
         done)

theorem closed_write_ready {E : Env} {s s' : Loop} {eff : List Effect} (now : Int) (io : Sys)
    (i : Int) (hs : write_ready E now io i s = Outcome.cont s' eff) : Closed i s' eff := by
  unfold write_ready at hs
  simp only [fd2state_upd_pfd] at hs
  cases hr : (s.fd2state i).state <;> simp only [hr] at hs
  all_goals
    first
    | (unfold write_stdout at hs)
    | (unfold write_pty at hs)
    | (unfold write_tunnel at hs)
    | (unfold write_udpserver at hs)
    | (unfold write_script at hs)
    | skip
    try simp only at hs
    repeat' split at hs
    all_goals
      first
      | (cases hs; done)
      | (simp only [Outcome.cont.injEq] at hs
         obtain ⟨rfl, rfl⟩ := hs
         unfold Closed
         simp [teardown, erase_and_signal, script_close, rearm_stdin]
         done)

theorem invalid_timeout_close {E : Env} {s s' : Loop} {eff : List Effect} (i j : Int)
    (hj : (s.fd2state j).state = STATE_INVALID)
    (hs : timeout_close E i s = Outcome.cont s' eff) :
    (s'.fd2state j).state = STATE_INVALID := by
  unfold timeout_close at hs
  simp only [Outcome.cont.injEq] at hs
  obtain ⟨rfl, _⟩ := hs
  split_ifs
  all_goals
    first
    | (simp [signal_finished]; done)
    | (simp [signal_finished]; intros; exact hj)
    | (simp [signal_finished]; intros; split_ifs <;> simp_all; done)
    | (simp [signal_finished]; intros; simp_all; done)

theorem invalid_hangup_close {E : Env} {s s' : Loop} {eff : List Effect} (i j : Int)
    (hj : (s.fd2state j).state = STATE_INVALID)
    (hs : hangup_close E i s = Outcome.cont s' eff) :
    (s'.fd2state j).state = STATE_INVALID := by
  unfold hangup_close at hs
  split at hs
  · cases hs
  · simp only [Outcome.cont.injEq] at hs
    obtain ⟨rfl, _⟩ := hs
    split_ifs
    all_goals
      first
      | (simp [signal_finished, rearm_stdin]; done)
      | (simp [signal_finished, rearm_stdin]; intros; exact hj)
      | (simp [signal_finished, rearm_stdin]; intros; split_ifs <;> simp_all; done)
      | (simp [signal_finished, rearm_stdin]; intros; simp_all; done)

theorem invalid_render {s : Loop} (now : Int) (tbuf : List Nat) (j : Int)
    (hj : (s.fd2state j).state = STATE_INVALID) :
    ((render now tbuf s).fd2state j).state = STATE_INVALID := by
  unfold render
  simp only
  split
  all_goals
    first
    | (simp ; done)
    | (simp ; intros; exact hj)
    | (simp ; intros; split_ifs <;> simp_all; done)
    | (simp ; intros; simp_all; done)


/-- A PTY read that delivers no command leaves INVALID records INVALID. -/
theorem invalid_read_pty_quiet {E : Env} (now : Int) (j : Int) (reads : List PscRead)
    (hq : ∀ rd ∈ reads, rd.ext_cmd = []) :
    ∀ {s s' : Loop} {eff : List Effect}, (s.fd2state j).state = STATE_INVALID →
      read_pty E now reads s = Outcome.cont s' eff → (s'.fd2state j).state = STATE_INVALID := by
  induction reads with
  | nil => intro s s' eff _ hs; cases hs
  | cons rd rest ih =>
    intro s s' eff hj hs
    unfold read_pty at hs
    split at hs
    · cases hs
    · have h1 : ((if rd.starttls = 1 then { s with winsize_changed := true }
          else if rd.ext_cmd.length > 0 then run_cmd_handler E rd.ext_cmd s
          else if rd.tbuf.length > 0 then render now rd.tbuf s
          else s).fd2state j).state = STATE_INVALID := by
        have hrd : ¬ rd.ext_cmd.length > 0 := by
          rw [hq rd (by simp)]
          simp
        rw [if_neg hrd]
        split
        · exact hj
        · split
          · exact invalid_render now _ j hj
          · exact hj
      simp only at hs
      split at hs
      · exact ih (fun r hr => hq r (List.mem_cons_of_mem _ hr)) h1 hs
      · simp only [Outcome.cont.injEq] at hs
        obtain ⟨rfl, _⟩ := hs
        exact h1

/-- A PTY read leaves INVALID records INVALID when the dispatcher does so from the states in
which every key names a live session. -/
theorem invalid_read_pty {E : Env}
    (hD : ∀ cmd t, Owned t → Owned (run_cmd_handler E cmd t) ∧
      ∀ k, (t.fd2state k).state = STATE_INVALID →
        ((run_cmd_handler E cmd t).fd2state k).state = STATE_INVALID)
    (now : Int) (j : Int) (reads : List PscRead) :
    ∀ {s s' : Loop} {eff : List Effect}, Owned s → (s.fd2state j).state = STATE_INVALID →
      read_pty E now reads s = Outcome.cont s' eff → (s'.fd2state j).state = STATE_INVALID := by
  induction reads with
  | nil => intro s s' eff _ _ hs; cases hs
  | cons rd rest ih =>
    intro s s' eff ho hj hs
    unfold read_pty at hs
    split at hs
    · cases hs
    · have h1 : Owned (if rd.starttls = 1 then { s with winsize_changed := true }
          else if rd.ext_cmd.length > 0 then run_cmd_handler E rd.ext_cmd s
          else if rd.tbuf.length > 0 then render now rd.tbuf s
          else s) ∧ ((if rd.starttls = 1 then { s with winsize_changed := true }
          else if rd.ext_cmd.length > 0 then run_cmd_handler E rd.ext_cmd s
          else if rd.tbuf.length > 0 then render now rd.tbuf s
          else s).fd2state j).state = STATE_INVALID := by
        split
        · exact ⟨ho, hj⟩
        · split
          · exact ⟨(hD _ _ ho).1, (hD _ _ ho).2 _ hj⟩
          · split
            · exact ⟨own_render now _ ho, invalid_render now _ j hj⟩
            · exact ⟨ho, hj⟩
      simp only at hs
      split at hs
      · exact ih h1.1 h1.2 hs
      · simp only [Outcome.cont.injEq] at hs
        obtain ⟨rfl, _⟩ := hs
        exact h1.2

/-- A read on a descriptor that is not the PTY master turns an INVALID record into a session
only for the descriptor that accept returned. -/
theorem invalid_read_other {E : Env}
    {s s' : Loop} {eff : List Effect} (now : Int) (io : Sys) (i j : Int)
    (hi : (s.fd2state i).state ≠ STATE_PTY)
    (hj : (s.fd2state j).state = STATE_INVALID)
    (hs : read_ready E now io i s = Outcome.cont s' eff) :
    (s'.fd2state j).state = STATE_INVALID ∨
      (j = io.afd ∧ 0 ≤ io.afd ∧ ((s.fd2state i).state = STATE_ACCEPT ∨
        (s.fd2state i).state = STATE_SOCKS5_ACCEPT ∨ (s.fd2state i).state = STATE_SOCKS4_ACCEPT ∨
        (s.fd2state i).state = STATE_SCRIPT_ACCEPT)) := by
  unfold read_ready at hs
  simp only [fd2state_upd_pfd] at hs
  cases hr : (s.fd2state i).state <;> simp only [hr] at hs
  case STATE_PTY => exact absurd hr hi
  all_goals
    first
    | (unfold read_stdin at hs)
    | (unfold read_accept at hs)
    | (unfold read_socks5_accept at hs)
    | (unfold read_socks4_accept at hs)
    | (unfold read_connected at hs)
    | (unfold read_socks4_auth at hs)
    | (unfold read_socks5_auth1 at hs)
    | (unfold read_socks5_auth2 at hs)
    | (unfold read_udpserver at hs)
    | (unfold read_script_accept at hs)
    | (unfold read_script at hs)
    | skip
    try simp only at hs
    repeat' split at hs
    all_goals
      first
      | (cases hs; done)
      | (simp only [Outcome.cont.injEq] at hs
         obtain ⟨rfl, _⟩ := hs
         left
         first
         | (simp [teardown, erase_and_signal, install, register, script_close, rearm_stdin]; done)
         | (simp [teardown, erase_and_signal, install, register, script_close, rearm_stdin]; intros; exact hj)
         | (simp [teardown, erase_and_signal, install, register, script_close, rearm_stdin]; intros; split_ifs <;> simp_all; done)
         | (simp [teardown, erase_and_signal, install, register, script_close, rearm_stdin]; intros; simp_all; done))
      | (simp only [Outcome.cont.injEq] at hs
         obtain ⟨rfl, _⟩ := hs
         have h0 : 0 ≤ io.afd := by omega
         by_cases hja : j = io.afd
         · right
           exact ⟨hja, h0, by simp⟩
         · left
           first
           | (simp [teardown, erase_and_signal, install, register, script_close, rearm_stdin, hja]; done)
           | (simp [teardown, erase_and_signal, install, register, script_close, rearm_stdin, hja]; intros; exact hj)
           | (simp [teardown, erase_and_signal, install, register, script_close, rearm_stdin, hja]; intros; split_ifs <;> simp_all; done)
           | (simp [teardown, erase_and_signal, install, register, script_close, rearm_stdin, hja]; intros; simp_all; done))

/-- A read on the PTY master is the decoder loop. -/
theorem read_ready_pty {E : Env} {s : Loop} (now : Int) (io : Sys) (i : Int)
    (hi : (s.fd2state i).state = STATE_PTY) :
    read_ready E now io i s =
      read_pty E now io.reads (s.upd_pfd i (fun p => { p with revents := 0 })) := by
  unfold read_ready
  simp only [fd2state_upd_pfd, hi]

theorem invalid_write_ready {E : Env} {s s' : Loop} {eff : List Effect} (now : Int) (io : Sys)
    (i j : Int) (hj : (s.fd2state j).state = STATE_INVALID)
    (hs : write_ready E now io i s = Outcome.cont s' eff) :
    (s'.fd2state j).state = STATE_INVALID := by
  unfold write_ready at hs
  simp only [fd2state_upd_pfd] at hs
  cases hr : (s.fd2state i).state <;> simp only [hr] at hs
  all_goals
    first
    | (unfold write_stdout at hs)
    | (unfold write_pty at hs)
    | (unfold write_tunnel at hs)
    | (unfold write_udpserver at hs)
    | (unfold write_script at hs)
    | skip
    try simp only at hs
    repeat' split at hs
    all_goals
      first
      | (cases hs; done)
      | (simp only [Outcome.cont.injEq] at hs
         obtain ⟨rfl, _⟩ := hs
         first
         | (simp [teardown, erase_and_signal, script_close, rearm_stdin]; done)
         | (simp [teardown, erase_and_signal, script_close, rearm_stdin]; intros; exact hj)
         | (simp [teardown, erase_and_signal, script_close, rearm_stdin]; intros; split_ifs <;> simp_all; done)
         | (simp [teardown, erase_and_signal, script_close, rearm_stdin]; intros; simp_all; done))

theorem closed_step {E : Env} {s s' : Loop} {eff : List Effect} (now : Int) (io : Sys)
    (i : Int) (hs : step E now io i s = Outcome.cont s' eff) :
    Closed i s' eff ∧ (Effect.close i ∈ eff → (s.fd2state i).state ≠ STATE_INVALID) := by
  unfold step at hs
  split at hs
  · simp only [Outcome.cont.injEq] at hs
    obtain ⟨rfl, rfl⟩ := hs
    unfold Closed
    simp
  · rename_i hinv
    refine ⟨?_, fun _ => hinv⟩
    split at hs
    · exact closed_timeout_close i hs
    · split at hs
      · exact closed_hangup_close i hs
      · split at hs
        · exact closed_read_ready now io i hs
        · split at hs
          · exact closed_write_ready now io i hs
          · simp only [Outcome.cont.injEq] at hs
            obtain ⟨rfl, rfl⟩ := hs
            unfold Closed
            simp


theorem own_upd_pfd {s : Loop} (i : Int) (f : pollfd → pollfd) (h : Owned s) :
    Owned (s.upd_pfd i f) :=
  Owned.keep h (fun fd _ => by simp) (by simp)

theorem own_polled {s : Loop} (rev : Int → Nat) (h : Owned s) : Owned (polled rev s) :=
  fun k fd hk => h k fd hk

/-- What a pass does to an INVALID record, given what its read of the PTY master does. -/
theorem invalid_step_of {E : Env}
    {s s' : Loop} {eff : List Effect} (now : Int) (io : Sys) (i j : Int)
    (hread : (s.fd2state i).state = STATE_PTY → ∀ s1 e1,
      read_pty E now io.reads (s.upd_pfd i (fun p => { p with revents := 0 })) =
        Outcome.cont s1 e1 → (s1.fd2state j).state = STATE_INVALID)
    (hj : (s.fd2state j).state = STATE_INVALID)
    (hs : step E now io i s = Outcome.cont s' eff) :
    (s'.fd2state j).state = STATE_INVALID ∨
      (j = io.afd ∧ 0 ≤ io.afd ∧ ((s.fd2state i).state = STATE_ACCEPT ∨
        (s.fd2state i).state = STATE_SOCKS5_ACCEPT ∨ (s.fd2state i).state = STATE_SOCKS4_ACCEPT ∨
        (s.fd2state i).state = STATE_SCRIPT_ACCEPT)) := by
  unfold step at hs
  split at hs
  · simp only [Outcome.cont.injEq] at hs
    obtain ⟨rfl, _⟩ := hs
    exact Or.inl hj
  · split at hs
    · exact Or.inl (invalid_timeout_close i j hj hs)
    · split at hs
      · exact Or.inl (invalid_hangup_close i j hj hs)
      · split at hs
        · by_cases hi : (s.fd2state i).state = STATE_PTY
          · rw [read_ready_pty now io i hi] at hs
            exact Or.inl (hread hi _ _ hs)
          · exact invalid_read_other now io i j hi hj hs
        · split at hs
          · exact Or.inl (invalid_write_ready now io i j hj hs)
          · simp only [Outcome.cont.injEq] at hs
            obtain ⟨rfl, _⟩ := hs
            exact Or.inl hj

/-- A pass that is not a read of the PTY master, or whose read delivers no command, turns an
INVALID record into a session only for the descriptor that accept returned. -/
theorem invalid_step_quiet {E : Env}
    {s s' : Loop} {eff : List Effect} (now : Int) (io : Sys) (i j : Int)
    (hq : (s.fd2state i).state ≠ STATE_PTY ∨ ∀ rd ∈ io.reads, rd.ext_cmd = [])
    (hj : (s.fd2state j).state = STATE_INVALID)
    (hs : step E now io i s = Outcome.cont s' eff) :
    (s'.fd2state j).state = STATE_INVALID ∨
      (j = io.afd ∧ 0 ≤ io.afd ∧ ((s.fd2state i).state = STATE_ACCEPT ∨
        (s.fd2state i).state = STATE_SOCKS5_ACCEPT ∨ (s.fd2state i).state = STATE_SOCKS4_ACCEPT ∨
        (s.fd2state i).state = STATE_SCRIPT_ACCEPT)) := by
  refine invalid_step_of now io i j ?_ hj hs
  intro hi s1 e1 h1
  rcases hq with hq | hq
  · exact absurd hi hq
  · exact invalid_read_pty_quiet now j io.reads hq
      (show ((s.upd_pfd i (fun p => { p with revents := 0 })).fd2state j).state = STATE_INVALID
        from hj) h1

/-- The same for every pass, when the dispatcher leaves INVALID records alone from the states
in which every key names a live session. -/
theorem invalid_step {E : Env}
    (hD : ∀ cmd t, Owned t → Owned (run_cmd_handler E cmd t) ∧
      ∀ k, (t.fd2state k).state = STATE_INVALID →
        ((run_cmd_handler E cmd t).fd2state k).state = STATE_INVALID)
    {s s' : Loop} {eff : List Effect} (now : Int) (io : Sys) (i j : Int) (ho : Owned s)
    (hj : (s.fd2state j).state = STATE_INVALID)
    (hs : step E now io i s = Outcome.cont s' eff) :
    (s'.fd2state j).state = STATE_INVALID ∨
      (j = io.afd ∧ 0 ≤ io.afd ∧ ((s.fd2state i).state = STATE_ACCEPT ∨
        (s.fd2state i).state = STATE_SOCKS5_ACCEPT ∨ (s.fd2state i).state = STATE_SOCKS4_ACCEPT ∨
        (s.fd2state i).state = STATE_SCRIPT_ACCEPT)) := by
  refine invalid_step_of now io i j ?_ hj hs
  intro _ s1 e1 h1
  exact invalid_read_pty hD now j io.reads (own_upd_pfd i _ ho)
    (show ((s.upd_pfd i (fun p => { p with revents := 0 })).fd2state j).state = STATE_INVALID
      from hj) h1

theorem invalid_winsize {E : Env} {s : Loop} (j : Int)
    (hj : (s.fd2state j).state = STATE_INVALID) :
    ((winsize_step E s).fd2state j).state = STATE_INVALID := by
  unfold winsize_step
  split
  · simpa using hj
  · exact hj

/-- Along a run in which the PTY decoder delivers no command and accept does not return `j`,
an INVALID record `j` stays INVALID and is not closed. -/
theorem trace_invalid_quiet {E : Env}
    {s t : Loop} {tr : List (Int × Sys × List Effect)} (j : Int) (h : Trace E s tr t)
    (hj : (s.fd2state j).state = STATE_INVALID) (ha : ∀ m ∈ tr, m.2.1.afd ≠ j)
    (hq : ∀ m ∈ tr, ∀ rd ∈ m.2.1.reads, rd.ext_cmd = []) :
    (t.fd2state j).state = STATE_INVALID ∧ ∀ m ∈ tr, Effect.close j ∉ m.2.2 := by
  induction h with
  | start => exact ⟨hj, by simp⟩
  | winsize _ ih =>
    obtain ⟨a, b⟩ := ih ha hq
    exact ⟨invalid_winsize j a, b⟩
  | poll rev _ ih => exact ih ha hq
  | @body t0 t1 tr0 eff now io i _ _ hs ih =>
    obtain ⟨a, b⟩ := ih (fun m hm => ha m (List.mem_append_left _ hm))
      (fun m hm => hq m (List.mem_append_left _ hm))
    have hafd : io.afd ≠ j := ha (i, io, eff) (by simp)
    have hqq : ∀ rd ∈ io.reads, rd.ext_cmd = [] := hq (i, io, eff) (by simp)
    refine ⟨?_, ?_⟩
    · rcases invalid_step_quiet now io i j (Or.inr hqq) a hs with h1 | ⟨h1, _⟩
      · exact h1
      · exact absurd h1.symm hafd
    · intro m hm
      rcases List.mem_append.1 hm with hm | hm
      · exact b m hm
      · simp only [List.mem_singleton] at hm
        subst hm
        intro hc
        obtain ⟨c1, c2⟩ := closed_step now io i hs
        have hji : j = i := c1.1 j hc
        subst hji
        exact c2 hc a

/-- Along every run in which accept does not return `j`, an INVALID record `j` stays INVALID
and is not closed, when the dispatcher leaves INVALID records alone from the states in which
every key names a live session. -/
theorem trace_invalid {E : Env}
    (hD : ∀ cmd t, Owned t → Owned (run_cmd_handler E cmd t) ∧
      ∀ k, (t.fd2state k).state = STATE_INVALID →
        ((run_cmd_handler E cmd t).fd2state k).state = STATE_INVALID)
    {s t : Loop} {tr : List (Int × Sys × List Effect)} (j : Int) (h : Trace E s tr t)
    (ho : Owned s)
    (hj : (s.fd2state j).state = STATE_INVALID) (ha : ∀ m ∈ tr, m.2.1.afd ≠ j) :
    (Owned t ∧ (t.fd2state j).state = STATE_INVALID) ∧ ∀ m ∈ tr, Effect.close j ∉ m.2.2 := by
  induction h with
  | start => exact ⟨⟨ho, hj⟩, by simp⟩
  | winsize _ ih =>
    obtain ⟨⟨o, a⟩, b⟩ := ih ha
    exact ⟨⟨own_winsize o, invalid_winsize j a⟩, b⟩
  | poll rev _ ih =>
    obtain ⟨⟨o, a⟩, b⟩ := ih ha
    exact ⟨⟨own_polled rev o, a⟩, b⟩
  | @body t0 t1 tr0 eff now io i _ hok hs ih =>
    obtain ⟨⟨o, a⟩, b⟩ := ih (fun m hm => ha m (List.mem_append_left _ hm))
    have hafd : io.afd ≠ j := ha (i, io, eff) (by simp)
    refine ⟨⟨?_, ?_⟩, ?_⟩
    · exact own_step (fun cmd t h => (hD cmd t h).1) now io i o (fun h0 => (hok.2.2 h0).2) hs
    · rcases invalid_step hD now io i j o a hs with h1 | ⟨h1, _⟩
      · exact h1
      · exact absurd h1.symm hafd
    · intro m hm
      rcases List.mem_append.1 hm with hm | hm
      · exact b m hm
      · simp only [List.mem_singleton] at hm
        subst hm
        intro hc
        obtain ⟨c1, c2⟩ := closed_step now io i hs
        have hji : j = i := c1.1 j hc
        subst hji
        exact c2 hc a

theorem demoPeer_invalid (cmd : List Nat) (s : Loop) (h : Owned s) :
    Owned (run_cmd_handler demoPeer cmd s) ∧
      ∀ k, (s.fd2state k).state = STATE_INVALID →
        ((run_cmd_handler demoPeer cmd s).fd2state k).state = STATE_INVALID := by
  refine ⟨demoPeer_owned cmd s h, fun k hk => ?_⟩
  have : ((demoDispatch cmd s).fd2state k).state = STATE_INVALID := by
    unfold demoDispatch
    split
    · exact apply_invalid _ h k hk
    · exact hk
  exact this

/-- C22: a descriptor is closed once per lifetime. (1) A pass of the body for a descriptor in
role INVALID does nothing. (2) A pass that calls close calls it on its own descriptor `i`
only, once, with the role of `i` not INVALID before the pass, and leaves role INVALID,
`fd2state[i].fd` and `pfds[i].fd` at -1; (3) so a pass never closes a descriptor whose role is
INVALID. (4) A pass that is not a read of the PTY master, or whose read delivers no command,
takes a record out of role INVALID only when it is for a listener whose accept returned that
descriptor; and in every run from the state after the pass in which no command is delivered
and accept does not return `j`, a descriptor `j` in role INVALID stays so and is not closed.
(5) The same holds for every pass and every run, commands included, when every key names a
live session before the pass, accept returns unused numbers, and the dispatcher, from states
in which every key names a live session, keeps that and leaves INVALID records alone. -/
theorem C22_closed_once (E : Env) (now : Int) (io : Sys) (i : Int) (s s' : Loop)
    (eff : List Effect) (hs : step E now io i s = Outcome.cont s' eff) :
    ((s.fd2state i).state = STATE_INVALID → s' = s ∧ eff = []) ∧
    (∀ fd, Effect.close fd ∈ eff →
      fd = i ∧ eff.count (Effect.close fd) = 1 ∧ (s.fd2state i).state ≠ STATE_INVALID ∧
      (s'.fd2state i).state = STATE_INVALID ∧ (s'.fd2state i).fd = -1 ∧ (s'.pfds i).fd = -1) ∧
    (∀ j, (s.fd2state j).state = STATE_INVALID → Effect.close j ∉ eff) ∧
    (((s.fd2state i).state ≠ STATE_PTY ∨ (∀ rd ∈ io.reads, rd.ext_cmd = []) →
        ∀ j, (s.fd2state j).state = STATE_INVALID →
          (s'.fd2state j).state = STATE_INVALID ∨
          (j = io.afd ∧ 0 ≤ io.afd ∧ ((s.fd2state i).state = STATE_ACCEPT ∨
            (s.fd2state i).state = STATE_SOCKS5_ACCEPT ∨
            (s.fd2state i).state = STATE_SOCKS4_ACCEPT ∨
            (s.fd2state i).state = STATE_SCRIPT_ACCEPT))) ∧
      ∀ (j : Int) (tr : List (Int × Sys × List Effect)) (t : Loop), Trace E s' tr t →
        (s'.fd2state j).state = STATE_INVALID → (∀ m ∈ tr, m.2.1.afd ≠ j) →
        (∀ m ∈ tr, ∀ rd ∈ m.2.1.reads, rd.ext_cmd = []) →
        (t.fd2state j).state = STATE_INVALID ∧ ∀ m ∈ tr, Effect.close j ∉ m.2.2) ∧
    ((∀ cmd t, Owned t → Owned (run_cmd_handler E cmd t) ∧
        ∀ k, (t.fd2state k).state = STATE_INVALID →
          ((run_cmd_handler E cmd t).fd2state k).state = STATE_INVALID) →
      Owned s → StepOK s io i →
      (∀ j, (s.fd2state j).state = STATE_INVALID →
        (s'.fd2state j).state = STATE_INVALID ∨
        (j = io.afd ∧ 0 ≤ io.afd ∧ ((s.fd2state i).state = STATE_ACCEPT ∨
          (s.fd2state i).state = STATE_SOCKS5_ACCEPT ∨
          (s.fd2state i).state = STATE_SOCKS4_ACCEPT ∨
          (s.fd2state i).state = STATE_SCRIPT_ACCEPT))) ∧
      ∀ (j : Int) (tr : List (Int × Sys × List Effect)) (t : Loop), Trace E s' tr t →
        (s'.fd2state j).state = STATE_INVALID → (∀ m ∈ tr, m.2.1.afd ≠ j) →
        (t.fd2state j).state = STATE_INVALID ∧ ∀ m ∈ tr, Effect.close j ∉ m.2.2) := by
  obtain ⟨c1, c2⟩ := closed_step now io i hs
  refine ⟨?_, ?_, ?_, ⟨?_, ?_⟩, ?_⟩
  · intro hi
    unfold step at hs
    rw [if_pos hi] at hs
    simp only [Outcome.cont.injEq] at hs
    exact ⟨hs.1.symm, hs.2.symm⟩
  · intro fd hfd
    have hfi : fd = i := c1.1 fd hfd
    subst hfi
    obtain ⟨d1, d2, d3, d4⟩ := c1.2 hfd
    exact ⟨rfl, d1, c2 hfd, d2, d3, d4⟩
  · intro j hj hc
    have hji : j = i := c1.1 j hc
    subst hji
    exact c2 hc hj
  · intro hq j hj
    exact invalid_step_quiet now io i j hq hj hs
  · intro j tr t htr hj ha hq
    exact trace_invalid_quiet j htr hj ha hq
  · intro hD ho hok
    have ho' : Owned s' :=
      own_step (fun cmd t h => (hD cmd t h).1) now io i ho (fun h0 => (hok.2.2 h0).2) hs
    exact ⟨fun j hj => invalid_step hD now io i j ho hj hs,
      fun j tr t htr hj ha => ⟨(trace_invalid hD j htr ho' hj ha).1.2,
        (trace_invalid hD j htr ho' hj ha).2⟩⟩

/-- C22 on a worked run with a dispatcher that obeys the remote side: the client on descriptor
8 hangs up before the remote side has confirmed the connect, the pass closes 8 once and
leaves it INVALID. The late `C:T:C:` for its key and the next pass for the TCP listener, whose
accept returns 11, neither close descriptor 8 again nor take it out of role INVALID. -/
theorem C22_closed_once_witness :
    (demoAccepted.fd2state 8).state = STATE_CONNECT ∧
    ∃ (s' : Loop) (eff : List Effect),
      step demoPeer 101 {} 8 (polled (ready 8 POLLHUP) demoAccepted) = Outcome.cont s' eff ∧
      eff.count (Effect.close 8) = 1 ∧
      (s'.fd2state 8).state = STATE_INVALID ∧ (s'.fd2state 8).fd = -1 ∧ (s'.pfds 8).fd = -1 ∧
      ∃ (t : Loop),
        Trace demoPeer s'
          [(3, { reads := [{ r := 0, ext_cmd := bytes "C:T:C:10.0.0.1/22/8/" }] }, []),
            (5, { afd := 11 }, [])] t ∧
        (t.fd2state 8).state = STATE_INVALID ∧ (t.fd2state 11).state = STATE_CONNECT := by
  have ho : Owned (polled (ready 8 POLLHUP) demoAccepted) :=
    own_polled _ (@own_step demoPeer demoPeer_owned (polled (ready 5 POLLIN) demoInit)
      demoAccepted [] 100 { afd := 8 } 5 (own_polled _ demoInit_owned) (fun _ => by decide) rfl)
  have h := C22_closed_once demoPeer 101 {} 8 (polled (ready 8 POLLHUP) demoAccepted)
    (after (step demoPeer 101 {} 8 (polled (ready 8 POLLHUP) demoAccepted))) _ rfl
  obtain ⟨_, h2, _, h4, h5, h6⟩ := h.2.1 8 (by decide)
  have r1 : Trace demoPeer
      (after (step demoPeer 101 {} 8 (polled (ready 8 POLLHUP) demoAccepted))) _ _ :=
    Trace.body 101 { reads := [{ r := 0, ext_cmd := bytes "C:T:C:10.0.0.1/22/8/" }] } 3
      (Trace.poll (ready 3 POLLIN) Trace.start) (by unfold StepOK; decide) rfl
  have r2 : Trace demoPeer
      (after (step demoPeer 101 {} 8 (polled (ready 8 POLLHUP) demoAccepted))) _ _ :=
    Trace.body 102 { afd := 11 } 5 (Trace.poll (ready 5 POLLIN) r1)
      (by unfold StepOK; decide) rfl
  obtain ⟨a, _⟩ := (h.2.2.2.2 demoPeer_invalid ho (by unfold StepOK; decide)).2 8 _ _ r2 h4
    (by decide)
  exact ⟨by decide, _, _, rfl, h2, h4, h5, h6, _, r2, a, by decide⟩

end Psc
